import Mathlib

/-! # openstorage: driver dispatch and SoftLayer price selection

A shallow embedding of

* `api/server/volume.go` (`volApi.getVolDriver`, `volApi.stats`,
  `volApi.snapEnumerate`, `volApi.delete`),
* `pkg/storageops/softlayer/softlayer.go` (the price selectors, the order
  container builder, `slOps.Create`, the two waits and the device operations),
* `pkg/storagepool/storagepool.go` and `pkg/clouddrive/clouddrive.go` (the
  unsupported providers),

followed by theorems about them.

Conventions of the embedding.

* Go `string` is `String`; Go `int` is `Int` (no arithmetic is performed on
  the integers of this code, only comparisons, so no wrap-around is involved).
* A Go pointer field `*T` is `Option T` (`none` is `nil`).
* A Go call that may panic lives in `Go α := Except Panic α`.
* A Go result pair `(T, error)` is `Except error T`.
-/

set_option autoImplicit false

namespace Openstorage

/-! ## Go runtime vocabulary -/

/-- Run-time panics that the embedded code can raise. -/
inductive Panic where
  | nilDereference
  | indexOutOfRange
  | explicit (text : String)
  deriving DecidableEq, Repr

/-- A Go computation that returns a value or panics. -/
abbrev Go (α : Type) := Except Panic α

/-- Equality of results is decidable when it is on values and errors. -/
instance instDecidableEqExcept {ε α : Type} [DecidableEq ε] [DecidableEq α] :
    DecidableEq (Except ε α)
  | .ok a, .ok b =>
    if h : a = b then isTrue (by rw [h]) else isFalse (fun h2 => h (by cases h2; rfl))
  | .error a, .error b =>
    if h : a = b then isTrue (by rw [h]) else isFalse (fun h2 => h (by cases h2; rfl))
  | .ok _, .error _ => isFalse (fun h => by cases h)
  | .error _, .ok _ => isFalse (fun h => by cases h)

/-- Go's `strings.Split(s, sep)` for a one-character separator, on the
characters of `s`: the pieces between the occurrences of `sep`. The result is
never empty (`strings.Split("", "/")` is `[""]`). -/
def splitChars (sep : Char) : List Char → List (List Char)
  | [] => [[]]
  | c :: cs =>
    if c = sep then [] :: splitChars sep cs
    else
      match splitChars sep cs with
      | [] => [[c]]
      | t :: ts => (c :: t) :: ts

/-- Go's `strings.Split(s, sep)` for a one-character separator. -/
def strings_Split (s : String) (sep : Char) : List String :=
  (splitChars sep s.toList).map String.mk

/-! ## `api/server/volume.go` -/

namespace Server

/-- Errors of the driver registry (`volume/drivers`). -/
inductive RegistryError where
  | ErrDriverNotFound
  | ErrDriverAlreadyRegistered
  deriving DecidableEq, Repr

/-- The process-wide driver registry `volumedrivers`: a Go
`map[string]VolumeDriver`, as a partial function from names to drivers. -/
abbrev Registry (D : Type) := String → Option D

/-- Modelled from the spec: `volumedrivers.Get` lives in `volume/drivers`,
which is not among the sources; the spec's registry contract is "`Get(name)`
fails with `NotFound` if absent" and returns the registered implementation
otherwise. -/
def volumedrivers_Get {D : Type} (reg : Registry D) (name : String) :
    Except RegistryError D :=
  match reg name with
  | some d => .ok d
  | none => .error .ErrDriverNotFound

/-- The constant `SchedDriverPostFix`. -/
def SchedDriverPostFix : String := "-sched"

/-- The part of `*http.Request` that `getVolDriver` reads:
`r.Header.Get("User-Agent")`, which is `""` when the header is absent. -/
structure Request where
  userAgent : String

/-- The method `(vd *volApi) getVolDriver(r)`; `name` is `vd.name`. -/
def getVolDriver {D : Type} (reg : Registry D) (name : String) (r : Request) :
    Except RegistryError D :=
  let userAgent := r.userAgent
  let byAgent : Option D :=
    if userAgent.length > 0 then
      match strings_Split userAgent '/' with
      | clientName0 :: _ =>
        match volumedrivers_Get reg clientName0 with
        | .ok d => some d
        | .error _ => none
      | [] => none
    else none
  match byAgent with
  | some d => .ok d
  | none =>
    match volumedrivers_Get reg (name ++ SchedDriverPostFix) with
    | .ok d => .ok d
    | .error _ => volumedrivers_Get reg name

/-- The text of a User-Agent before its first `/` (all of it when it has
none): the first `/`-separated token, stated without `strings.Split`. -/
def firstToken (userAgent : String) : String :=
  String.mk (userAgent.toList.takeWhile (fun c => c ≠ '/'))

end Server

/-! ## `pkg/storageops/softlayer/softlayer.go`: data model -/

namespace SoftLayer

/-- Go `float64`, restricted to what this code does with it: comparison, use
as a map key and conversion to `int`. The finite values of a `float64` are
rational numbers, so the model is `ℚ`; NaN and the infinities are not values of
the model. -/
abbrev Float64 := ℚ

/-- The float constant `0.25`, in normal form. -/
def quarter : Float64 := ⟨1, 4, by decide, by decide⟩

/-- A float with a fractional part, `50.5`, in normal form. -/
def fiftyAndHalf : Float64 := ⟨101, 2, by decide, by decide⟩

/-- The smallest `int` of a 64-bit platform, `math.MinInt64`. -/
def minInt64 : Int := -(2 ^ 63)

/-- The largest `int` of a 64-bit platform, `math.MaxInt64`. -/
def maxInt64 : Int := 2 ^ 63 - 1

/-- Go's conversion `int(f)` of a float on a 64-bit platform: the fraction is
discarded (truncation toward zero). When the truncated value does not fit an
`int`, Go leaves the result to the implementation; the result modelled is that
of the gc compiler on amd64, `math.MinInt64` for every such value. -/
def intOfFloat64 (f : Float64) : Int :=
  let t := Int.tdiv f.num f.den
  if minInt64 ≤ t ∧ t ≤ maxInt64 then t else minInt64

/-- Why `strconv` rejected a numeral. -/
inductive NumErr where
  | invalid
  | outOfRange
  deriving DecidableEq, Repr

/-- The value of a decimal digit, `none` for any other character. -/
def digitVal (c : Char) : Option Nat :=
  if '0' ≤ c ∧ c ≤ '9' then some (c.toNat - 48) else none

/-- The largest `uint64`. -/
def maxUint64 : Nat := 2 ^ 64 - 1

/-- The digit loop of `strconv.ParseUint(s, 10, 64)`: a non-digit is a syntax
error (value 0); running past `maxUint64` stops the scan with a range error
(value `maxUint64`). -/
def parseUintLoop : List Char → Nat → Nat × Option NumErr
  | [], n => (n, none)
  | c :: cs, n =>
    match digitVal c with
    | none => (0, some .invalid)
    | some d =>
      if n ≥ maxUint64 / 10 + 1 then (maxUint64, some .outOfRange)
      else if n * 10 + d > maxUint64 then (maxUint64, some .outOfRange)
      else parseUintLoop cs (n * 10 + d)

/-- Go's `strconv.ParseUint(s, 10, 64)`. -/
def strconv_ParseUint (cs : List Char) : Nat × Option NumErr :=
  if cs = [] then (0, some .invalid) else parseUintLoop cs 0

/-- Go's `strconv.ParseInt(s, 10, 0)` on a 64-bit platform: an optional sign,
then `ParseUint`; a syntax error gives 0, a value out of the `int64` range is
clamped to the nearest bound. -/
def strconv_ParseInt (cs : List Char) : Int × Option NumErr :=
  match cs with
  | [] => (0, some .invalid)
  | c :: rest =>
    let neg := decide (c = '-')
    let body := if c = '+' ∨ c = '-' then rest else cs
    match strconv_ParseUint body with
    | (_, some .invalid) => (0, some .invalid)
    | (un, _) =>
      if !neg ∧ un ≥ 2 ^ 63 then (2 ^ 63 - 1, some .outOfRange)
      else if neg ∧ un > 2 ^ 63 then (-(2 ^ 63), some .outOfRange)
      else (if neg then -(un : Int) else (un : Int), none)

/-- Go's `strconv.Atoi(s)`: the value and the error. (Its fast path for short
strings computes the same function as `ParseInt(s, 10, 0)`.) -/
def strconv_Atoi (s : String) : Int × Option NumErr :=
  strconv_ParseInt s.toList

/-- Go's `fmt.Sprintf("%d", n)`. -/
def fmt_d (n : Int) : String := toString n

/-- Dereference of a Go pointer: panics on `nil`. -/
def deref {α : Type} : Option α → Go α
  | some a => .ok a
  | none => .error .nilDereference

/-- Indexing `xs[0]` of a Go slice: panics when the slice is empty. -/
def index0 {α : Type} : List α → Go α
  | a :: _ => .ok a
  | [] => .error .indexOutOfRange

/-- The fields of `datatypes.Product_Item_Category` fetched by `itemMask`. -/
structure Product_Item_Category where
  CategoryCode : Option String
  deriving DecidableEq, Repr

/-- The fields of `datatypes.Product_Item_Price` fetched by `itemMask`. -/
structure Product_Item_Price where
  Id : Option Int := none
  LocationGroupId : Option Int := none
  Categories : List Product_Item_Category := []
  CapacityRestrictionMinimum : Option String := none
  CapacityRestrictionMaximum : Option String := none
  CapacityRestrictionType : Option String := none
  deriving DecidableEq, Repr

/-- The fields of `datatypes.Product_Item` fetched by `itemMask`. -/
structure Product_Item where
  Capacity : Option Float64 := none
  KeyName : Option String := none
  CapacityMinimum : Option String := none
  CapacityMaximum : Option String := none
  Prices : List Product_Item_Price := []
  ItemCategory : Option Product_Item_Category := none
  deriving DecidableEq

/-- The table `enduranceCapacityRestrictionMap`, in source order. -/
def enduranceCapacityRestrictionMap : List (Float64 × Int) :=
  [(quarter, 100), (2, 200), (4, 300), (10, 1000)]

/-- Indexing a Go `map[float64]int`: the zero value `0` for an absent key. -/
def mapIndex (m : List (Float64 × Int)) (k : Float64) : Int :=
  (m.lookup k).getD 0

/-- `sl.GrabOk(item, "ItemCategory.CategoryCode")`: the value at the end of
the path, `none` (Go's `ok == false`) when a pointer on the path is nil. -/
def grabItemCategoryCode (item : Product_Item) : Option String :=
  item.ItemCategory.bind (fun c => c.CategoryCode)

/-- The test `ok && category != want` that opens the item loops. -/
def categoryMismatch (item : Product_Item) (want : String) : Bool :=
  match grabItemCategoryCode item with
  | some category => category != want
  | none => false

/-! ## The price selectors -/

/-- The decision `getPrice` takes on one price: `true` when the price is
returned, `false` when the loop moves on (`continue`). It panics where the
source dereferences a nil pointer or indexes an empty `Categories`. -/
def priceAccepted (price : Product_Item_Price) (category restrictionType : String)
    (restrictionValue : Int) : Go Bool := do
  let skip ←
    if price.LocationGroupId.isSome then pure true
    else do
      let c0 ← index0 price.Categories
      let code ← deref c0.CategoryCode
      pure (code != category)
  if skip then pure false
  else if restrictionType ≠ "" ∧ restrictionValue > 0 then do
    let minText ← deref price.CapacityRestrictionMinimum
    let capacityRestrictionMinimum := (strconv_Atoi minText).1
    let maxText ← deref price.CapacityRestrictionMaximum
    let capacityRestrictionMaximum := (strconv_Atoi maxText).1
    let restriction ← deref price.CapacityRestrictionType
    if restrictionType ≠ restriction ∨ restrictionValue < capacityRestrictionMinimum
        ∨ restrictionValue > capacityRestrictionMaximum then pure false
    else pure true
  else pure true

/-- The function `getPrice`: the first accepted price, the zero value
`Product_Item_Price{}` when there is none. -/
def getPrice (prices : List Product_Item_Price) (category restrictionType : String)
    (restrictionValue : Int) : Go Product_Item_Price :=
  match prices with
  | [] => .ok {}
  | price :: rest =>
    match priceAccepted price category restrictionType restrictionValue with
    | .error p => .error p
    | .ok true => .ok price
    | .ok false => getPrice rest category restrictionType restrictionValue

/-- The function `getPriceByCategory`. -/
def getPriceByCategory (productItems : List Product_Item) (priceCategory : String) :
    Go (Except String Product_Item_Price) :=
  match productItems with
  | [] => .ok (.error
      ("No product items matching with category " ++ priceCategory ++ " could be found"))
  | item :: rest =>
    match getPrice item.Prices priceCategory "" 0 with
    | .error p => .error p
    | .ok price =>
      if price.Id.isSome then .ok (.ok price)
      else getPriceByCategory rest priceCategory

/-- The body of the item loop of `getSaaSPerformSpacePrice`: the price found
in this item, `none` on `continue`. -/
def performSpaceItem (item : Product_Item) (size : Int) : Go (Option Product_Item_Price) :=
  if categoryMismatch item "performance_storage_space" then .ok none
  else
    match item.CapacityMinimum, item.CapacityMaximum with
    | some minText, some maxText =>
      let capacityMinimum := (strconv_Atoi minText).1
      let capacityMaximum := (strconv_Atoi maxText).1
      if size < capacityMinimum ∨ size > capacityMaximum then .ok none
      else do
        let keyname := fmt_d capacityMinimum ++ "_" ++ fmt_d capacityMaximum ++ "_GBS"
        let itemKey ← deref item.KeyName
        if itemKey ≠ keyname then pure none
        else
          let price ← getPrice item.Prices "performance_storage_space" "" 0
          if price.Id.isSome then pure (some price) else pure none
    | _, _ => .ok none

/-- The function `getSaaSPerformSpacePrice`. -/
def getSaaSPerformSpacePrice (productItems : List Product_Item) (size : Int) :
    Go (Except String Product_Item_Price) :=
  match productItems with
  | [] => .ok (.error "Could not find price for performance storage space")
  | item :: rest =>
    match performSpaceItem item size with
    | .error p => .error p
    | .ok (some price) => .ok (.ok price)
    | .ok none => getSaaSPerformSpacePrice rest size

/-- The body of the item loop of `getSaaSPerformIOPSPrice`. -/
def performIOPSItem (item : Product_Item) (size iops : Int) :
    Go (Option Product_Item_Price) :=
  if categoryMismatch item "performance_storage_iops" then .ok none
  else
    match item.CapacityMinimum, item.CapacityMaximum with
    | some minText, some maxText =>
      let capacityMinimum := (strconv_Atoi minText).1
      let capacityMaximum := (strconv_Atoi maxText).1
      if iops < capacityMinimum ∨ iops > capacityMaximum then .ok none
      else do
        let price ← getPrice item.Prices "performance_storage_iops" "STORAGE_SPACE" size
        if price.Id.isSome then pure (some price) else pure none
    | _, _ => .ok none

/-- The function `getSaaSPerformIOPSPrice`. -/
def getSaaSPerformIOPSPrice (productItems : List Product_Item) (size iops : Int) :
    Go (Except String Product_Item_Price) :=
  match productItems with
  | [] => .ok (.error "Could not find price for iops for the given volume")
  | item :: rest =>
    match performIOPSItem item size iops with
    | .error p => .error p
    | .ok (some price) => .ok (.ok price)
    | .ok none => getSaaSPerformIOPSPrice rest size iops

/-- The key name that `getSaaSEnduranceSpacePrice` looks for. -/
def enduranceSpaceKeyName (iops : Float64) : String :=
  if iops ≠ quarter then
    "STORAGE_SPACE_FOR_" ++ fmt_d (intOfFloat64 iops) ++ "_IOPS_PER_GB"
  else "STORAGE_SPACE_FOR_0_25_IOPS_PER_GB"

/-- The body of the item loop of `getSaaSEnduranceSpacePrice`. -/
def enduranceSpaceItem (item : Product_Item) (keyName : String) (size : Int) :
    Go (Option Product_Item_Price) := do
  let itemKey ← deref item.KeyName
  if itemKey ≠ keyName then pure none
  else
    match item.CapacityMinimum, item.CapacityMaximum with
    | some minText, some maxText =>
      let capacityMinimum := (strconv_Atoi minText).1
      let capacityMaximum := (strconv_Atoi maxText).1
      if size < capacityMinimum ∨ size > capacityMaximum then pure none
      else do
        let price ← getPrice item.Prices "performance_storage_space" "" 0
        if price.Id.isSome then pure (some price) else pure none
    | _, _ => pure none

/-- The item loop of `getSaaSEnduranceSpacePrice`. -/
def enduranceSpaceLoop (productItems : List Product_Item) (keyName : String) (size : Int) :
    Go (Except String Product_Item_Price) :=
  match productItems with
  | [] => .ok (.error "Could not find price for endurance storage space")
  | item :: rest =>
    match enduranceSpaceItem item keyName size with
    | .error p => .error p
    | .ok (some price) => .ok (.ok price)
    | .ok none => enduranceSpaceLoop rest keyName size

/-- The function `getSaaSEnduranceSpacePrice`. -/
def getSaaSEnduranceSpacePrice (productItems : List Product_Item) (size : Int)
    (iops : Float64) : Go (Except String Product_Item_Price) :=
  enduranceSpaceLoop productItems (enduranceSpaceKeyName iops) size

/-- The body of the item loop of `getSaaSEnduranceTierPrice`. -/
def enduranceTierItem (item : Product_Item) (targetCapacity : Int) :
    Go (Option Product_Item_Price) :=
  if categoryMismatch item "storage_tier_level" then .ok none
  else do
    let capacity ← deref item.Capacity
    if intOfFloat64 capacity ≠ targetCapacity then pure none
    else
      let price ← getPrice item.Prices "storage_tier_level" "" 0
      if price.Id.isSome then pure (some price) else pure none

/-- The item loop of `getSaaSEnduranceTierPrice`. -/
def enduranceTierLoop (productItems : List Product_Item) (targetCapacity : Int) :
    Go (Except String Product_Item_Price) :=
  match productItems with
  | [] => .ok (.error "Could not find price for endurance tier level")
  | item :: rest =>
    match enduranceTierItem item targetCapacity with
    | .error p => .error p
    | .ok (some price) => .ok (.ok price)
    | .ok none => enduranceTierLoop rest targetCapacity

/-- The function `getSaaSEnduranceTierPrice`. -/
def getSaaSEnduranceTierPrice (productItems : List Product_Item) (iops : Float64) :
    Go (Except String Product_Item_Price) :=
  enduranceTierLoop productItems (mapIndex enduranceCapacityRestrictionMap iops)

/-- The restriction that `getSaaSSnapshotSpacePrice` filters on:
`(targetRestrictionType, targetValue)`. -/
def snapshotTarget (iops : Float64) (volumeType : String) : String × Int :=
  if volumeType = "Performance" then ("IOPS", intOfFloat64 iops)
  else ("STORAGE_TIER_LEVEL", mapIndex enduranceCapacityRestrictionMap iops)

/-- The body of the item loop of `getSaaSSnapshotSpacePrice`. -/
def snapshotSpaceItem (item : Product_Item) (size : Int) (targetRestrictionType : String)
    (targetValue : Int) : Go (Option Product_Item_Price) := do
  let capacity ← deref item.Capacity
  if intOfFloat64 capacity ≠ size then pure none
  else
    let price ← getPrice item.Prices "storage_snapshot_space" targetRestrictionType targetValue
    if price.Id.isSome then pure (some price) else pure none

/-- The item loop of `getSaaSSnapshotSpacePrice`. -/
def snapshotSpaceLoop (productItems : List Product_Item) (size : Int)
    (targetRestrictionType : String) (targetValue : Int) :
    Go (Except String Product_Item_Price) :=
  match productItems with
  | [] => .ok (.error "Could not find price for snapshot space")
  | item :: rest =>
    match snapshotSpaceItem item size targetRestrictionType targetValue with
    | .error p => .error p
    | .ok (some price) => .ok (.ok price)
    | .ok none => snapshotSpaceLoop rest size targetRestrictionType targetValue

/-- The function `getSaaSSnapshotSpacePrice`. -/
def getSaaSSnapshotSpacePrice (productItems : List Product_Item) (size : Int)
    (iops : Float64) (volumeType : String) : Go (Except String Product_Item_Price) :=
  snapshotSpaceLoop productItems size (snapshotTarget iops volumeType).1
    (snapshotTarget iops volumeType).2

/-! ## The vendor session and the order container -/

/-- The type `SoftLayerStorageType` is a string type. -/
abbrev SoftLayerStorageType := String

/-- The constant `Endurance`. -/
def Endurance : SoftLayerStorageType := "endurance"

/-- The constant `Performance`. -/
def Performance : SoftLayerStorageType := "performance"

/-- The constant `Linux` of `SoftLayerOsFormatType`. -/
def Linux : String := "Linux"

/-- The constant `blockStorage`. -/
def blockStorage : String := "block"

/-- The constant `storagePackageType`. -/
def storagePackageType : String := "STORAGE_AS_A_SERVICE"

/-- The constant `itemMask`. -/
def itemMask : String :=
  "id,capacity,description,units,keyName,capacityMinimum,capacityMaximum," ++
  "prices[id,categories[id,name,categoryCode],capacityRestrictionMinimum," ++
  "capacityRestrictionMaximum,capacityRestrictionType,locationGroupId]," ++
  "itemCategory[categoryCode]"

/-- The struct `SoftLayerBlockDisk`. -/
structure SoftLayerBlockDisk where
  StorageType : SoftLayerStorageType
  IOPS : Float64
  Capacity : Int
  SnapshotCapacity : Int
  OSFormatType : String
  HourlyBilling : Bool
  id : Int
  deriving DecidableEq

/-- The field of `datatypes.Product_Package` that is read. -/
structure Product_Package where
  Id : Option Int
  deriving DecidableEq

/-- The field of `datatypes.Location` that is read. -/
structure Location where
  Id : Option Int
  deriving DecidableEq

/-- The struct `datatypes.Network_Storage_Iscsi_OS_Type`. -/
structure Network_Storage_Iscsi_OS_Type where
  Id : Option Int := none
  KeyName : Option String := none
  deriving DecidableEq

/-- The struct `datatypes.Container_Product_Order`, the fields that are set. -/
structure Container_Product_Order where
  PackageId : Option Int := none
  Location : Option String := none
  Prices : List Product_Item_Price := []
  Quantity : Option Int := none
  UseHourlyPricing : Option Bool := none
  deriving DecidableEq

/-- The struct `datatypes.Container_Product_Order_Network_Storage_AsAService`. -/
structure Container_Product_Order_Network_Storage_AsAService where
  Container_Product_Order : Container_Product_Order
  OsFormatType : Option Network_Storage_Iscsi_OS_Type := none
  Iops : Option Int := none
  VolumeSize : Option Int := none
  deriving DecidableEq

/-- The field of `datatypes.Container_Product_Order_Receipt` that is read. -/
structure Container_Product_Order_Receipt where
  OrderId : Option Int
  deriving DecidableEq

/-- The fields of `datatypes.Network_Storage` that are read. -/
structure Network_Storage where
  Id : Option Int := none
  ActiveTransactionCount : Option Nat := none
  deriving DecidableEq

/-- The field of `datatypes.Billing_Item` that is read. -/
structure Billing_Item where
  Id : Option Int
  deriving DecidableEq

/-- An error of the vendor API: its text and, for an `sl.Error`, the HTTP
status code. -/
structure ApiError where
  text : String
  statusCode : Option Int := none
  deriving DecidableEq

/-- The vendor side (a `*session.Session` and what the SoftLayer services
answer through it). The lookups return what the helper returns; the polled
queries are indexed by the number of earlier queries of the same kind.
`lookupPolls` and `availablePolls` stand for the 45 minute timeouts: the number
of refreshes a wait has time for. -/
structure Session where
  GetOsTypeByName : String → Network_Storage_Iscsi_OS_Type × Option String
  GetPackageByType : String → Except String Product_Package
  GetPackageProducts : Int → String → Except String (List Product_Item)
  GetDatacenterByName : String → Except String Location
  PlaceOrder : Container_Product_Order_Network_Storage_AsAService → Bool →
    Except String Container_Product_Order_Receipt
  GetNetworkStorage : Int → Nat → Except String (List Network_Storage)
  GetObject : Int → Nat → Except ApiError Network_Storage
  GetVolumeStatus : Int → Nat → Except String String
  lookupPolls : Nat
  availablePolls : Nat
  GetBillingItem : Int → Except String Billing_Item
  CancelService : Int → Except String Bool

/-- Sequencing of Go calls that return `(value, error)` and may panic:
an error or a panic ends the function with it. -/
def andThen {α β : Type} (x : Go (Except String α)) (f : α → Go (Except String β)) :
    Go (Except String β) :=
  match x with
  | .error p => .error p
  | .ok (.error e) => .ok (.error e)
  | .ok (.ok a) => f a

/-- The slice `targetItemPrices` that `buildStorageProductOrderContainer`
assembles from the catalog. -/
def targetItemPrices (productItems : List Product_Item) (storageType : String)
    (iops : Float64) (capacity snapshotCapacity : Int) (storageProtocol : String) :
    Go (Except String (List Product_Item_Price)) :=
  andThen
    (if storageType = "Performance" then
      andThen (getPriceByCategory productItems "storage_as_a_service") fun p1 =>
      andThen (getPriceByCategory productItems ("storage_" ++ storageProtocol)) fun p2 =>
      andThen (getSaaSPerformSpacePrice productItems capacity) fun p3 =>
      andThen (getSaaSPerformIOPSPrice productItems capacity (intOfFloat64 iops)) fun p4 =>
      .ok (.ok [p1, p2, p3, p4])
    else
      andThen (getPriceByCategory productItems "storage_as_a_service") fun p1 =>
      andThen (getPriceByCategory productItems ("storage_" ++ storageProtocol)) fun p2 =>
      andThen (getSaaSEnduranceSpacePrice productItems capacity iops) fun p3 =>
      andThen (getSaaSEnduranceTierPrice productItems iops) fun p4 =>
      .ok (.ok [p1, p2, p3, p4]))
    fun prices =>
      if snapshotCapacity > 0 then
        andThen (getSaaSSnapshotSpacePrice productItems snapshotCapacity iops storageType)
          fun p5 => .ok (.ok (prices ++ [p5]))
      else .ok (.ok prices)

/-- The method `buildStorageProductOrderContainer`. -/
def buildStorageProductOrderContainer (s : Session) (storageType : String)
    (iops : Float64) (capacity snapshotCapacity : Int) (storageProtocol datacenter : String)
    (hourlyBilling : Bool) : Go (Except String Container_Product_Order) :=
  match s.GetPackageByType storagePackageType with
  | .error e => .ok (.error e)
  | .ok pkg =>
    match deref pkg.Id with
    | .error p => .error p
    | .ok pkgId =>
      match s.GetPackageProducts pkgId itemMask with
      | .error e => .ok (.error e)
      | .ok productItems =>
        andThen
          (targetItemPrices productItems storageType iops capacity snapshotCapacity
            storageProtocol)
          fun prices =>
            match s.GetDatacenterByName datacenter with
            | .error _ =>
              .ok (.error ("No data centers matching " ++ datacenter ++ " could be found"))
            | .ok dc =>
              match deref dc.Id with
              | .error p => .error p
              | .ok dcId =>
                .ok (.ok
                  { PackageId := pkg.Id
                    Location := some (fmt_d dcId)
                    Prices := prices
                    Quantity := some 1
                    UseHourlyPricing := some hourlyBilling })

/-! ## Waiting for the vendor, and `Create` -/

/-- A Go `interface{}` value as the two refresh functions produce it. -/
inductive Iface where
  | nil
  | bool (b : Bool)
  | storage (v : Network_Storage)
  deriving DecidableEq

/-- The errors of `resource.StateChangeConf.WaitForState`: the error of the
refresh function itself, `NotFoundError`, `UnexpectedStateError` and
`TimeoutError`. -/
inductive WaitError where
  | refresh (text : String)
  | notFound (retries : Nat)
  | unexpectedState (state : String)
  | timeout (expectedState : List String) (lastState : String)
  deriving DecidableEq

/-- The setting `Timeout: 45 * time.Minute` of both waits of this code, as
`time.Duration.String()` renders it. -/
def Timeout : String := "45m0s"

/-- The text of a `WaitError` (`err.Error()`). That of a `TimeoutError` names the
state waited for, the last state seen (when there is one) and the timeout. -/
def WaitError.text : WaitError → String
  | .refresh t => t
  | .notFound n => "couldn't find resource (" ++ toString n ++ " retries)"
  | .unexpectedState st => "unexpected state '" ++ st ++ "'"
  | .timeout expected last =>
    "timeout while waiting for " ++
      (if expected = [] then "resource to be gone"
       else "state to become '" ++ ", ".intercalate expected ++ "'") ++
      " (" ++ (if last = "" then "" else "last state: '" ++ last ++ "', ") ++
      "timeout: " ++ Timeout ++ ")"

/-- What a refresh function returns: `(result, state, err)`. -/
structure Refreshed where
  result : Iface
  state : String
  err : Option String
  deriving DecidableEq

/-- What `WaitForState` returns, with the index of the next vendor query. -/
structure Waited where
  result : Iface
  err : Option WaitError
  next : Nat
  deriving DecidableEq

/-- The refresh loop of terraform's `WaitForState` (a library the code calls),
with time replaced by a budget of refreshes: `fuel` is the number of refreshes
the timeout leaves room for, `i` the index of the next refresh, `tick` the
count of consecutive nil results and `last` the last state seen. -/
def waitLoop (pending target : List String) (notFoundChecks : Nat)
    (refresh : Nat → Go Refreshed) : Nat → Nat → Nat → String → Go Waited
  | 0, i, _, last => .ok ⟨.nil, some (.timeout target last), i⟩
  | fuel + 1, i, tick, _ =>
    match refresh i with
    | .error p => .error p
    | .ok ⟨res, _, some e⟩ => .ok ⟨res, some (.refresh e), i + 1⟩
    | .ok ⟨res, state, none⟩ =>
      if res = .nil ∧ target = [] then .ok ⟨res, none, i + 1⟩
      else if res = .nil then
        if tick + 1 > notFoundChecks then .ok ⟨res, some (.notFound (tick + 1)), i + 1⟩
        else waitLoop pending target notFoundChecks refresh fuel (i + 1) (tick + 1) state
      else if state ∈ target then .ok ⟨res, none, i + 1⟩
      else if state ∈ pending ∨ pending = [] then
        waitLoop pending target notFoundChecks refresh fuel (i + 1) 0 state
      else .ok ⟨res, some (.unexpectedState state), i + 1⟩

/-- The library call `stateConf.WaitForState()`; `notFoundChecks = 0` means the
default of 20. -/
def WaitForState (pending target : List String) (notFoundChecks : Nat)
    (refresh : Nat → Go Refreshed) (polls start : Nat) : Go Waited :=
  waitLoop pending target (if notFoundChecks = 0 then 20 else notFoundChecks) refresh
    polls start 0 ""

/-- Go's `strings.Contains`. -/
def strings_Contains (s sub : String) : Bool :=
  s.toList.tails.any (fun t => sub.toList.isPrefixOf t)

/-- Go's `strings.ToLower`, on ASCII letters (Go also lowers the upper-case
letters outside ASCII). -/
def strings_ToLower (s : String) : String :=
  String.mk (s.toList.map Char.toLower)

/-- The refresh function of `findStorageByOrderId`, at its `i`-th query. -/
def findStorageRefresh (s : Session) (orderId : Int) (i : Nat) : Go Refreshed :=
  match s.GetNetworkStorage orderId i with
  | .error e => .ok ⟨.storage {}, "", some e⟩
  | .ok storage =>
    match storage with
    | [only] => .ok ⟨.storage only, "complete", none⟩
    | [] => .ok ⟨.nil, "pending", none⟩
    | _ => .ok ⟨.nil, "", some "Expected one Storage: %!s(<nil>)"⟩

/-- The method `findStorageByOrderId`, with the index of its first query; it
returns the index of the next one too. -/
def findStorageByOrderId (s : Session) (orderId : Int) (start : Nat) :
    Go (Except String Network_Storage × Nat) :=
  match WaitForState ["pending"] ["complete"] 300 (findStorageRefresh s orderId)
      s.lookupPolls start with
  | .error p => .error p
  | .ok ⟨_, some err, next⟩ => .ok (.error err.text, next)
  | .ok ⟨.storage result, none, next⟩ => .ok (.ok result, next)
  | .ok ⟨_, none, next⟩ =>
    .ok (.error ("Cannot find Storage with order id '" ++ fmt_d orderId ++ "'"), next)

/-- The refresh function of `waitForStorageAvailable`, at its `i`-th probe. -/
def availableRefresh (s : Session) (id : Int) (i : Nat) : Go Refreshed :=
  match s.GetObject id i with
  | .error err =>
    if err.statusCode = some 404 then
      .ok ⟨.nil, "", some ("Error retrieving storage: " ++ err.text)⟩
    else .ok ⟨.bool false, "retry", none⟩
  | .ok result =>
    match deref result.ActiveTransactionCount with
    | .error p => .error p
    | .ok count =>
      if count > 0 then .ok ⟨.storage result, "provisioning", none⟩
      else
        match s.GetVolumeStatus id i with
        | .error _ => .ok ⟨.bool false, "retry", none⟩
        | .ok resultStr =>
          if !strings_Contains resultStr "PROVISION_COMPLETED" &&
              !strings_Contains resultStr "Volume Provisioning has completed" then
            .ok ⟨.storage result, "provisioning", none⟩
          else .ok ⟨.storage result, "available", none⟩

/-- The method `waitForStorageAvailable`. -/
def waitForStorageAvailable (s : Session) (d : SoftLayerBlockDisk) : Go Waited :=
  WaitForState ["retry", "provisioning"] ["available"] 0 (availableRefresh s d.id)
    s.availablePolls 0

/-- The receiver `slOps`: the data center and the session. -/
structure slOps where
  datacenter : String
  session : Session

/-- The `template interface{}` argument of `Create`: a `*SoftLayerBlockDisk`
(possibly a nil pointer) or a value of another type, given by its `%v` text. -/
inductive Template where
  | blockDisk (d : Option SoftLayerBlockDisk)
  | other (text : String)

/-- What a call of `Create` does: what it returns (on success the disk the
template points to), the struct the template points to as the call leaves it,
and the `PlaceOrder` calls it made, in order. -/
structure Created where
  ret : Go (Except String SoftLayerBlockDisk)
  disk : Option SoftLayerBlockDisk
  orders : List Container_Product_Order_Network_Storage_AsAService

/-- The part of `Create` from the `PlaceOrder` call on. -/
def createFromOrder (s : slOps) (diskSpec : SoftLayerBlockDisk)
    (order : Container_Product_Order_Network_Storage_AsAService) : Created :=
  match s.session.PlaceOrder order false with
  | .error e => ⟨.ok (.error ("Error during creation of storage: " ++ e)), some diskSpec, [order]⟩
  | .ok receipt =>
    match deref receipt.OrderId with
    | .error p => ⟨.error p, some diskSpec, [order]⟩
    | .ok orderId =>
      match findStorageByOrderId s.session orderId 0 with
      | .error p => ⟨.error p, some diskSpec, [order]⟩
      | .ok (.error e, _) =>
        ⟨.ok (.error ("Error during creation of storage: " ++ e)), some diskSpec, [order]⟩
      | .ok (.ok found, next) =>
        match deref found.Id with
        | .error p => ⟨.error p, some diskSpec, [order]⟩
        | .ok id1 =>
          let disk1 := { diskSpec with id := id1 }
          match waitForStorageAvailable s.session disk1 with
          | .error p => ⟨.error p, some disk1, [order]⟩
          | .ok ⟨_, some err, _⟩ =>
            ⟨.ok (.error ("Error waiting for storage (" ++ fmt_d disk1.id ++
              ") to become ready: " ++ err.text)), some disk1, [order]⟩
          | .ok ⟨_, none, _⟩ =>
            match findStorageByOrderId s.session orderId next with
            | .error p => ⟨.error p, some disk1, [order]⟩
            | .ok (.error e, _) =>
              ⟨.ok (.error ("Error during creation of storage: " ++ e)), some disk1, [order]⟩
            | .ok (.ok again, _) =>
              match deref again.Id with
              | .error p => ⟨.error p, some disk1, [order]⟩
              | .ok id2 =>
                let disk2 := { disk1 with id := id2 }
                ⟨.ok (.ok disk2), some disk2, [order]⟩

/-- The method `Create` (its `labels` argument is not used). -/
def Create (s : slOps) (template : Template) : Created :=
  match template with
  | .other text =>
    ⟨.ok (.error ("invalid disk spec provided for softlayer disk: " ++ text)), none, []⟩
  | .blockDisk none => ⟨.error .nilDereference, none, []⟩
  | .blockDisk (some diskSpec) =>
    let storageType := strings_ToLower diskSpec.StorageType
    let iops := diskSpec.IOPS
    let capacity := diskSpec.Capacity
    let snapshotCapacity := diskSpec.SnapshotCapacity
    let osFormatType := if diskSpec.OSFormatType.length = 0 then Linux else diskSpec.OSFormatType
    let osType := (s.session.GetOsTypeByName osFormatType).1
    let hourlyBilling := diskSpec.HourlyBilling
    let datacenter := s.datacenter
    match buildStorageProductOrderContainer s.session storageType iops capacity
        snapshotCapacity blockStorage datacenter hourlyBilling with
    | .error p => ⟨.error p, some diskSpec, []⟩
    | .ok (.error e) =>
      ⟨.ok (.error ("Error while creating storage:" ++ e)), some diskSpec, []⟩
    | .ok (.ok storageOrderContainer) =>
      if diskSpec.StorageType = Endurance then
        createFromOrder s diskSpec
          { Container_Product_Order := storageOrderContainer
            OsFormatType := some { Id := osType.Id, KeyName := osType.KeyName }
            VolumeSize := some capacity }
      else if diskSpec.StorageType = Performance then
        createFromOrder s diskSpec
          { Container_Product_Order := storageOrderContainer
            OsFormatType := some { Id := osType.Id, KeyName := osType.KeyName }
            Iops := some (intOfFloat64 iops)
            VolumeSize := some capacity }
      else
        ⟨.ok (.error ("Error during creation of storage: Invalid storageType " ++ storageType)),
          some diskSpec, []⟩

/-! ## A sample catalog and session

Concrete inputs on which the definitions above are evaluated. -/

/-- A price with an id and one category, without restriction. -/
def plainPrice (id : Int) (category : String) : Product_Item_Price :=
  { Id := some id, Categories := [⟨some category⟩] }

/-- A price with an id, one category and a capacity restriction. -/
def restrictedPrice (id : Int) (category restriction lo hi : String) : Product_Item_Price :=
  { Id := some id, Categories := [⟨some category⟩],
    CapacityRestrictionType := some restriction,
    CapacityRestrictionMinimum := some lo, CapacityRestrictionMaximum := some hi }

/-- The catalog item of the base service. -/
def itemService : Product_Item :=
  { Capacity := some 0, KeyName := some "STORAGE_AS_A_SERVICE",
    ItemCategory := some ⟨some "storage_as_a_service"⟩,
    Prices := [plainPrice 1 "storage_as_a_service"] }

/-- The catalog item of the block protocol. -/
def itemBlock : Product_Item :=
  { Capacity := some 0, KeyName := some "BLOCK_STORAGE_2",
    ItemCategory := some ⟨some "storage_block"⟩,
    Prices := [plainPrice 2 "storage_block"] }

/-- Performance space, 100 to 124 GB. -/
def itemPerformSpace : Product_Item :=
  { Capacity := some 0, KeyName := some "100_124_GBS",
    CapacityMinimum := some "100", CapacityMaximum := some "124",
    ItemCategory := some ⟨some "performance_storage_space"⟩,
    Prices := [plainPrice 3 "performance_storage_space"] }

/-- Performance IOPS, 100 to 6000, for volumes of 100 to 124 GB. -/
def itemPerformIOPS : Product_Item :=
  { Capacity := some 0, KeyName := some "100_6000_IOPS",
    CapacityMinimum := some "100", CapacityMaximum := some "6000",
    ItemCategory := some ⟨some "performance_storage_iops"⟩,
    Prices := [restrictedPrice 4 "performance_storage_iops" "STORAGE_SPACE" "100" "124"] }

/-- Endurance space for the 2 IOPS per GB tier, 1 to 12000 GB. -/
def itemEnduranceSpace : Product_Item :=
  { Capacity := some 0, KeyName := some "STORAGE_SPACE_FOR_2_IOPS_PER_GB",
    CapacityMinimum := some "1", CapacityMaximum := some "12000",
    ItemCategory := some ⟨some "performance_storage_space"⟩,
    Prices := [plainPrice 5 "performance_storage_space"] }

/-- The tier level of 2 IOPS per GB (capacity 200). -/
def itemTier200 : Product_Item :=
  { Capacity := some 200, KeyName := some "READHEAVY_TIER",
    ItemCategory := some ⟨some "storage_tier_level"⟩,
    Prices := [plainPrice 6 "storage_tier_level"] }

/-- Snapshot space of 50 GB, priced per IOPS range and per tier level. -/
def itemSnapshot50 : Product_Item :=
  { Capacity := some 50, KeyName := some "50_GB_STORAGE_SPACE",
    ItemCategory := some ⟨some "storage_snapshot_space"⟩,
    Prices := [restrictedPrice 7 "storage_snapshot_space" "IOPS" "100" "6000",
               restrictedPrice 8 "storage_snapshot_space" "STORAGE_TIER_LEVEL" "200" "200"] }

/-- A catalog with one item of each kind. -/
def sampleCatalog : List Product_Item :=
  [itemService, itemBlock, itemPerformSpace, itemPerformIOPS, itemEnduranceSpace,
   itemTier200, itemSnapshot50]

/-- A vendor that serves `sampleCatalog`, accepts every order as order 77 and
has the volume ready at once as storage 9. -/
def sampleSession : Session where
  GetOsTypeByName := fun name => ({ Id := some 12, KeyName := some name }, none)
  GetPackageByType := fun _ => .ok ⟨some 759⟩
  GetPackageProducts := fun _ _ => .ok sampleCatalog
  GetDatacenterByName := fun _ => .ok ⟨some 1441195⟩
  PlaceOrder := fun _ _ => .ok ⟨some 77⟩
  GetNetworkStorage := fun _ _ => .ok [{ Id := some 9 }]
  GetObject := fun _ _ => .ok { Id := some 9, ActiveTransactionCount := some 0 }
  GetVolumeStatus := fun _ _ => .ok "PROVISION_COMPLETED"
  lookupPolls := 3
  availablePolls := 3
  GetBillingItem := fun id => .ok ⟨some (id + 1000)⟩
  CancelService := fun _ => .ok true

/-- The client of `sampleSession` in data center `dal10`. -/
def sampleOps : slOps := ⟨"dal10", sampleSession⟩

/-- The disk of the repository's test: endurance, 2 IOPS per GB. -/
def enduranceDisk (capacity snapshotCapacity : Int) : SoftLayerBlockDisk :=
  { StorageType := Endurance, IOPS := 2, Capacity := capacity,
    SnapshotCapacity := snapshotCapacity, OSFormatType := "", HourlyBilling := false, id := 0 }

/-- A performance disk of 100 GB at 1000 IOPS. -/
def performanceDisk : SoftLayerBlockDisk :=
  { StorageType := Performance, IOPS := 1000, Capacity := 100,
    SnapshotCapacity := 0, OSFormatType := "", HourlyBilling := false, id := 0 }

/-- The category a price is filed under: the code of its first category,
which is the one `getPrice` compares. -/
def firstCategoryCode (p : Product_Item_Price) : Option String :=
  match p.Categories with
  | c0 :: _ => c0.CategoryCode
  | [] => none

/-- A performance space item that carries no `itemCategory`. -/
def itemSpaceNoCategory : Product_Item :=
  { Capacity := some 0, KeyName := some "100_124_GBS",
    CapacityMinimum := some "100", CapacityMaximum := some "124",
    ItemCategory := none,
    Prices := [plainPrice 3 "performance_storage_space"] }

/-- The first price of a list that has no location group and is filed under
`category`: what `getPrice` finds when it applies no restriction filter,
stated as a search. -/
def firstPriceIn (prices : List Product_Item_Price) (category : String) :
    Option Product_Item_Price :=
  prices.find? (fun p => p.LocationGroupId.isNone && firstCategoryCode p == some category)

/-- An item that the tier lookup selects for the capacity `target`: its category
code is `storage_tier_level` or absent, the integer part of its capacity is
`target`, and its first `storage_tier_level` price without location group has an
id. -/
def tierCandidate (target : Int) (item : Product_Item) : Bool :=
  (grabItemCategoryCode item == some "storage_tier_level" ||
    grabItemCategoryCode item == none) &&
  (item.Capacity.map intOfFloat64 == some target) &&
  ((firstPriceIn item.Prices "storage_tier_level").bind (fun p => p.Id)).isSome

/-- A price on which `getPrice` does not panic when it applies no restriction
filter: it has a location group, or a first category with a code. -/
def priceWellFormed (p : Product_Item_Price) : Bool :=
  p.LocationGroupId.isSome || (firstCategoryCode p).isSome

/-- An item with a capacity, all of whose prices are well formed. -/
def itemWellFormed (item : Product_Item) : Bool :=
  item.Capacity.isSome && item.Prices.all priceWellFormed

/-- A tier level item of capacity 0. -/
def itemTier0 : Product_Item :=
  { Capacity := some 0, KeyName := some "NO_TIER",
    ItemCategory := some ⟨some "storage_tier_level"⟩,
    Prices := [plainPrice 9 "storage_tier_level"] }

/-- An item of capacity 200 with a tier level price and no `itemCategory`. -/
def itemTier200NoCategory : Product_Item :=
  { Capacity := some 200, KeyName := some "UNFILED",
    ItemCategory := none,
    Prices := [plainPrice 60 "storage_tier_level"] }

/-- Snapshot space whose capacity is 50.5, priced per IOPS range. -/
def itemSnapshotFractional : Product_Item :=
  { Capacity := some fiftyAndHalf, KeyName := some "SNAPSHOT_SPACE",
    ItemCategory := some ⟨some "storage_snapshot_space"⟩,
    Prices := [restrictedPrice 7 "storage_snapshot_space" "IOPS" "100" "6000"] }

/-- A tier level item that carries no capacity. -/
def itemTierNoCapacity : Product_Item :=
  { Capacity := none, KeyName := some "READHEAVY_TIER",
    ItemCategory := some ⟨some "storage_tier_level"⟩,
    Prices := [plainPrice 6 "storage_tier_level"] }

/-! ## The other operations of the SoftLayer backend -/

/-- A Go `error` of the storage-ops layer: the sentinel
`storageops.ErrNotSupported`, an error made by `fmt.Errorf`, or the
`*strconv.NumError` of a failed `strconv.Atoi`. -/
inductive OpsError where
  | ErrNotSupported
  | errorf (text : String)
  | numError (e : NumErr)
  deriving DecidableEq

/-- The method `DeviceMappings`. -/
def DeviceMappings (_s : slOps) : Except OpsError (List (String × String)) :=
  .error .ErrNotSupported

/-- The method `DevicePath`. -/
def DevicePath (_s : slOps) (_diskName : String) : Except OpsError String :=
  .error .ErrNotSupported

/-- The method `FreeDevices`; a block device mapping is an `interface{}`. -/
def FreeDevices (_s : slOps) (_blockDeviceMappings : List Template)
    (_rootDeviceName : String) : Except OpsError (List String) :=
  .error (.errorf "function not implemented")

/-- Go's `fmt.Sprintf("%s", n)` for an `int`: the verb `%s` does not apply to
integers, and `fmt` renders the operand as `%!s(int=n)`. -/
def fmt_s_int (n : Int) : String := "%!s(int=" ++ toString n ++ ")"

/-- The method `GetDeviceID`. Its body asserts the type of `returnObj`, a name
that is not declared in the function; the embedding reads it as the argument
`disk`, the only value the assertion can be about. -/
def GetDeviceID (_s : slOps) (disk : Template) : Go (Except OpsError String) :=
  match disk with
  | .other _ => .ok (.error (.errorf "received invalid disk in the get device ID call"))
  | .blockDisk none => .error .nilDereference
  | .blockDisk (some createdDevice) => .ok (.ok (fmt_s_int createdDevice.id))

/-- The method `Delete`: the error it returns, `none` for `nil`. -/
def Delete (s : slOps) (id : String) : Option OpsError :=
  match strconv_Atoi id with
  | (_, some e) => some (.numError e)
  | (storageID, none) =>
    match s.session.GetBillingItem storageID with
    | .error e =>
      some (.errorf
        ("Error while looking up billing item associated with the storage: " ++ e))
    | .ok billingItem =>
      match billingItem.Id with
      | none =>
        some (.errorf
          ("Error while looking up billing item associated with the storage: " ++
            "No billing item for ID:" ++ fmt_d storageID))
      | some billingId =>
        match s.session.CancelService billingId with
        | .error e => some (.errorf e)
        | .ok success =>
          if !success then some (.errorf "SoftLayer reported an unsuccessful cancellation")
          else none

/-- A vendor like `sampleSession` whose account query finds two storages for
the order. -/
def twoMatchSession : Session :=
  { sampleSession with
    GetNetworkStorage := fun _ _ => .ok [{ Id := some 9 }, { Id := some 10 }] }

/-- A vendor like `sampleSession` whose account query finds the storage once
and fails from then on. -/
def relookupFailsSession : Session :=
  { sampleSession with
    GetNetworkStorage := fun _ k => if k = 0 then .ok [{ Id := some 9 }] else .error "API down" }

/-- A vendor like `sampleSession` on which the storage has vanished when its
availability is probed (HTTP 404). -/
def vanishedSession : Session :=
  { sampleSession with GetObject := fun _ _ => .error ⟨"Not Found", some 404⟩ }

/-- The prices of a catalog in catalog order: items in order, prices in order
within an item. -/
def allPrices : List Product_Item → List Product_Item_Price
  | [] => []
  | item :: rest => item.Prices ++ allPrices rest

/-- An item whose only price has an id and no category at all. -/
def itemPriceNoCategories : Product_Item :=
  { Capacity := some 0, KeyName := some "UNFILED_PRICE",
    ItemCategory := some ⟨some "storage_as_a_service"⟩,
    Prices := [{ Id := some 1 }] }

/-- The state that the `j`-th availability probe of storage `id` reports, when
it reports one without error (`none` when the probe returns an error or
panics). -/
def probeState (s : Session) (id : Int) (j : Nat) : Option String :=
  match availableRefresh s id j with
  | .ok ⟨_, state, none⟩ => some state
  | _ => none

/-- The wait for storage `id` reaches `available` before its timeout, which
leaves room for `polls` probes: some probe `k < polls` reports `available`, and
every probe before it reports one of the pending states `retry` and
`provisioning`. -/
def reachesAvailable (s : Session) (id : Int) (polls : Nat) : Prop :=
  ∃ k, k < polls ∧ probeState s id k = some "available" ∧
    ∀ j, j < k → probeState s id j = some "retry" ∨ probeState s id j = some "provisioning"

/-- The order that `Create` places for `enduranceDisk 25 0` on the sample
catalog. -/
def sampleOrder : Container_Product_Order_Network_Storage_AsAService :=
  { Container_Product_Order :=
      { PackageId := some 759, Location := some "1441195",
        Prices := [plainPrice 1 "storage_as_a_service", plainPrice 2 "storage_block",
          plainPrice 5 "performance_storage_space", plainPrice 6 "storage_tier_level"],
        Quantity := some 1, UseHourlyPricing := some false },
    OsFormatType := some { Id := some 12, KeyName := some "Linux" },
    VolumeSize := some 25 }

/-- A vendor like `sampleSession` whose storage object comes without
`activeTransactionCount`. -/
def noCountSession : Session :=
  { sampleSession with GetObject := fun _ _ => .ok { Id := some 9 } }

/-- An item of capacity 50 that has no snapshot space price. -/
def itemCapacity50NoSnapshot : Product_Item :=
  { Capacity := some 50, KeyName := some "50_IOPS",
    ItemCategory := some ⟨some "performance_storage_iops"⟩,
    Prices := [plainPrice 10 "performance_storage_iops"] }

/-- An item that the snapshot lookup selects for the reserve `size` when it
applies no restriction filter: the integer part of its capacity is `size`, and
its first `storage_snapshot_space` price without location group has an id. -/
def snapshotCandidate (size : Int) (item : Product_Item) : Bool :=
  (item.Capacity.map intOfFloat64 == some size) &&
  ((firstPriceIn item.Prices "storage_snapshot_space").bind (fun p => p.Id)).isSome

end SoftLayer

/-! ## `pkg/storagepool/storagepool.go` and `pkg/clouddrive/clouddrive.go` -/

/-- The error `&errors.ErrNotSupported{}` of `api/errors`. -/
inductive SdkError where
  | ErrNotSupported
  deriving DecidableEq, Repr

namespace StoragePool

/-- The method `UnsupportedPoolProvider.EnumerateRebalanceJobs`; the context,
request and response types of package `api` are parameters. -/
def EnumerateRebalanceJobs {Ctx Req Resp : Type} (_c : Ctx) (_request : Option Req) :
    Go (Option Resp × Option SdkError) :=
  .ok (none, some .ErrNotSupported)

/-- The method `UnsupportedPoolProvider.Resize`. -/
def Resize {Ctx Req Resp : Type} (_c : Ctx) (_request : Option Req) :
    Go (Option Resp × Option SdkError) :=
  .ok (none, some .ErrNotSupported)

/-- The method `UnsupportedPoolProvider.Rebalance`. -/
def Rebalance {Ctx Req Resp : Type} (_c : Ctx) (_request : Option Req) :
    Go (Option Resp × Option SdkError) :=
  .ok (none, some .ErrNotSupported)

/-- The method `UnsupportedPoolProvider.UpdateRebalanceJobState`. -/
def UpdateRebalanceJobState {Ctx Req Resp : Type} (_c : Ctx) (_request : Option Req) :
    Go (Option Resp × Option SdkError) :=
  .ok (none, some .ErrNotSupported)

/-- The method `UnsupportedPoolProvider.GetRebalanceJobStatus`. -/
def GetRebalanceJobStatus {Ctx Req Resp : Type} (_c : Ctx) (_request : Option Req) :
    Go (Option Resp × Option SdkError) :=
  .error (.explicit "implement me")

/-- The method `UnsupportedPoolProvider.EnterMaintenance`. -/
def EnterMaintenance {Ctx Req Resp : Type} (_c : Ctx) (_request : Option Req) :
    Go (Option Resp × Option SdkError) :=
  .ok (none, some .ErrNotSupported)

/-- The method `UnsupportedPoolProvider.ExitMaintenance`. -/
def ExitMaintenance {Ctx Req Resp : Type} (_c : Ctx) (_request : Option Req) :
    Go (Option Resp × Option SdkError) :=
  .ok (none, some .ErrNotSupported)

end StoragePool

namespace CloudDrive

/-- The method `UnsupportedCloudDriveSetProvider.Detach`. -/
def Detach {Ctx Req Resp : Type} (_ctx : Ctx) (_req : Option Req) :
    Go (Option Resp × Option SdkError) :=
  .ok (none, some .ErrNotSupported)

end CloudDrive

/-! ## `api/server/volume.go`: the registry contract and the stats handler -/

namespace Server

/-- Modelled from the spec: `Register` of the driver registry lives in
`volume/drivers`, which is not among the sources; the spec's contract is
"`Register(name, impl)` fails with `AlreadyRegistered` if `name` is taken".
The result is the registry after the call and the error (`none` for `nil`). -/
def volumedrivers_Register {D : Type} (reg : Registry D) (name : String) (impl : D) :
    Registry D × Option RegistryError :=
  match reg name with
  | some _ => (reg, some .ErrDriverAlreadyRegistered)
  | none => (fun n => if n = name then some impl else reg n, none)

/-- The registry at process start: no driver is registered. -/
def emptyRegistry {D : Type} : Registry D := fun _ => none

/-- The registry after the registrations `regs`, made in order from process
start; a registration that fails leaves the registry as it is. -/
def registerAll {D : Type} (regs : List (String × D)) : Registry D :=
  regs.foldl (fun reg p => (volumedrivers_Register reg p.1 p.2).1) emptyRegistry

/-- The parts of `*http.Request` that the handlers read: the header (see
`Request`), the route variables `mux.Vars(r)` and the query `r.URL.Query()`,
a Go `map[string][]string`. -/
structure HttpRequest where
  header : Request
  vars : List (String × String)
  query : List (String × List String)

/-- Indexing a Go `map[string][]string` with the comma-ok form
`opt, ok := params[key]`. -/
def mapIndexOk (params : List (String × List String)) (key : String) :
    List String × Bool :=
  match params.lookup key with
  | some opt => (opt, true)
  | none => ([], false)

/-- Go's `strings.Join(elems, "")`. -/
def strings_Join (elems : List String) : String :=
  elems.foldl (fun acc e => acc ++ e) ""

/-- Go's `strconv.ParseBool`: the value and the error. -/
def strconv_ParseBool (str : String) : Bool × Option SoftLayer.NumErr :=
  if str ∈ ["1", "t", "T", "true", "TRUE", "True"] then (true, none)
  else if str ∈ ["0", "f", "F", "false", "FALSE", "False"] then (false, none)
  else (false, some .invalid)

/-- The double quote character, as a string. -/
def doubleQuote : String := String.singleton (Char.ofNat 34)

/-- The text of the error of `strconv.ParseBool` on `str`. -/
def parseBoolErrorText (str : String) : String :=
  "strconv.ParseBool: parsing " ++ doubleQuote ++ str ++ doubleQuote ++ ": invalid syntax"

/-- The method `(vd *volApi) parseID(r)`. -/
def parseID (r : HttpRequest) : Except String String :=
  match r.vars.lookup "id" with
  | some id => .ok id
  | none => .error "could not parse snap ID"

/-- The part of the `volume.VolumeDriver` interface that the stats handler
calls; `S` is the type of the statistics (`*api.Stats`). -/
structure VolumeDriver (S : Type) where
  Stats : String → Bool → Except String S

/-- A call of a driver method made by a handler. -/
inductive DriverCall where
  | Stats (volumeID : String) (cumulative : Bool)
  | SnapEnumerate (ids : List String) (labels : Option (List (String × String)))
  | Inspect (ids : List String)
  | Delete (volumeID : String)
  deriving DecidableEq, Repr

/-- What a handler writes to its `http.ResponseWriter`: an error sent by
`vd.sendError` with its HTTP status, the reply of `notFound`, or a JSON
encoding. -/
inductive Write (S : Type) where
  | sendError (name method text : String) (status : Nat)
  | notFound
  | encode (body : S)
  deriving DecidableEq

/-- What a call of a handler does: the writes to the response and the driver
calls, each in order, and the panic that ended it, if any. -/
structure Handled (S : Type) where
  writes : List (Write S)
  calls : List DriverCall
  panicked : Option Panic
  deriving DecidableEq

/-- The HTTP status `http.StatusBadRequest`. -/
def StatusBadRequest : Nat := 400

/-- The method `(vd *volApi) stats(w, r)`; `name` is `vd.name` and
`optCumulative` the constant `api.OptCumulative`, which package `api`
declares. -/
def stats {S : Type} (reg : Registry (VolumeDriver S)) (name optCumulative : String)
    (r : HttpRequest) : Handled S :=
  let method := "stats"
  match parseID r with
  | .error err =>
    ⟨[.sendError name method ("Failed to parse volumeID: " ++ err) StatusBadRequest], [], none⟩
  | .ok volumeID =>
    let params := r.query
    let option : Except (Handled S) Bool :=
      match mapIndexOk params optCumulative with
      | (opt, ok) =>
        if ok then
          match strconv_ParseBool (strings_Join opt) with
          | (boolValue, err) =>
            if !ok then
              match err with
              | some _ =>
                .error ⟨[.sendError name method
                  ("Failed to parse " ++ optCumulative ++ " option: " ++
                    parseBoolErrorText (strings_Join opt)) StatusBadRequest], [], none⟩
              | none => .error ⟨[], [], some .nilDereference⟩
            else .ok boolValue
        else .ok true
    match option with
    | .error done => done
    | .ok cumulative =>
      match getVolDriver reg name r.header with
      | .error _ => ⟨[.notFound], [], none⟩
      | .ok d =>
        match d.Stats volumeID cumulative with
        | .error err =>
          ⟨[.sendError name method ("Failed to get stats: " ++ err) StatusBadRequest],
            [.Stats volumeID cumulative], none⟩
        | .ok st => ⟨[.encode st], [.Stats volumeID cumulative], none⟩

/-- A driver whose statistics are the arguments it was called with. -/
def echoDriver : VolumeDriver (String × Bool) :=
  ⟨fun volumeID cumulative => .ok (volumeID, cumulative)⟩

/-- A registry with `echoDriver` registered as `pxd`. -/
def echoRegistry : Registry (VolumeDriver (String × Bool)) :=
  fun n => if n = "pxd" then some echoDriver else none

/-- A stats request for volume `v1` with the given query. -/
def statsRequest (query : List (String × List String)) : HttpRequest :=
  ⟨⟨"pxd/1.0"⟩, [("id", "v1")], query⟩

/-! ## `api/server/volume.go`: dispatch with its lookups, `snapEnumerate`, `delete` -/

/-- The method `getVolDriver` together with the names it passes to
`volumedrivers.Get`, in order. -/
def getVolDriverTraced {D : Type} (reg : Registry D) (name : String) (r : Request) :
    Except RegistryError D × List String :=
  let userAgent := r.userAgent
  let byAgent : Option D × List String :=
    if userAgent.length > 0 then
      match strings_Split userAgent '/' with
      | clientName0 :: _ =>
        match volumedrivers_Get reg clientName0 with
        | .ok d => (some d, [clientName0])
        | .error _ => (none, [clientName0])
      | [] => (none, [])
    else (none, [])
  match byAgent with
  | (some d, lookups) => (.ok d, lookups)
  | (none, lookups) =>
    match volumedrivers_Get reg (name ++ SchedDriverPostFix) with
    | .ok d => (.ok d, lookups ++ [name ++ SchedDriverPostFix])
    | .error _ =>
      (volumedrivers_Get reg name, lookups ++ [name ++ SchedDriverPostFix, name])

/-- The number of keys of a Go map given as an association list: `len(params)`. -/
def mapLen : List (String × List String) → Nat
  | [] => 0
  | (k, _) :: rest => if (rest.lookup k).isSome then mapLen rest else mapLen rest + 1

/-- The assignment `ids[i] = s` on a Go slice: panics when `i` is not an index
of `ids`. -/
def setIndex (ids : List String) (i : Nat) (s : String) : Go (List String) :=
  if i < ids.length then .ok (ids.set i s) else .error .indexOutOfRange

/-- The loop `for i, s := range v { ids[i] = string(s) }`, from index `i` on. -/
def copyInto (ids : List String) : Nat → List String → Go (List String)
  | _, [] => .ok ids
  | i, s :: rest =>
    match setIndex ids i s with
    | .error p => .error p
    | .ok ids2 => copyInto ids2 (i + 1) rest

/-- The part of the `volume.VolumeDriver` interface that `snapEnumerate`
calls; `V` is the type of the result (`[]*api.Volume`), labels are a
`map[string]string` (`none` for a nil map). -/
structure SnapshotDriver (V : Type) where
  SnapEnumerate : List String → Option (List (String × String)) → Except String V

/-- The method `(vd *volApi) snapEnumerate(w, r)`; `name` is `vd.name`,
`optLabel` and `optVolumeID` are the constants `api.OptLabel` and
`api.OptVolumeID`, and `unmarshal` is `json.Unmarshal` into the labels. A nil
slice is the empty list. -/
def snapEnumerate {V : Type} (reg : Registry (SnapshotDriver V))
    (name optLabel optVolumeID : String)
    (unmarshal : String → Except String (List (String × String))) (r : HttpRequest) :
    Handled V :=
  let method := "snapEnumerate"
  match getVolDriver reg name r.header with
  | .error _ => ⟨[.notFound], [], none⟩
  | .ok d =>
    let params := r.query
    let labelStep : Option (List (String × String)) × List (Write V) :=
      match (mapIndexOk params optLabel).1 with
      | [] => (none, [])
      | v0 :: _ =>
        match unmarshal v0 with
        | .error err =>
          (none, [.sendError name method ("Failed to parse parse VolumeLabels: " ++ err)
            StatusBadRequest])
        | .ok labels => (some labels, [])
    match mapIndexOk params optVolumeID with
    | (v, ok) =>
      let idStep : Go (List String) :=
        if v ≠ [] ∧ ok then copyInto (List.replicate (mapLen params) "") 0 v
        else .ok []
      match idStep with
      | .error p => ⟨labelStep.2, [], some p⟩
      | .ok ids =>
        match d.SnapEnumerate ids labelStep.1 with
        | .error err =>
          ⟨labelStep.2 ++ [.sendError name method ("Failed to enumerate snaps: " ++ err)
            StatusBadRequest], [.SnapEnumerate ids labelStep.1], none⟩
        | .ok snaps => ⟨labelStep.2 ++ [.encode snaps], [.SnapEnumerate ids labelStep.1], none⟩

/-- The field of `api.VolumeSpec` that `delete` reads. -/
structure VolumeSpec where
  Sticky : Bool
  deriving DecidableEq

/-- The field of `api.Volume` that `delete` reads. -/
structure Volume where
  Spec : Option VolumeSpec
  deriving DecidableEq

/-- The field of `api.VolumeResponse` that `delete` sets. -/
structure VolumeResponse where
  Error : String := ""
  deriving DecidableEq

/-- The part of the `volume.VolumeDriver` interface that `delete` calls:
`Inspect` returns `([]*api.Volume, error)`, `Delete` an `error`. -/
structure DeleteDriver where
  Inspect : List String → List (Option Volume) × Option String
  Delete : String → Option String

/-- The method `(vd *volApi) delete(w, r)`; `name` is `vd.name`. -/
def delete (reg : Registry DeleteDriver) (name : String) (r : HttpRequest) :
    Handled VolumeResponse :=
  let method := "delete"
  match parseID r with
  | .error err =>
    ⟨[.sendError name method ("Failed to parse parse volumeID: " ++ err) StatusBadRequest],
      [], none⟩
  | .ok volumeID =>
    match getVolDriver reg name r.header with
    | .error _ => ⟨[.notFound], [], none⟩
    | .ok d =>
      match d.Inspect [volumeID] with
      | (volumes, _) =>
        if volumes.length < 1 then
          ⟨[.sendError name method ("Volume " ++ volumeID ++ " does not exist")
            StatusBadRequest], [.Inspect [volumeID]], none⟩
        else
          match SoftLayer.index0 volumes with
          | .error p => ⟨[], [.Inspect [volumeID]], some p⟩
          | .ok vol =>
            match vol.bind (fun v => v.Spec) with
            | none => ⟨[], [.Inspect [volumeID]], some .nilDereference⟩
            | some spec =>
              if spec.Sticky then
                ⟨[.encode ⟨"Cannot delete a sticky volume"⟩], [.Inspect [volumeID]], none⟩
              else
                match d.Delete volumeID with
                | some err =>
                  ⟨[.encode ⟨err⟩], [.Inspect [volumeID], .Delete volumeID], none⟩
                | none => ⟨[.encode ⟨""⟩], [.Inspect [volumeID], .Delete volumeID], none⟩

/-- Whether a driver call is a call of `Delete`. -/
def isDeleteCall : DriverCall → Bool
  | .Delete _ => true
  | _ => false

/-- A snapshot driver whose result is the ids it was given. -/
def echoSnapDriver : SnapshotDriver (List String) :=
  ⟨fun ids _ => .ok ids⟩

/-- A registry with `echoSnapDriver` registered as `pxd`. -/
def echoSnapRegistry : Registry (SnapshotDriver (List String)) :=
  fun n => if n = "pxd" then some echoSnapDriver else none

/-- A request of the client `pxd` with the given query. -/
def queryRequest (query : List (String × List String)) : HttpRequest :=
  ⟨⟨"pxd/1.0"⟩, [], query⟩

/-- A driver with one volume, `v1`, sticky or not, whose `Delete` succeeds. -/
def oneVolumeDriver (sticky : Bool) : DeleteDriver :=
  ⟨fun ids => (if ids = ["v1"] then [some ⟨some ⟨sticky⟩⟩] else [], none), fun _ => none⟩

/-- A registry with `oneVolumeDriver` registered as `pxd`. -/
def oneVolumeRegistry (sticky : Bool) : Registry DeleteDriver :=
  fun n => if n = "pxd" then some (oneVolumeDriver sticky) else none

/-- The request of the client `pxd` to delete the volume `id`. -/
def deleteRequest (id : String) : HttpRequest :=
  ⟨⟨"pxd/1.0"⟩, [("id", id)], []⟩

end Server

/-! ## Lemmas: splitting -/

theorem splitChars_ne_nil (sep : Char) (cs : List Char) : splitChars sep cs ≠ [] := by
  induction cs with
  | nil => simp [splitChars]
  | cons c cs ih =>
    unfold splitChars
    split
    · simp
    · split
      · simp
      · simp

theorem splitChars_head (sep : Char) (cs : List Char) :
    (splitChars sep cs).head? = some (cs.takeWhile (fun c => c ≠ sep)) := by
  induction cs with
  | nil => simp [splitChars]
  | cons c cs ih =>
    unfold splitChars
    by_cases h : c = sep
    · simp [h]
    · simp only [h, if_false]
      cases hs : splitChars sep cs with
      | nil => exact absurd hs (splitChars_ne_nil sep cs)
      | cons t ts =>
        rw [hs] at ih
        simp at ih
        simp [List.takeWhile, h, ih]

theorem strings_Split_eq_cons (s : String) :
    ∃ rest, strings_Split s '/' = Server.firstToken s :: rest := by
  unfold strings_Split Server.firstToken
  have h := splitChars_head '/' s.toList
  cases hs : splitChars '/' s.toList with
  | nil => exact absurd hs (splitChars_ne_nil _ _)
  | cons t ts =>
    rw [hs] at h
    simp at h
    exact ⟨ts.map String.mk, by simp [h]⟩

/-! ## Lemmas: `getPrice` -/

namespace SoftLayer

theorem priceAccepted_true {price : Product_Item_Price} {category restrictionType : String}
    {restrictionValue : Int}
    (h : priceAccepted price category restrictionType restrictionValue = .ok true) :
    price.LocationGroupId = none ∧
    (∃ c0 rest, price.Categories = c0 :: rest ∧ c0.CategoryCode = some category) ∧
    (restrictionType ≠ "" → restrictionValue > 0 →
      ∃ lo hi, price.CapacityRestrictionMinimum = some lo ∧
        price.CapacityRestrictionMaximum = some hi ∧
        price.CapacityRestrictionType = some restrictionType ∧
        (strconv_Atoi lo).1 ≤ restrictionValue ∧ restrictionValue ≤ (strconv_Atoi hi).1) := by
  unfold priceAccepted at h
  cases hL : price.LocationGroupId with
  | some g => simp [hL, bind, Except.bind, pure, Except.pure] at h
  | none =>
    cases hC : price.Categories with
    | nil => simp [hL, hC, index0, bind, Except.bind, pure, Except.pure] at h
    | cons c0 rest =>
      cases hcode : c0.CategoryCode with
      | none => simp [hL, hC, hcode, index0, deref, bind, Except.bind, pure, Except.pure] at h
      | some code =>
        simp [hL, hC, hcode, index0, deref, bind, Except.bind, pure, Except.pure] at h
        by_cases hcat : code = category
        · subst hcat
          refine ⟨rfl, ⟨c0, rest, rfl, hcode⟩, ?_⟩
          intro hrt hrv
          have hrv2 : 0 < restrictionValue := hrv
          simp only [if_true, hrt, hrv2, not_false_eq_true, and_self] at h
          cases hlo : price.CapacityRestrictionMinimum with
          | none => simp [hlo] at h
          | some lo =>
            cases hhi : price.CapacityRestrictionMaximum with
            | none => simp [hlo, hhi] at h
            | some hi =>
              cases hty : price.CapacityRestrictionType with
              | none => simp [hlo, hhi, hty] at h
              | some ty =>
                simp only [hlo, hhi, hty] at h
                split at h
                · cases h
                · rename_i hn
                  simp only [not_or, not_not, not_lt] at hn
                  exact ⟨lo, hi, rfl, rfl, by rw [hn.1], hn.2.1, hn.2.2⟩
        · simp [hcat] at h

theorem getPrice_found {prices : List Product_Item_Price} {category restrictionType : String}
    {restrictionValue : Int} {price : Product_Item_Price}
    (h : getPrice prices category restrictionType restrictionValue = .ok price)
    (hid : price.Id.isSome) :
    price ∈ prices ∧
      priceAccepted price category restrictionType restrictionValue = .ok true := by
  induction prices with
  | nil =>
    simp only [getPrice] at h
    cases h
    simp at hid
  | cons p rest ih =>
    unfold getPrice at h
    cases hp : priceAccepted p category restrictionType restrictionValue with
    | error e => simp [hp] at h
    | ok b =>
      cases b with
      | true =>
        simp only [hp] at h
        cases h
        exact ⟨List.mem_cons_self _ _, hp⟩
      | false =>
        simp only [hp] at h
        obtain ⟨hm, ha⟩ := ih h
        exact ⟨List.mem_cons_of_mem _ hm, ha⟩

end SoftLayer

/-! ## Driver dispatch (`getVolDriver`) -/

namespace Server

theorem length_pos_iff_ne_empty (s : String) : s.length > 0 ↔ s ≠ "" := by
  cases s with
  | mk data =>
    cases data with
    | nil => simp [String.length]
    | cons c cs =>
      simp only [String.length, List.length_cons, gt_iff_lt, Nat.zero_lt_succ, true_iff]
      intro h
      have := congrArg String.data h
      simp at this

theorem getVolDriver_eq {D : Type} (reg : Registry D) (name userAgent : String) :
    getVolDriver reg name ⟨userAgent⟩ =
      match (if userAgent ≠ "" then reg (firstToken userAgent) else none) with
      | some d => .ok d
      | none =>
        match reg (name ++ "-sched") with
        | some d => .ok d
        | none => volumedrivers_Get reg name := by
  obtain ⟨rest, hsplit⟩ := strings_Split_eq_cons userAgent
  unfold getVolDriver
  simp only [hsplit, SchedDriverPostFix, volumedrivers_Get]
  by_cases hua : userAgent = ""
  · have hlen : ¬ userAgent.length > 0 := by
      rw [length_pos_iff_ne_empty]; simpa using hua
    simp only [hlen, if_false, hua, ne_eq, not_true_eq_false]
    cases reg (name ++ "-sched") <;> rfl
  · have hlen : userAgent.length > 0 := (length_pos_iff_ne_empty _).2 hua
    simp only [hlen, if_true, ne_eq, hua, not_false_eq_true]
    cases reg (firstToken userAgent) with
    | some d => rfl
    | none => cases reg (name ++ "-sched") <;> rfl

/-- C1: `getVolDriver` returns the driver registered under the first
`/`-separated token of the User-Agent when the User-Agent is non-empty and that
token is registered; otherwise the driver registered under `name ++ "-sched"`
when that is registered; otherwise the result of looking up `name`. In
particular, with User-Agent `X/1.0` and base name `base` it prefers `X` to
`base-sched` to `base`. -/
theorem getVolDriver_precedence {D : Type} (reg : Registry D) (name userAgent : String) :
    (getVolDriver reg name ⟨userAgent⟩ =
      match (if userAgent ≠ "" then reg (firstToken userAgent) else none) with
      | some d => .ok d
      | none =>
        match reg (name ++ "-sched") with
        | some d => .ok d
        | none => volumedrivers_Get reg name) ∧
    (getVolDriver reg "base" ⟨"X/1.0"⟩ =
      match reg "X" with
      | some d => .ok d
      | none =>
        match reg "base-sched" with
        | some d => .ok d
        | none => volumedrivers_Get reg "base") := by
  refine ⟨getVolDriver_eq reg name userAgent, ?_⟩
  rw [getVolDriver_eq]
  have h1 : firstToken "X/1.0" = "X" := by decide
  have h2 : ("X/1.0" : String) ≠ "" := by decide
  have h3 : ("base" : String) ++ "-sched" = "base-sched" := by decide
  simp only [h1, h2, h3, if_true, ne_eq, not_false_eq_true]

/-- C2: `getVolDriver` fails if and only if none of its candidate names is
registered (the first `/`-token of a non-empty User-Agent, `name ++ "-sched"`
and `name`); when it fails, its error is the one the registry gives for the
lookup of `name`, the not-found error, and no driver is returned. -/
theorem getVolDriver_fails_iff {D : Type} (reg : Registry D) (name userAgent : String) :
    ((∃ e, getVolDriver reg name ⟨userAgent⟩ = .error e) ↔
      ((if userAgent ≠ "" then reg (firstToken userAgent) else none) = none ∧
        reg (name ++ "-sched") = none ∧ reg name = none)) ∧
    (∀ e, getVolDriver reg name ⟨userAgent⟩ = .error e →
      e = RegistryError.ErrDriverNotFound ∧
      volumedrivers_Get reg name = .error e ∧
      ∀ d, getVolDriver reg name ⟨userAgent⟩ ≠ .ok d) := by
  rw [getVolDriver_eq]
  cases h1 : (if userAgent ≠ "" then reg (firstToken userAgent) else none) with
  | some d => simp
  | none =>
    cases h2 : reg (name ++ "-sched") with
    | some d => simp
    | none =>
      cases h3 : reg name with
      | some d => simp [volumedrivers_Get, h3]
      | none =>
        simp only [volumedrivers_Get, h3, and_self, iff_true, true_and]
        refine ⟨⟨_, rfl⟩, ?_⟩
        intro e he
        cases he
        simp

end Server

namespace SoftLayer

theorem priceAccepted_category {price : Product_Item_Price} {category restrictionType : String}
    {restrictionValue : Int}
    (h : priceAccepted price category restrictionType restrictionValue = .ok true) :
    price.LocationGroupId = none ∧ firstCategoryCode price = some category := by
  obtain ⟨h1, ⟨c0, rest, hc, hcode⟩, _⟩ := priceAccepted_true h
  exact ⟨h1, by simp [firstCategoryCode, hc, hcode]⟩

theorem categoryMismatch_false {item : Product_Item} {want : String}
    (h : ¬ categoryMismatch item want = true) :
    grabItemCategoryCode item = some want ∨ grabItemCategoryCode item = none := by
  unfold categoryMismatch at h
  cases hg : grabItemCategoryCode item with
  | none => exact Or.inr rfl
  | some c =>
    simp only [hg, bne_iff_ne, ne_eq, not_not] at h
    exact Or.inl (by rw [h])

theorem performSpaceItem_some {item : Product_Item} {size : Int} {price : Product_Item_Price}
    (h : performSpaceItem item size = .ok (some price)) :
    price ∈ item.Prices ∧
    (grabItemCategoryCode item = some "performance_storage_space" ∨
      grabItemCategoryCode item = none) ∧
    (∃ lo hi, item.CapacityMinimum = some lo ∧ item.CapacityMaximum = some hi ∧
      (strconv_Atoi lo).1 ≤ size ∧ size ≤ (strconv_Atoi hi).1 ∧
      item.KeyName =
        some (fmt_d (strconv_Atoi lo).1 ++ "_" ++ fmt_d (strconv_Atoi hi).1 ++ "_GBS")) ∧
    price.Id.isSome ∧ price.LocationGroupId = none ∧
    firstCategoryCode price = some "performance_storage_space" := by
  unfold performSpaceItem at h
  split at h
  · cases h
  · rename_i hcat
    split at h
    · rename_i lo hi hlo hhi
      simp only at h
      split at h
      · cases h
      · rename_i hrange
        simp only [not_or, not_lt] at hrange
        cases hk : item.KeyName with
        | none => simp [hk, deref, bind, Except.bind] at h
        | some key =>
          simp only [hk, deref, bind, Except.bind, pure, Except.pure] at h
          split at h
          · cases h
          · rename_i hkey
            simp only [ne_eq, not_not] at hkey
            cases hg : getPrice item.Prices "performance_storage_space" "" 0 with
            | error e => simp [hg] at h
            | ok pr =>
              simp only [hg] at h
              split at h
              · rename_i hid
                cases h
                obtain ⟨hm, ha⟩ := getPrice_found hg hid
                obtain ⟨hl, hc⟩ := priceAccepted_category ha
                exact ⟨hm, categoryMismatch_false hcat,
                  ⟨lo, hi, hlo, hhi, hrange.1, hrange.2, by rw [hkey]⟩, hid, hl, hc⟩
              · cases h
    · cases h

/-! ## Performance space and IOPS prices -/

/-- C6, as the code has it: a price returned by `getSaaSPerformSpacePrice`
belongs to a catalog item whose category code is `performance_storage_space`
or absent, whose range `[capacityMinimum, capacityMaximum]` (both bounds
inclusive) contains `size` and whose key name is exactly
`<capacityMinimum>_<capacityMaximum>_GBS`; the price itself has an id, no
location group and category `performance_storage_space`. -/
theorem getSaaSPerformSpacePrice_sound (productItems : List Product_Item) (size : Int)
    (price : Product_Item_Price)
    (h : getSaaSPerformSpacePrice productItems size = .ok (.ok price)) :
    ∃ item ∈ productItems, price ∈ item.Prices ∧
      (grabItemCategoryCode item = some "performance_storage_space" ∨
        grabItemCategoryCode item = none) ∧
      (∃ lo hi, item.CapacityMinimum = some lo ∧ item.CapacityMaximum = some hi ∧
        (strconv_Atoi lo).1 ≤ size ∧ size ≤ (strconv_Atoi hi).1 ∧
        item.KeyName =
          some (fmt_d (strconv_Atoi lo).1 ++ "_" ++ fmt_d (strconv_Atoi hi).1 ++ "_GBS")) ∧
      price.Id.isSome ∧ price.LocationGroupId = none ∧
      firstCategoryCode price = some "performance_storage_space" := by
  induction productItems with
  | nil => simp [getSaaSPerformSpacePrice] at h
  | cons item rest ih =>
    unfold getSaaSPerformSpacePrice at h
    cases hi : performSpaceItem item size with
    | error e => simp [hi] at h
    | ok found =>
      cases found with
      | some pr =>
        simp only [hi, Except.ok.injEq] at h
        subst h
        exact ⟨item, List.mem_cons_self _ _, performSpaceItem_some hi⟩
      | none =>
        simp only [hi] at h
        obtain ⟨it, hm, hrest⟩ := ih h
        exact ⟨it, List.mem_cons_of_mem _ hm, hrest⟩

/-- C6 on the sample catalog: 100 GB selects price 3 of the item `100_124_GBS`. -/
theorem getSaaSPerformSpacePrice_sound_witness :
    getSaaSPerformSpacePrice sampleCatalog 100 =
        .ok (.ok (plainPrice 3 "performance_storage_space")) ∧
    ∃ item ∈ sampleCatalog, plainPrice 3 "performance_storage_space" ∈ item.Prices ∧
      (grabItemCategoryCode item = some "performance_storage_space" ∨
        grabItemCategoryCode item = none) ∧
      (∃ lo hi, item.CapacityMinimum = some lo ∧ item.CapacityMaximum = some hi ∧
        (strconv_Atoi lo).1 ≤ 100 ∧ (100 : Int) ≤ (strconv_Atoi hi).1 ∧
        item.KeyName =
          some (fmt_d (strconv_Atoi lo).1 ++ "_" ++ fmt_d (strconv_Atoi hi).1 ++ "_GBS")) ∧
      (plainPrice 3 "performance_storage_space").Id.isSome ∧
      (plainPrice 3 "performance_storage_space").LocationGroupId = none ∧
      firstCategoryCode (plainPrice 3 "performance_storage_space") =
        some "performance_storage_space" :=
  ⟨by decide, getSaaSPerformSpacePrice_sound sampleCatalog 100 _ (by decide)⟩

/-- C6 as stated fails: on a catalog whose only item carries no category,
`getSaaSPerformSpacePrice` returns a price although no item of the catalog has
the category code `performance_storage_space`. -/
theorem getSaaSPerformSpacePrice_uncategorised_item :
    getSaaSPerformSpacePrice [itemSpaceNoCategory] 100 =
        .ok (.ok (plainPrice 3 "performance_storage_space")) ∧
    ∀ item ∈ [itemSpaceNoCategory],
      grabItemCategoryCode item ≠ some "performance_storage_space" := by
  decide

end SoftLayer

namespace SoftLayer

theorem priceAccepted_restriction {price : Product_Item_Price}
    {category restrictionType : String} {restrictionValue : Int}
    (h : priceAccepted price category restrictionType restrictionValue = .ok true)
    (hty : restrictionType ≠ "") (hval : 0 < restrictionValue) :
    price.CapacityRestrictionType = some restrictionType ∧
    ∃ lo hi, price.CapacityRestrictionMinimum = some lo ∧
      price.CapacityRestrictionMaximum = some hi ∧
      (strconv_Atoi lo).1 ≤ restrictionValue ∧ restrictionValue ≤ (strconv_Atoi hi).1 := by
  obtain ⟨_, _, hr⟩ := priceAccepted_true h
  obtain ⟨lo, hi, h1, h2, h3, h4, h5⟩ := hr hty hval
  exact ⟨h3, lo, hi, h1, h2, h4, h5⟩

theorem performIOPSItem_some {item : Product_Item} {size iops : Int}
    {price : Product_Item_Price}
    (h : performIOPSItem item size iops = .ok (some price)) :
    price ∈ item.Prices ∧
    (grabItemCategoryCode item = some "performance_storage_iops" ∨
      grabItemCategoryCode item = none) ∧
    (∃ lo hi, item.CapacityMinimum = some lo ∧ item.CapacityMaximum = some hi ∧
      (strconv_Atoi lo).1 ≤ iops ∧ iops ≤ (strconv_Atoi hi).1) ∧
    price.Id.isSome ∧
    priceAccepted price "performance_storage_iops" "STORAGE_SPACE" size = .ok true := by
  unfold performIOPSItem at h
  split at h
  · cases h
  · rename_i hcat
    split at h
    · rename_i lo hi hlo hhi
      simp only at h
      split at h
      · cases h
      · rename_i hrange
        simp only [not_or, not_lt] at hrange
        cases hg : getPrice item.Prices "performance_storage_iops" "STORAGE_SPACE" size with
        | error e => simp [hg, bind, Except.bind] at h
        | ok pr =>
          simp only [hg, bind, Except.bind, pure, Except.pure] at h
          split at h
          · rename_i hid
            cases h
            obtain ⟨hm, ha⟩ := getPrice_found hg hid
            exact ⟨hm, categoryMismatch_false hcat, ⟨lo, hi, hlo, hhi, hrange.1, hrange.2⟩,
              hid, ha⟩
          · cases h
    · cases h

theorem getSaaSPerformIOPSPrice_item {productItems : List Product_Item} {size iops : Int}
    {price : Product_Item_Price}
    (h : getSaaSPerformIOPSPrice productItems size iops = .ok (.ok price)) :
    ∃ item ∈ productItems, performIOPSItem item size iops = .ok (some price) := by
  induction productItems with
  | nil => simp [getSaaSPerformIOPSPrice] at h
  | cons item rest ih =>
    unfold getSaaSPerformIOPSPrice at h
    cases hi : performIOPSItem item size iops with
    | error e => simp [hi] at h
    | ok found =>
      cases found with
      | some pr =>
        simp only [hi, Except.ok.injEq] at h
        subst h
        exact ⟨item, List.mem_cons_self _ _, hi⟩
      | none =>
        simp only [hi] at h
        obtain ⟨it, hm, hrest⟩ := ih h
        exact ⟨it, List.mem_cons_of_mem _ hm, hrest⟩

/-- C7, as the code has it: for a capacity `size >= 1`, a price returned by
`getSaaSPerformIOPSPrice` carries `capacityRestrictionType` `STORAGE_SPACE`
with `capacityRestrictionMinimum <= size <= capacityRestrictionMaximum`, and it
belongs to an item whose range `[capacityMinimum, capacityMaximum]` contains
`iops` (bounds inclusive). -/
theorem getSaaSPerformIOPSPrice_sound (productItems : List Product_Item) (size iops : Int)
    (price : Product_Item_Price) (hsize : 1 ≤ size)
    (h : getSaaSPerformIOPSPrice productItems size iops = .ok (.ok price)) :
    (price.CapacityRestrictionType = some "STORAGE_SPACE" ∧
      ∃ lo hi, price.CapacityRestrictionMinimum = some lo ∧
        price.CapacityRestrictionMaximum = some hi ∧
        (strconv_Atoi lo).1 ≤ size ∧ size ≤ (strconv_Atoi hi).1) ∧
    ∃ item ∈ productItems, price ∈ item.Prices ∧
      ∃ lo hi, item.CapacityMinimum = some lo ∧ item.CapacityMaximum = some hi ∧
        (strconv_Atoi lo).1 ≤ iops ∧ iops ≤ (strconv_Atoi hi).1 := by
  obtain ⟨item, hm, hitem⟩ := getSaaSPerformIOPSPrice_item h
  obtain ⟨hp, _, hrange, _, hacc⟩ := performIOPSItem_some hitem
  exact ⟨priceAccepted_restriction hacc (by decide) (by omega), item, hm, hp, hrange⟩

/-- C7 on the sample catalog: 100 GB at 1000 IOPS selects price 4, restricted
to volumes of 100 to 124 GB, from the item of 100 to 6000 IOPS. -/
theorem getSaaSPerformIOPSPrice_sound_witness :
    (1 : Int) ≤ 100 ∧
    getSaaSPerformIOPSPrice sampleCatalog 100 1000 =
      .ok (.ok (restrictedPrice 4 "performance_storage_iops" "STORAGE_SPACE" "100" "124")) ∧
    ((restrictedPrice 4 "performance_storage_iops" "STORAGE_SPACE" "100" "124"
        ).CapacityRestrictionType = some "STORAGE_SPACE" ∧
      ∃ lo hi,
        (restrictedPrice 4 "performance_storage_iops" "STORAGE_SPACE" "100" "124"
          ).CapacityRestrictionMinimum = some lo ∧
        (restrictedPrice 4 "performance_storage_iops" "STORAGE_SPACE" "100" "124"
          ).CapacityRestrictionMaximum = some hi ∧
        (strconv_Atoi lo).1 ≤ 100 ∧ (100 : Int) ≤ (strconv_Atoi hi).1) ∧
    ∃ item ∈ sampleCatalog,
      restrictedPrice 4 "performance_storage_iops" "STORAGE_SPACE" "100" "124" ∈ item.Prices ∧
      ∃ lo hi, item.CapacityMinimum = some lo ∧ item.CapacityMaximum = some hi ∧
        (strconv_Atoi lo).1 ≤ 1000 ∧ (1000 : Int) ≤ (strconv_Atoi hi).1 :=
  ⟨by decide, by decide,
    getSaaSPerformIOPSPrice_sound sampleCatalog 100 1000 _ (by decide) (by decide)⟩

/-- C7 as stated fails at `size = 0`: the restriction filter of `getPrice` is
skipped, and the price returned is restricted to volumes of 100 to 124 GB,
a range that does not contain 0. -/
theorem getSaaSPerformIOPSPrice_size_zero :
    getSaaSPerformIOPSPrice sampleCatalog 0 1000 =
      .ok (.ok (restrictedPrice 4 "performance_storage_iops" "STORAGE_SPACE" "100" "124")) ∧
    (restrictedPrice 4 "performance_storage_iops" "STORAGE_SPACE" "100" "124"
      ).CapacityRestrictionMinimum = some "100" ∧
    ¬ ((strconv_Atoi "100").1 ≤ 0) := by
  decide

end SoftLayer

namespace SoftLayer

theorem quarter_eq : quarter = (0.25 : ℚ) := by
  have h : quarter = Rat.divInt 1 4 := by
    unfold quarter
    rw [Rat.mk'_eq_divInt]
    rfl
  rw [h, Rat.divInt_eq_div]
  norm_num

theorem priceAccepted_plain {p : Product_Item_Price} (category : String)
    (hwf : priceWellFormed p = true) :
    priceAccepted p category "" 0 =
      .ok (p.LocationGroupId.isNone && firstCategoryCode p == some category) := by
  unfold priceWellFormed at hwf
  unfold priceAccepted
  cases hL : p.LocationGroupId with
  | some g => simp [bind, Except.bind, pure, Except.pure]
  | none =>
    simp only [hL, Option.isSome_none, Bool.false_or] at hwf
    unfold firstCategoryCode at hwf ⊢
    cases hC : p.Categories with
    | nil => simp [hC] at hwf
    | cons c0 rest =>
      simp only [hC] at hwf
      cases hcode : c0.CategoryCode with
      | none => simp [hcode] at hwf
      | some code =>
        by_cases hcat : code = category
        · simp [hC, hcode, hcat, index0, deref, bind, Except.bind, pure, Except.pure]
        · simp [hC, hcode, hcat, index0, deref, bind, Except.bind, pure, Except.pure]

theorem getPrice_plain (prices : List Product_Item_Price) (category : String)
    (hwf : prices.all priceWellFormed = true) :
    getPrice prices category "" 0 = .ok ((firstPriceIn prices category).getD {}) := by
  induction prices with
  | nil => simp [getPrice, firstPriceIn]
  | cons p rest ih =>
    simp only [List.all_cons, Bool.and_eq_true] at hwf
    unfold getPrice
    rw [priceAccepted_plain category hwf.1]
    unfold firstPriceIn
    cases hb : (p.LocationGroupId.isNone && firstCategoryCode p == some category) with
    | true => simp [List.find?, hb]
    | false =>
      simp only [List.find?, hb]
      exact ih hwf.2

theorem enduranceTierItem_wf {item : Product_Item} (target : Int)
    (hwf : itemWellFormed item = true) :
    enduranceTierItem item target =
      .ok (if tierCandidate target item then firstPriceIn item.Prices "storage_tier_level"
           else none) := by
  unfold itemWellFormed at hwf
  simp only [Bool.and_eq_true] at hwf
  obtain ⟨hcap, hprices⟩ := hwf
  cases hc : item.Capacity with
  | none => simp [hc] at hcap
  | some c =>
    unfold enduranceTierItem tierCandidate categoryMismatch
    rw [getPrice_plain _ _ hprices]
    cases hg : grabItemCategoryCode item with
    | some code =>
      by_cases hcode : code = "storage_tier_level"
      · subst hcode
        by_cases hcap2 : intOfFloat64 c = target
        · cases hf : firstPriceIn item.Prices "storage_tier_level" with
          | none => simp [hc, hcap2, deref, bind, Except.bind, pure, Except.pure]
          | some pr =>
            cases hid : pr.Id with
            | none => simp [hc, hcap2, hid, deref, bind, Except.bind, pure, Except.pure]
            | some i => simp [hc, hcap2, hid, deref, bind, Except.bind, pure, Except.pure]
        · simp [hc, hcap2, deref, bind, Except.bind, pure, Except.pure]
      · simp [hcode]
    | none =>
      by_cases hcap2 : intOfFloat64 c = target
      · cases hf : firstPriceIn item.Prices "storage_tier_level" with
        | none => simp [hc, hcap2, deref, bind, Except.bind, pure, Except.pure]
        | some pr =>
          cases hid : pr.Id with
          | none => simp [hc, hcap2, hid, deref, bind, Except.bind, pure, Except.pure]
          | some i => simp [hc, hcap2, hid, deref, bind, Except.bind, pure, Except.pure]
      · simp [hc, hcap2, deref, bind, Except.bind, pure, Except.pure]

theorem tierCandidate_price {item : Product_Item} {target : Int}
    (h : tierCandidate target item = true) :
    ∃ pr, firstPriceIn item.Prices "storage_tier_level" = some pr := by
  unfold tierCandidate at h
  cases hf : firstPriceIn item.Prices "storage_tier_level" with
  | none => simp [hf] at h
  | some pr => exact ⟨pr, rfl⟩

theorem enduranceTierLoop_wf (productItems : List Product_Item) (target : Int)
    (hwf : ∀ item ∈ productItems, itemWellFormed item = true) :
    enduranceTierLoop productItems target =
      match productItems.find? (tierCandidate target) with
      | some item => .ok (.ok ((firstPriceIn item.Prices "storage_tier_level").getD {}))
      | none => .ok (.error "Could not find price for endurance tier level") := by
  induction productItems with
  | nil => simp [enduranceTierLoop]
  | cons item rest ih =>
    unfold enduranceTierLoop
    rw [enduranceTierItem_wf target (hwf item (List.mem_cons_self _ _))]
    cases hcand : tierCandidate target item with
    | true =>
      obtain ⟨pr, hpr⟩ := tierCandidate_price hcand
      simp [List.find?, hcand, hpr]
    | false =>
      simp only [List.find?, hcand, Bool.false_eq_true, if_false]
      exact ih (fun it hm => hwf it (List.mem_cons_of_mem _ hm))

theorem mapIndex_of_mem {iops : Float64} {target : Int}
    (h : (iops, target) ∈ enduranceCapacityRestrictionMap) :
    mapIndex enduranceCapacityRestrictionMap iops = target := by
  simp only [enduranceCapacityRestrictionMap, List.mem_cons, Prod.mk.injEq, List.mem_singleton,
    List.not_mem_nil, or_false] at h
  rcases h with ⟨rfl, rfl⟩ | ⟨rfl, rfl⟩ | ⟨rfl, rfl⟩ | ⟨rfl, rfl⟩ <;> decide

theorem mapIndex_of_not_key {iops : Float64}
    (h1 : iops ≠ quarter) (h2 : iops ≠ 2) (h3 : iops ≠ 4) (h4 : iops ≠ 10) :
    mapIndex enduranceCapacityRestrictionMap iops = 0 := by
  have e1 : (iops == quarter) = false := by simpa using h1
  have e2 : (iops == (2 : Float64)) = false := by simpa using h2
  have e3 : (iops == (4 : Float64)) = false := by simpa using h3
  have e4 : (iops == (10 : Float64)) = false := by simpa using h4
  simp [mapIndex, enduranceCapacityRestrictionMap, List.lookup, e1, e2, e3, e4]

theorem enduranceTierItem_some {item : Product_Item} {target : Int}
    {price : Product_Item_Price}
    (h : enduranceTierItem item target = .ok (some price)) :
    price ∈ item.Prices ∧
    (grabItemCategoryCode item = some "storage_tier_level" ∨
      grabItemCategoryCode item = none) ∧
    (∃ c, item.Capacity = some c ∧ intOfFloat64 c = target) ∧
    price.Id.isSome ∧ price.LocationGroupId = none ∧
    firstCategoryCode price = some "storage_tier_level" := by
  unfold enduranceTierItem at h
  split at h
  · cases h
  · rename_i hcat
    cases hc : item.Capacity with
    | none => simp [hc, deref, bind, Except.bind] at h
    | some c =>
      simp only [hc, deref, bind, Except.bind, pure, Except.pure] at h
      split at h
      · cases h
      · rename_i hcap
        simp only [ne_eq, not_not] at hcap
        cases hg : getPrice item.Prices "storage_tier_level" "" 0 with
        | error e => simp [hg] at h
        | ok pr =>
          simp only [hg] at h
          split at h
          · rename_i hid
            cases h
            obtain ⟨hm, ha⟩ := getPrice_found hg hid
            obtain ⟨hl, hcc⟩ := priceAccepted_category ha
            exact ⟨hm, categoryMismatch_false hcat, ⟨c, rfl, hcap⟩, hid, hl, hcc⟩
          · cases h

theorem enduranceTierLoop_item {productItems : List Product_Item} {target : Int}
    {price : Product_Item_Price}
    (h : enduranceTierLoop productItems target = .ok (.ok price)) :
    ∃ item ∈ productItems, enduranceTierItem item target = .ok (some price) := by
  induction productItems with
  | nil => simp [enduranceTierLoop] at h
  | cons item rest ih =>
    unfold enduranceTierLoop at h
    cases hi : enduranceTierItem item target with
    | error e => simp [hi] at h
    | ok found =>
      cases found with
      | some pr =>
        simp only [hi, Except.ok.injEq] at h
        subst h
        exact ⟨item, List.mem_cons_self _ _, hi⟩
      | none =>
        simp only [hi] at h
        obtain ⟨it, hm, hrest⟩ := ih h
        exact ⟨it, List.mem_cons_of_mem _ hm, hrest⟩

theorem enduranceTierLoop_none (productItems : List Product_Item) (target : Int)
    (h : ∀ item ∈ productItems, categoryMismatch item "storage_tier_level" = true ∨
      ∃ c, item.Capacity = some c ∧ intOfFloat64 c ≠ target) :
    enduranceTierLoop productItems target =
      .ok (.error "Could not find price for endurance tier level") := by
  induction productItems with
  | nil => simp [enduranceTierLoop]
  | cons item rest ih =>
    unfold enduranceTierLoop
    have hitem : enduranceTierItem item target = .ok none := by
      unfold enduranceTierItem
      rcases h item (List.mem_cons_self _ _) with hm | ⟨c, hc, hne⟩
      · simp [hm]
      · split
        · rfl
        · simp [hc, hne, deref, bind, Except.bind, pure, Except.pure]
    simp only [hitem]
    exact ih (fun it hm => h it (List.mem_cons_of_mem _ hm))

end SoftLayer

namespace SoftLayer

/-! ## The endurance tier price -/

/-- C8, as the code has it: for an IOPS-per-GB value that is not one of 0.25,
2, 4, 10 the tier table yields the zero value 0, and `getSaaSEnduranceTierPrice`
looks for an item of capacity 0. It fails with an error, selecting no item,
when every item that passes its category test has a capacity whose integer part
is not 0; a price it does return belongs to an item whose capacity has integer
part 0. -/
theorem getSaaSEnduranceTierPrice_unlisted (productItems : List Product_Item)
    (iops : Float64)
    (h1 : iops ≠ 0.25) (h2 : iops ≠ 2) (h3 : iops ≠ 4) (h4 : iops ≠ 10) :
    mapIndex enduranceCapacityRestrictionMap iops = 0 ∧
    ((∀ item ∈ productItems, categoryMismatch item "storage_tier_level" = true ∨
        ∃ c, item.Capacity = some c ∧ intOfFloat64 c ≠ 0) →
      getSaaSEnduranceTierPrice productItems iops =
        .ok (.error "Could not find price for endurance tier level")) ∧
    (∀ price, getSaaSEnduranceTierPrice productItems iops = .ok (.ok price) →
      ∃ item ∈ productItems, price ∈ item.Prices ∧
        ∃ c, item.Capacity = some c ∧ intOfFloat64 c = 0) := by
  have hq : iops ≠ quarter := by rw [quarter_eq]; exact h1
  have h0 := mapIndex_of_not_key hq h2 h3 h4
  refine ⟨h0, ?_, ?_⟩
  · intro hall
    unfold getSaaSEnduranceTierPrice
    rw [h0]
    exact enduranceTierLoop_none productItems 0 hall
  · intro price hp
    unfold getSaaSEnduranceTierPrice at hp
    rw [h0] at hp
    obtain ⟨item, hm, hitem⟩ := enduranceTierLoop_item hp
    obtain ⟨hpm, _, hcap, _⟩ := enduranceTierItem_some hitem
    exact ⟨item, hm, hpm, hcap⟩

/-- C8 on the sample catalog: 3 IOPS per GB is not in the table, no tier level
item has capacity 0, and the lookup fails. -/
theorem getSaaSEnduranceTierPrice_unlisted_witness :
    getSaaSEnduranceTierPrice sampleCatalog 3 =
      .ok (.error "Could not find price for endurance tier level") :=
  (getSaaSEnduranceTierPrice_unlisted sampleCatalog 3 (by rw [← quarter_eq]; decide)
    (by decide) (by decide) (by decide)).2.1 (by decide)

/-- C8 as stated fails: 3 IOPS per GB is not in the table, yet on a catalog
with a tier level item of capacity 0 the lookup succeeds and selects it. -/
theorem getSaaSEnduranceTierPrice_selects_capacity_zero :
    (3 : Float64) ∉ enduranceCapacityRestrictionMap.map Prod.fst ∧
    getSaaSEnduranceTierPrice [itemTier0] 3 =
      .ok (.ok (plainPrice 9 "storage_tier_level")) := by
  decide

/-- C9, as the code has it: the tier table maps 0.25, 2, 4, 10 to 100, 200,
300, 1000 and nothing else; for `iops` in the table with value `target`, on a
catalog of well-formed items, `getSaaSEnduranceTierPrice` returns the
`storage_tier_level` price of the first item (in catalog order) whose category
is `storage_tier_level` or absent, whose capacity has integer part `target` and
whose first such price has an id; it fails with an error exactly when the
catalog has no such item. -/
theorem getSaaSEnduranceTierPrice_spec (productItems : List Product_Item)
    (iops : Float64) (target : Int)
    (hkey : (iops, target) ∈ enduranceCapacityRestrictionMap)
    (hwf : ∀ item ∈ productItems, itemWellFormed item = true) :
    enduranceCapacityRestrictionMap = [(0.25, 100), (2, 200), (4, 300), (10, 1000)] ∧
    (getSaaSEnduranceTierPrice productItems iops =
      match productItems.find? (tierCandidate target) with
      | some item => .ok (.ok ((firstPriceIn item.Prices "storage_tier_level").getD {}))
      | none => .ok (.error "Could not find price for endurance tier level")) ∧
    ((∃ e, getSaaSEnduranceTierPrice productItems iops = .ok (.error e)) ↔
      ∀ item ∈ productItems, tierCandidate target item = false) := by
  have heq : getSaaSEnduranceTierPrice productItems iops =
      match productItems.find? (tierCandidate target) with
      | some item => .ok (.ok ((firstPriceIn item.Prices "storage_tier_level").getD {}))
      | none => .ok (.error "Could not find price for endurance tier level") := by
    unfold getSaaSEnduranceTierPrice
    rw [mapIndex_of_mem hkey]
    exact enduranceTierLoop_wf productItems target hwf
  refine ⟨?_, heq, ?_⟩
  · unfold enduranceCapacityRestrictionMap
    rw [quarter_eq]
  · rw [heq]
    cases hf : productItems.find? (tierCandidate target) with
    | none =>
      simp only [Except.ok.injEq, Except.error.injEq, exists_eq', true_iff]
      intro item hm
      have := List.find?_eq_none.1 hf item hm
      simpa using this
    | some item =>
      have hmem := List.mem_of_find?_eq_some hf
      have hc := List.find?_some hf
      constructor
      · rintro ⟨e, he⟩
        cases he
      · intro hall
        have := hall item hmem
        rw [hc] at this
        cases this

/-- C9 on the sample catalog: 2 IOPS per GB resolves to the price of the
capacity-200 tier item. -/
theorem getSaaSEnduranceTierPrice_spec_witness :
    (2, 200) ∈ enduranceCapacityRestrictionMap ∧
    (∀ item ∈ sampleCatalog, itemWellFormed item = true) ∧
    getSaaSEnduranceTierPrice sampleCatalog 2 = .ok (.ok (plainPrice 6 "storage_tier_level")) :=
  ⟨by decide, by decide,
    (getSaaSEnduranceTierPrice_spec sampleCatalog 2 200 (by decide) (by decide)).2.1.trans
      (by decide)⟩

/-- C9 as stated fails: when an item without category precedes the tier item,
2 IOPS per GB resolves to the price of the uncategorised item, which is the
price of no item of category `storage_tier_level`. And on a tier item without
capacity the lookup neither returns a price nor fails with an error: it
panics. -/
theorem getSaaSEnduranceTierPrice_uncategorised_first :
    (getSaaSEnduranceTierPrice [itemTier200NoCategory, itemTier200] 2 =
      .ok (.ok (plainPrice 60 "storage_tier_level")) ∧
    ∀ item ∈ [itemTier200NoCategory, itemTier200],
      grabItemCategoryCode item = some "storage_tier_level" →
        plainPrice 60 "storage_tier_level" ∉ item.Prices) ∧
    getSaaSEnduranceTierPrice [itemTierNoCapacity] 2 = .error .nilDereference := by
  decide

end SoftLayer

namespace SoftLayer

/-! ## The snapshot space price -/

theorem intOfFloat64_of_fits {f : Float64} (h0 : 0 ≤ f) (hmax : f < 2 ^ 63) :
    intOfFloat64 f = ⌊f⌋ := by
  have hden : (0 : Int) < (f.den : Int) := by exact_mod_cast f.den_pos
  have hnn : (0 : Int) ≤ f.num := Rat.num_nonneg.mpr h0
  have htd : Int.tdiv f.num f.den = ⌊f⌋ := by
    rw [Int.tdiv_eq_ediv hnn (le_of_lt hden), Rat.floor_def]
  have hlo : (0 : Int) ≤ ⌊f⌋ := Int.floor_nonneg.mpr h0
  have hhi : ⌊f⌋ < (2 : Int) ^ 63 := by
    have h1 : ((⌊f⌋ : Int) : ℚ) < 2 ^ 63 := lt_of_le_of_lt (Int.floor_le f) hmax
    exact_mod_cast h1
  unfold intOfFloat64
  simp only [htd, minInt64, maxInt64]
  rw [if_pos]
  constructor <;> omega

theorem intOfFloat64_pos {f : Float64} (h : 1 ≤ f) (hmax : f < 2 ^ 63) :
    0 < intOfFloat64 f := by
  rw [intOfFloat64_of_fits (le_trans zero_le_one h) hmax]
  exact Int.floor_pos.mpr h

theorem snapshotSpaceItem_some {item : Product_Item} {size : Int} {ty : String}
    {value : Int} {price : Product_Item_Price}
    (h : snapshotSpaceItem item size ty value = .ok (some price)) :
    price ∈ item.Prices ∧ (∃ c, item.Capacity = some c ∧ intOfFloat64 c = size) ∧
    price.Id.isSome ∧ priceAccepted price "storage_snapshot_space" ty value = .ok true := by
  unfold snapshotSpaceItem at h
  cases hc : item.Capacity with
  | none => simp [hc, deref, bind, Except.bind] at h
  | some c =>
    simp only [hc, deref, bind, Except.bind, pure, Except.pure] at h
    split at h
    · cases h
    · rename_i hcap
      simp only [ne_eq, not_not] at hcap
      cases hg : getPrice item.Prices "storage_snapshot_space" ty value with
      | error e => simp [hg] at h
      | ok pr =>
        simp only [hg] at h
        split at h
        · rename_i hid
          cases h
          obtain ⟨hm, ha⟩ := getPrice_found hg hid
          exact ⟨hm, ⟨c, rfl, hcap⟩, hid, ha⟩
        · cases h

theorem snapshotSpaceLoop_item {productItems : List Product_Item} {size : Int}
    {ty : String} {value : Int} {price : Product_Item_Price}
    (h : snapshotSpaceLoop productItems size ty value = .ok (.ok price)) :
    ∃ item ∈ productItems, snapshotSpaceItem item size ty value = .ok (some price) := by
  induction productItems with
  | nil => simp [snapshotSpaceLoop] at h
  | cons item rest ih =>
    unfold snapshotSpaceLoop at h
    cases hi : snapshotSpaceItem item size ty value with
    | error e => simp [hi] at h
    | ok found =>
      cases found with
      | some pr =>
        simp only [hi, Except.ok.injEq] at h
        subst h
        exact ⟨item, List.mem_cons_self _ _, hi⟩
      | none =>
        simp only [hi] at h
        obtain ⟨it, hm, hrest⟩ := ih h
        exact ⟨it, List.mem_cons_of_mem _ hm, hrest⟩

/-- C10, as the code has it: for volume type `Performance` and an `iops` with
`1 <= iops < 2^63`, a price returned by `getSaaSSnapshotSpacePrice` belongs to
an item whose capacity, converted to `int`, equals `size`; it has category
`storage_snapshot_space` and carries `capacityRestrictionType` `IOPS` with
`int(iops)`, the integer part of `iops`, inside
`[capacityRestrictionMinimum, capacityRestrictionMaximum]`. The lookup is keyed
on `("IOPS", int(iops))`: neither a `STORAGE_TIER_LEVEL` restriction nor the
tier table takes part. -/
theorem getSaaSSnapshotSpacePrice_performance (productItems : List Product_Item)
    (size : Int) (iops : Float64) (price : Product_Item_Price) (hiops : 1 ≤ iops)
    (hmax : iops < 2 ^ 63)
    (h : getSaaSSnapshotSpacePrice productItems size iops "Performance" = .ok (.ok price)) :
    snapshotTarget iops "Performance" = ("IOPS", intOfFloat64 iops) ∧
    intOfFloat64 iops = ⌊iops⌋ ∧
    (∃ item ∈ productItems, price ∈ item.Prices ∧
      ∃ c, item.Capacity = some c ∧ intOfFloat64 c = size) ∧
    firstCategoryCode price = some "storage_snapshot_space" ∧
    price.CapacityRestrictionType = some "IOPS" ∧
    price.CapacityRestrictionType ≠ some "STORAGE_TIER_LEVEL" ∧
    ∃ lo hi, price.CapacityRestrictionMinimum = some lo ∧
      price.CapacityRestrictionMaximum = some hi ∧
      (strconv_Atoi lo).1 ≤ intOfFloat64 iops ∧ intOfFloat64 iops ≤ (strconv_Atoi hi).1 := by
  have ht : snapshotTarget iops "Performance" = ("IOPS", intOfFloat64 iops) := by
    simp [snapshotTarget]
  unfold getSaaSSnapshotSpacePrice at h
  rw [ht] at h
  simp only at h
  obtain ⟨item, hm, hitem⟩ := snapshotSpaceLoop_item h
  obtain ⟨hp, hcap, _, hacc⟩ := snapshotSpaceItem_some hitem
  obtain ⟨hty, hrange⟩ :=
    priceAccepted_restriction hacc (by decide) (intOfFloat64_pos hiops hmax)
  refine ⟨ht, intOfFloat64_of_fits (le_trans zero_le_one hiops) hmax, ⟨item, hm, hp, hcap⟩,
    (priceAccepted_category hacc).2, hty, ?_, hrange⟩
  rw [hty]
  decide

/-- C10 on the sample catalog: a 50 GB reserve at 1000 IOPS selects price 7,
restricted to 100 to 6000 IOPS. -/
theorem getSaaSSnapshotSpacePrice_performance_witness :
    (1 : Float64) ≤ 1000 ∧ (1000 : Float64) < 2 ^ 63 ∧
    getSaaSSnapshotSpacePrice sampleCatalog 50 1000 "Performance" =
      .ok (.ok (restrictedPrice 7 "storage_snapshot_space" "IOPS" "100" "6000")) ∧
    (restrictedPrice 7 "storage_snapshot_space" "IOPS" "100" "6000"
      ).CapacityRestrictionType = some "IOPS" :=
  ⟨by decide, by norm_num, by decide,
    (getSaaSSnapshotSpacePrice_performance sampleCatalog 50 1000 _ (by decide) (by norm_num)
      (by decide)).2.2.2.2.1⟩

/-- C10 as stated fails, twice over the conversion to `int`. The capacity of an
item is compared after conversion, so a reserve of 50 selects the price of an
item whose capacity is 50.5, and no item of the catalog has capacity 50. And at
`iops = 10^19`, which does not fit an `int`, the conversion gives
`math.MinInt64`: `getPrice` applies no restriction filter to a value that is not
positive, and the price for 100 to 6000 IOPS is returned. -/
theorem getSaaSSnapshotSpacePrice_int_conversion :
    (getSaaSSnapshotSpacePrice [itemSnapshotFractional] 50 1000 "Performance" =
      .ok (.ok (restrictedPrice 7 "storage_snapshot_space" "IOPS" "100" "6000")) ∧
    ∀ item ∈ [itemSnapshotFractional], item.Capacity ≠ some 50) ∧
    ((1 : Float64) ≤ 10000000000000000000 ∧
    snapshotTarget 10000000000000000000 "Performance" = ("IOPS", -9223372036854775808) ∧
    getSaaSSnapshotSpacePrice sampleCatalog 50 10000000000000000000 "Performance" =
      .ok (.ok (restrictedPrice 7 "storage_snapshot_space" "IOPS" "100" "6000")) ∧
    ¬ ((strconv_Atoi "100").1 ≤ intOfFloat64 10000000000000000000)) := by
  decide

end SoftLayer

namespace SoftLayer

/-! ## The order container -/

theorem getPriceByCategory_category {productItems : List Product_Item} {category : String}
    {price : Product_Item_Price}
    (h : getPriceByCategory productItems category = .ok (.ok price)) :
    firstCategoryCode price = some category := by
  induction productItems with
  | nil => simp [getPriceByCategory] at h
  | cons item rest ih =>
    unfold getPriceByCategory at h
    cases hg : getPrice item.Prices category "" 0 with
    | error e => simp [hg] at h
    | ok pr =>
      simp only [hg] at h
      split at h
      · rename_i hid
        simp only [Except.ok.injEq] at h
        subst h
        exact (priceAccepted_category (getPrice_found hg hid).2).2
      · exact ih h

theorem enduranceSpaceLoop_category {productItems : List Product_Item} {keyName : String}
    {size : Int} {price : Product_Item_Price}
    (h : enduranceSpaceLoop productItems keyName size = .ok (.ok price)) :
    firstCategoryCode price = some "performance_storage_space" := by
  induction productItems with
  | nil => simp [enduranceSpaceLoop] at h
  | cons item rest ih =>
    unfold enduranceSpaceLoop at h
    cases hi : enduranceSpaceItem item keyName size with
    | error e => simp [hi] at h
    | ok found =>
      cases found with
      | none =>
        simp only [hi] at h
        exact ih h
      | some pr =>
        simp only [hi, Except.ok.injEq] at h
        subst h
        unfold enduranceSpaceItem at hi
        cases hk : item.KeyName with
        | none => simp [hk, deref, bind, Except.bind] at hi
        | some key =>
          simp only [hk, deref, bind, Except.bind, pure, Except.pure] at hi
          split at hi
          · cases hi
          · split at hi
            · split at hi
              · cases hi
              · cases hg : getPrice item.Prices "performance_storage_space" "" 0 with
                | error e => simp [hg] at hi
                | ok p =>
                  simp only [hg] at hi
                  split at hi
                  · rename_i hid
                    cases hi
                    exact (priceAccepted_category (getPrice_found hg hid).2).2
                  · cases hi
            · cases hi

theorem storage_protocol_snapshot {storageProtocol : String}
    (h : "storage_" ++ storageProtocol = "storage_snapshot_space") :
    storageProtocol = "snapshot_space" := by
  have h2 := congrArg String.data h
  rw [String.data_append] at h2
  have h3 : ("storage_snapshot_space" : String).data =
      ("storage_" : String).data ++ ("snapshot_space" : String).data := by decide
  rw [h3] at h2
  exact String.ext (List.append_cancel_left h2)

theorem andThen_ok {α β : Type} {x : Go (Except String α)} {f : α → Go (Except String β)}
    {b : β} (h : andThen x f = .ok (.ok b)) : ∃ a, x = .ok (.ok a) ∧ f a = .ok (.ok b) := by
  unfold andThen at h
  split at h
  · cases h
  · cases h
  · rename_i a
    exact ⟨a, rfl, h⟩

theorem targetItemPrices_ok {productItems : List Product_Item} {storageType : String}
    {iops : Float64} {capacity snapshotCapacity : Int} {storageProtocol : String}
    {prices : List Product_Item_Price}
    (h : targetItemPrices productItems storageType iops capacity snapshotCapacity
      storageProtocol = .ok (.ok prices)) :
    ∃ p1 p2 p3 p4,
      getPriceByCategory productItems "storage_as_a_service" = .ok (.ok p1) ∧
      getPriceByCategory productItems ("storage_" ++ storageProtocol) = .ok (.ok p2) ∧
      (if storageType = "Performance" then
        getSaaSPerformSpacePrice productItems capacity = .ok (.ok p3) ∧
        getSaaSPerformIOPSPrice productItems capacity (intOfFloat64 iops) = .ok (.ok p4)
      else
        getSaaSEnduranceSpacePrice productItems capacity iops = .ok (.ok p3) ∧
        getSaaSEnduranceTierPrice productItems iops = .ok (.ok p4)) ∧
      (if snapshotCapacity > 0 then
        ∃ p5, getSaaSSnapshotSpacePrice productItems snapshotCapacity iops storageType =
            .ok (.ok p5) ∧ prices = [p1, p2, p3, p4, p5]
      else prices = [p1, p2, p3, p4]) := by
  unfold targetItemPrices at h
  obtain ⟨four, hfour, hsnap⟩ := andThen_ok h
  have hfirst : ∃ p1 p2 p3 p4,
      getPriceByCategory productItems "storage_as_a_service" = .ok (.ok p1) ∧
      getPriceByCategory productItems ("storage_" ++ storageProtocol) = .ok (.ok p2) ∧
      (if storageType = "Performance" then
        getSaaSPerformSpacePrice productItems capacity = .ok (.ok p3) ∧
        getSaaSPerformIOPSPrice productItems capacity (intOfFloat64 iops) = .ok (.ok p4)
      else
        getSaaSEnduranceSpacePrice productItems capacity iops = .ok (.ok p3) ∧
        getSaaSEnduranceTierPrice productItems iops = .ok (.ok p4)) ∧
      four = [p1, p2, p3, p4] := by
    by_cases hst : storageType = "Performance"
    · simp only [hst, if_true] at hfour ⊢
      obtain ⟨p1, h1, r1⟩ := andThen_ok hfour
      obtain ⟨p2, h2, r2⟩ := andThen_ok r1
      obtain ⟨p3, h3, r3⟩ := andThen_ok r2
      obtain ⟨p4, h4, r4⟩ := andThen_ok r3
      simp only [Except.ok.injEq] at r4
      exact ⟨p1, p2, p3, p4, h1, h2, ⟨h3, h4⟩, r4.symm⟩
    · simp only [hst, if_false] at hfour ⊢
      obtain ⟨p1, h1, r1⟩ := andThen_ok hfour
      obtain ⟨p2, h2, r2⟩ := andThen_ok r1
      obtain ⟨p3, h3, r3⟩ := andThen_ok r2
      obtain ⟨p4, h4, r4⟩ := andThen_ok r3
      simp only [Except.ok.injEq] at r4
      exact ⟨p1, p2, p3, p4, h1, h2, ⟨h3, h4⟩, r4.symm⟩
  obtain ⟨p1, p2, p3, p4, h1, h2, h34, hfoureq⟩ := hfirst
  refine ⟨p1, p2, p3, p4, h1, h2, h34, ?_⟩
  subst hfoureq
  by_cases hs : snapshotCapacity > 0
  · simp only [hs, if_true] at hsnap ⊢
    obtain ⟨p5, h5, r5⟩ := andThen_ok hsnap
    simp only [Except.ok.injEq] at r5
    exact ⟨p5, h5, by rw [← r5]; rfl⟩
  · simp only [hs, if_false] at hsnap ⊢
    simp only [Except.ok.injEq] at hsnap
    exact hsnap.symm

theorem buildStorageProductOrderContainer_ok {s : Session} {storageType : String}
    {iops : Float64} {capacity snapshotCapacity : Int} {storageProtocol datacenter : String}
    {hourlyBilling : Bool} {container : Container_Product_Order}
    (h : buildStorageProductOrderContainer s storageType iops capacity snapshotCapacity
      storageProtocol datacenter hourlyBilling = .ok (.ok container)) :
    ∃ pkgId productItems, s.GetPackageProducts pkgId itemMask = .ok productItems ∧
      targetItemPrices productItems storageType iops capacity snapshotCapacity
        storageProtocol = .ok (.ok container.Prices) := by
  unfold buildStorageProductOrderContainer at h
  split at h
  · cases h
  · rename_i pkg hpkg
    split at h
    · cases h
    · rename_i pkgId hpkgId
      split at h
      · cases h
      · rename_i productItems hitems
        obtain ⟨prices, hprices, hrest⟩ := andThen_ok h
        refine ⟨pkgId, productItems, hitems, ?_⟩
        split at hrest
        · cases hrest
        · split at hrest
          · cases hrest
          · simp only [Except.ok.injEq] at hrest
            rw [← hrest]
            exact hprices

theorem getSaaSPerformSpacePrice_item {productItems : List Product_Item} {size : Int}
    {price : Product_Item_Price}
    (h : getSaaSPerformSpacePrice productItems size = .ok (.ok price)) :
    ∃ item ∈ productItems, performSpaceItem item size = .ok (some price) := by
  induction productItems with
  | nil => simp [getSaaSPerformSpacePrice] at h
  | cons item rest ih =>
    unfold getSaaSPerformSpacePrice at h
    cases hi : performSpaceItem item size with
    | error e => simp [hi] at h
    | ok found =>
      cases found with
      | some pr =>
        simp only [hi, Except.ok.injEq] at h
        subst h
        exact ⟨item, List.mem_cons_self _ _, hi⟩
      | none =>
        simp only [hi] at h
        obtain ⟨it, hm, hrest⟩ := ih h
        exact ⟨it, List.mem_cons_of_mem _ hm, hrest⟩

theorem targetItemPrices_no_snapshot {productItems : List Product_Item}
    {storageType : String} {iops : Float64} {capacity snapshotCapacity : Int}
    {storageProtocol : String} {prices : List Product_Item_Price}
    (h : targetItemPrices productItems storageType iops capacity snapshotCapacity
      storageProtocol = .ok (.ok prices))
    (hproto : storageProtocol ≠ "snapshot_space") (hsnap : ¬ snapshotCapacity > 0) :
    ∀ p ∈ prices, firstCategoryCode p ≠ some "storage_snapshot_space" := by
  obtain ⟨p1, p2, p3, p4, h1, h2, h34, h5⟩ := targetItemPrices_ok h
  simp only [hsnap, if_false] at h5
  subst h5
  have c1 := getPriceByCategory_category h1
  have c2 := getPriceByCategory_category h2
  have c34 : firstCategoryCode p3 = some "performance_storage_space" ∧
      (firstCategoryCode p4 = some "performance_storage_iops" ∨
        firstCategoryCode p4 = some "storage_tier_level") := by
    by_cases hst : storageType = "Performance"
    · simp only [hst, if_true] at h34
      obtain ⟨i3, _, hi3⟩ := getSaaSPerformSpacePrice_item h34.1
      obtain ⟨i4, _, hi4⟩ := getSaaSPerformIOPSPrice_item h34.2
      exact ⟨(performSpaceItem_some hi3).2.2.2.2.2,
        Or.inl (priceAccepted_category (performIOPSItem_some hi4).2.2.2.2).2⟩
    · simp only [hst, if_false] at h34
      obtain ⟨i4, _, hi4⟩ := enduranceTierLoop_item h34.2
      exact ⟨enduranceSpaceLoop_category h34.1,
        Or.inr (enduranceTierItem_some hi4).2.2.2.2.2⟩
  intro p hp
  simp only [List.mem_cons, List.mem_singleton, List.not_mem_nil, or_false] at hp
  rcases hp with rfl | rfl | rfl | rfl
  · rw [c1]; decide
  · rw [c2]
    intro hc
    simp only [Option.some.injEq] at hc
    exact hproto (storage_protocol_snapshot hc)
  · rw [c34.1]; decide
  · rcases c34.2 with hc | hc <;> rw [hc] <;> decide

theorem targetItemPrices_snapshot_iff {productItems : List Product_Item}
    {storageType : String} {iops : Float64} {capacity snapshotCapacity : Int}
    {storageProtocol : String} {prices : List Product_Item_Price}
    (h : targetItemPrices productItems storageType iops capacity snapshotCapacity
      storageProtocol = .ok (.ok prices))
    (hsnap : ¬ snapshotCapacity > 0) :
    ∀ p ∈ prices, (firstCategoryCode p = some "storage_snapshot_space" ↔
      storageProtocol = "snapshot_space" ∧ prices[1]? = some p) := by
  obtain ⟨p1, p2, p3, p4, h1, h2, h34, h5⟩ := targetItemPrices_ok h
  simp only [hsnap, if_false] at h5
  subst h5
  have c1 := getPriceByCategory_category h1
  have c2 := getPriceByCategory_category h2
  have c34 : firstCategoryCode p3 = some "performance_storage_space" ∧
      (firstCategoryCode p4 = some "performance_storage_iops" ∨
        firstCategoryCode p4 = some "storage_tier_level") := by
    by_cases hst : storageType = "Performance"
    · simp only [hst, if_true] at h34
      obtain ⟨i3, _, hi3⟩ := getSaaSPerformSpacePrice_item h34.1
      obtain ⟨i4, _, hi4⟩ := getSaaSPerformIOPSPrice_item h34.2
      exact ⟨(performSpaceItem_some hi3).2.2.2.2.2,
        Or.inl (priceAccepted_category (performIOPSItem_some hi4).2.2.2.2).2⟩
    · simp only [hst, if_false] at h34
      obtain ⟨i4, _, hi4⟩ := enduranceTierLoop_item h34.2
      exact ⟨enduranceSpaceLoop_category h34.1,
        Or.inr (enduranceTierItem_some hi4).2.2.2.2.2⟩
  have n1 : firstCategoryCode p1 ≠ some "storage_snapshot_space" := by rw [c1]; decide
  have n3 : firstCategoryCode p3 ≠ some "storage_snapshot_space" := by rw [c34.1]; decide
  have n4 : firstCategoryCode p4 ≠ some "storage_snapshot_space" := by
    rcases c34.2 with hc | hc <;> rw [hc] <;> decide
  have hback : storageProtocol = "snapshot_space" →
      firstCategoryCode p2 = some "storage_snapshot_space" := by
    intro hproto
    rw [c2, hproto]
    rfl
  intro p hp
  have hget : ([p1, p2, p3, p4] : List Product_Item_Price)[1]? = some p2 := rfl
  rw [hget]
  simp only [List.mem_cons, List.mem_singleton, List.not_mem_nil, or_false] at hp
  constructor
  · intro hcat
    rcases hp with rfl | rfl | rfl | rfl
    · exact absurd hcat n1
    · rw [c2] at hcat
      simp only [Option.some.injEq] at hcat
      exact ⟨storage_protocol_snapshot hcat, rfl⟩
    · exact absurd hcat n3
    · exact absurd hcat n4
  · rintro ⟨hproto, hp2⟩
    simp only [Option.some.injEq] at hp2
    rw [← hp2]
    exact hback hproto

/-- C4, as the code has it: whenever `buildStorageProductOrderContainer`
succeeds, its price list is exactly, in this order: the `storage_as_a_service`
price, the `storage_<protocol>` price, the space price, the IOPS price (storage
type `Performance`) or the tier-level price (any other storage type), followed
by the snapshot-space price if and only if `snapshotCapacity > 0`. So the list
has exactly 4 items when `snapshotCapacity = 0` and exactly 5 when
`snapshotCapacity > 0`. With `snapshotCapacity = 0` and a protocol other than
`snapshot_space` none of the 4 is a snapshot price; with protocol
`snapshot_space` the protocol price, the second of the list, is a snapshot
price, and the only one. -/
theorem buildStorageProductOrderContainer_prices (s : Session) (storageType : String)
    (iops : Float64) (capacity snapshotCapacity : Int) (storageProtocol datacenter : String)
    (hourlyBilling : Bool) (container : Container_Product_Order)
    (h : buildStorageProductOrderContainer s storageType iops capacity snapshotCapacity
      storageProtocol datacenter hourlyBilling = .ok (.ok container)) :
    (∃ pkgId productItems p1 p2 p3 p4,
      s.GetPackageProducts pkgId itemMask = .ok productItems ∧
      getPriceByCategory productItems "storage_as_a_service" = .ok (.ok p1) ∧
      getPriceByCategory productItems ("storage_" ++ storageProtocol) = .ok (.ok p2) ∧
      (if storageType = "Performance" then
        getSaaSPerformSpacePrice productItems capacity = .ok (.ok p3) ∧
        getSaaSPerformIOPSPrice productItems capacity (intOfFloat64 iops) = .ok (.ok p4)
      else
        getSaaSEnduranceSpacePrice productItems capacity iops = .ok (.ok p3) ∧
        getSaaSEnduranceTierPrice productItems iops = .ok (.ok p4)) ∧
      (if snapshotCapacity > 0 then
        ∃ p5, getSaaSSnapshotSpacePrice productItems snapshotCapacity iops storageType =
            .ok (.ok p5) ∧ container.Prices = [p1, p2, p3, p4, p5]
      else container.Prices = [p1, p2, p3, p4])) ∧
    (snapshotCapacity = 0 → container.Prices.length = 4) ∧
    (snapshotCapacity > 0 → container.Prices.length = 5) ∧
    (snapshotCapacity = 0 → storageProtocol ≠ "snapshot_space" →
      ∀ p ∈ container.Prices, firstCategoryCode p ≠ some "storage_snapshot_space") ∧
    (snapshotCapacity = 0 → ∀ p ∈ container.Prices,
      (firstCategoryCode p = some "storage_snapshot_space" ↔
        storageProtocol = "snapshot_space" ∧ container.Prices[1]? = some p)) := by
  obtain ⟨pkgId, productItems, hitems, hprices⟩ := buildStorageProductOrderContainer_ok h
  obtain ⟨p1, p2, p3, p4, h1, h2, h34, h5⟩ := targetItemPrices_ok hprices
  refine ⟨⟨pkgId, productItems, p1, p2, p3, p4, hitems, h1, h2, h34, h5⟩, ?_, ?_, ?_, ?_⟩
  · intro h0
    have hn : ¬ snapshotCapacity > 0 := by omega
    simp only [hn, if_false] at h5
    rw [h5]; rfl
  · intro hpos
    simp only [hpos, if_true] at h5
    obtain ⟨p5, _, hl⟩ := h5
    rw [hl]; rfl
  · intro h0 hproto
    exact targetItemPrices_no_snapshot hprices hproto (by omega)
  · intro h0
    exact targetItemPrices_snapshot_iff hprices (by omega)

/-- C4 on the sample session: an endurance order of 25 GB at 2 IOPS per GB with
a 50 GB snapshot reserve succeeds with 5 prices. -/
theorem buildStorageProductOrderContainer_prices_witness :
    (∃ container, buildStorageProductOrderContainer sampleSession "endurance" 2 25 50
        "block" "dal10" false = .ok (.ok container) ∧ container.Prices.length = 5) :=
  ⟨{ PackageId := some 759, Location := some "1441195",
      Prices := [plainPrice 1 "storage_as_a_service", plainPrice 2 "storage_block",
        plainPrice 5 "performance_storage_space", plainPrice 6 "storage_tier_level",
        restrictedPrice 8 "storage_snapshot_space" "STORAGE_TIER_LEVEL" "200" "200"],
      Quantity := some 1, UseHourlyPricing := some false },
    by decide,
    (buildStorageProductOrderContainer_prices sampleSession "endurance" 2 25 50
      "block" "dal10" false _ (by decide)).2.2.1 (by decide)⟩

/-- C4 as stated fails: the protocol is an argument of the builder, and with
protocol `snapshot_space` the `storage_<protocol>` price is looked up under
category `storage_snapshot_space`. On the sample session an order without a
snapshot reserve (`snapshotCapacity = 0`) then succeeds with 4 prices, the
second of which is the snapshot price 7. -/
theorem buildStorageProductOrderContainer_snapshot_protocol :
    buildStorageProductOrderContainer sampleSession "endurance" 2 25 0
        "snapshot_space" "dal10" false =
      .ok (.ok
        { PackageId := some 759, Location := some "1441195",
          Prices := [plainPrice 1 "storage_as_a_service",
            restrictedPrice 7 "storage_snapshot_space" "IOPS" "100" "6000",
            plainPrice 5 "performance_storage_space", plainPrice 6 "storage_tier_level"],
          Quantity := some 1, UseHourlyPricing := some false }) ∧
    firstCategoryCode (restrictedPrice 7 "storage_snapshot_space" "IOPS" "100" "6000") =
      some "storage_snapshot_space" := by
  decide

end SoftLayer

namespace SoftLayer

/-! ## `Create` -/

theorem toLower_ne_P (c : Char) : Char.toLower c ≠ 'P' := by
  intro h
  unfold Char.toLower at h
  simp only at h
  split at h
  · rename_i hr
    generalize c.toNat = n at hr h
    obtain ⟨h1, h2⟩ := hr
    interval_cases n <;> exact absurd h (by decide)
  · rename_i hr
    subst h
    exact hr (by decide)

theorem strings_ToLower_ne_Performance (t : String) : strings_ToLower t ≠ "Performance" := by
  intro h
  have h2 := congrArg String.data h
  simp only [strings_ToLower] at h2
  cases hl : t.toList with
  | nil => rw [hl] at h2; exact absurd h2 (by decide)
  | cons c cs =>
    rw [hl] at h2
    rw [List.map_cons, List.cons.injEq] at h2
    exact toLower_ne_P c h2.1

/-- C3: if `buildStorageProductOrderContainer` fails (as it does when a
required price cannot be resolved), `Create` returns an error and makes no
`PlaceOrder` call. -/
theorem Create_fails_before_order (s : slOps) (diskSpec : SoftLayerBlockDisk) (e : String)
    (h : buildStorageProductOrderContainer s.session (strings_ToLower diskSpec.StorageType)
      diskSpec.IOPS diskSpec.Capacity diskSpec.SnapshotCapacity blockStorage s.datacenter
      diskSpec.HourlyBilling = .ok (.error e)) :
    (Create s (.blockDisk (some diskSpec))).ret =
      .ok (.error ("Error while creating storage:" ++ e)) ∧
    (Create s (.blockDisk (some diskSpec))).orders = [] ∧
    (Create s (.blockDisk (some diskSpec))).orders.length = 0 := by
  unfold Create
  simp only [h]
  simp

/-- C3 on the sample session: 20000 GB lies outside every capacity range of the
catalog, price selection fails, and `Create` fails without placing an order. -/
theorem Create_fails_before_order_witness :
    buildStorageProductOrderContainer sampleOps.session
        (strings_ToLower (enduranceDisk 20000 0).StorageType) (enduranceDisk 20000 0).IOPS
        (enduranceDisk 20000 0).Capacity (enduranceDisk 20000 0).SnapshotCapacity blockStorage
        sampleOps.datacenter (enduranceDisk 20000 0).HourlyBilling =
      .ok (.error "Could not find price for endurance storage space") ∧
    (Create sampleOps (.blockDisk (some (enduranceDisk 20000 0)))).ret =
      .ok (.error
        ("Error while creating storage:" ++ "Could not find price for endurance storage space")) ∧
    (Create sampleOps (.blockDisk (some (enduranceDisk 20000 0)))).orders = [] :=
  ⟨by decide,
    (Create_fails_before_order sampleOps (enduranceDisk 20000 0)
      "Could not find price for endurance storage space" (by decide)).1,
    (Create_fails_before_order sampleOps (enduranceDisk 20000 0)
      "Could not find price for endurance storage space" (by decide)).2.1⟩

/-- C5 fails on the code: `Create` lower-cases the storage type before
`buildStorageProductOrderContainer` compares it with `Performance`, so the
performance rules are never applied. The sample catalog prices a performance
volume of 100 GB at 1000 IOPS by the performance rules, yet `Create` of that
disk prices it by the endurance rules, finds no endurance space price for
1000 IOPS per GB and fails without an order; and a performance disk at 2 IOPS
per GB is ordered with the endurance space and tier-level prices. -/
theorem Create_performance_priced_as_endurance :
    targetItemPrices sampleCatalog "Performance" 1000 100 0 blockStorage =
      .ok (.ok [plainPrice 1 "storage_as_a_service", plainPrice 2 "storage_block",
        plainPrice 3 "performance_storage_space",
        restrictedPrice 4 "performance_storage_iops" "STORAGE_SPACE" "100" "124"]) ∧
    (Create sampleOps (.blockDisk (some performanceDisk))).ret =
      .ok (.error "Error while creating storage:Could not find price for endurance storage space") ∧
    (Create sampleOps (.blockDisk (some performanceDisk))).orders = [] ∧
    (Create sampleOps (.blockDisk (some { performanceDisk with IOPS := 2 }))).orders.map
        (fun o => o.Container_Product_Order.Prices) =
      [[plainPrice 1 "storage_as_a_service", plainPrice 2 "storage_block",
        plainPrice 5 "performance_storage_space", plainPrice 6 "storage_tier_level"]] := by
  decide

end SoftLayer

/-! ## The unsupported providers -/

/-- C14 fails on the code: `GetRebalanceJobStatus` of `UnsupportedPoolProvider`
panics with `implement me` for every request, while the other six operations
and `Detach` of `UnsupportedCloudDriveSetProvider` return a nil response with
`ErrNotSupported`. -/
theorem GetRebalanceJobStatus_panics (Ctx Req Resp : Type) (c : Ctx) (request : Option Req) :
    (StoragePool.GetRebalanceJobStatus c request : Go (Option Resp × Option SdkError)) =
      .error (.explicit "implement me") ∧
    (StoragePool.EnumerateRebalanceJobs c request : Go (Option Resp × Option SdkError)) =
      .ok (none, some .ErrNotSupported) ∧
    (StoragePool.Resize c request : Go (Option Resp × Option SdkError)) =
      .ok (none, some .ErrNotSupported) ∧
    (StoragePool.Rebalance c request : Go (Option Resp × Option SdkError)) =
      .ok (none, some .ErrNotSupported) ∧
    (StoragePool.UpdateRebalanceJobState c request : Go (Option Resp × Option SdkError)) =
      .ok (none, some .ErrNotSupported) ∧
    (StoragePool.EnterMaintenance c request : Go (Option Resp × Option SdkError)) =
      .ok (none, some .ErrNotSupported) ∧
    (StoragePool.ExitMaintenance c request : Go (Option Resp × Option SdkError)) =
      .ok (none, some .ErrNotSupported) ∧
    (CloudDrive.Detach c request : Go (Option Resp × Option SdkError)) =
      .ok (none, some .ErrNotSupported) :=
  ⟨rfl, rfl, rfl, rfl, rfl, rfl, rfl, rfl⟩

namespace SoftLayer

/-! ## Device operations of the SoftLayer backend -/

/-- C15 fails on the code: `DeviceMappings` and `DevicePath` return
`storageops.ErrNotSupported`, but `FreeDevices` returns the error
`function not implemented`, which is not that sentinel. -/
theorem FreeDevices_not_ErrNotSupported (s : slOps) (blockDeviceMappings : List Template)
    (rootDeviceName diskName : String) :
    FreeDevices s blockDeviceMappings rootDeviceName =
      .error (.errorf "function not implemented") ∧
    FreeDevices s blockDeviceMappings rootDeviceName ≠ .error .ErrNotSupported ∧
    DeviceMappings s = .error .ErrNotSupported ∧
    DevicePath s diskName = .error .ErrNotSupported := by
  refine ⟨rfl, ?_, rfl, rfl⟩
  intro h
  cases h

theorem fmt_s_int_toList (n : Int) :
    (fmt_s_int n).toList = '%' :: ("!s(int=" ++ toString n ++ ")").toList := by
  unfold fmt_s_int
  simp only [String.toList, String.data_append]
  rfl

theorem strconv_Atoi_fmt_s_int (n : Int) : strconv_Atoi (fmt_s_int n) = (0, some .invalid) := by
  unfold strconv_Atoi
  rw [fmt_s_int_toList]
  simp [strconv_ParseInt, strconv_ParseUint, parseUintLoop, digitVal]

/-- C16 fails on the code: `GetDeviceID` renders the id with the verb `%s`, so
for a disk with id `n` it returns `%!s(int=n)` and not the decimal rendering
that the test passes to `Delete`; the integer parse of `Delete` fails on it for
every `n`. For the disk of id 9: `GetDeviceID` gives `%!s(int=9)`, `Delete` of
it returns the parse error, `Delete` of `9` succeeds. -/
theorem GetDeviceID_not_decimal (s : slOps) (disk : SoftLayerBlockDisk) :
    GetDeviceID s (.blockDisk (some disk)) = .ok (.ok (fmt_s_int disk.id)) ∧
    Delete s (fmt_s_int disk.id) = some (.numError .invalid) ∧
    GetDeviceID sampleOps (.blockDisk (some { enduranceDisk 25 0 with id := 9 })) =
      .ok (.ok "%!s(int=9)") ∧
    fmt_d 9 = "9" ∧
    Delete sampleOps "%!s(int=9)" = some (.numError .invalid) ∧
    Delete sampleOps (fmt_d 9) = none := by
  refine ⟨rfl, ?_, by decide, by decide, by decide, by decide⟩
  unfold Delete
  rw [strconv_Atoi_fmt_s_int]

end SoftLayer


namespace Server

/-! ## The registry contract -/

theorem registerAll_foldl_none {D : Type} (regs : List (String × D)) (reg : Registry D)
    (n : String) (hn : n ∉ regs.map Prod.fst) (hreg : reg n = none) :
    regs.foldl (fun reg p => (volumedrivers_Register reg p.1 p.2).1) reg n = none := by
  induction regs generalizing reg with
  | nil => simpa using hreg
  | cons p rest ih =>
    simp only [List.map_cons, List.mem_cons, not_or] at hn
    simp only [List.foldl_cons]
    apply ih _ hn.2
    unfold volumedrivers_Register
    cases hp : reg p.1 with
    | some d => simpa using hreg
    | none => simp [hn.1, hreg]

/-- C17: in the driver registry, after `Register(name, impl)` succeeds,
`Get(name)` returns `impl`; a second `Register` under the same name fails with
`AlreadyRegistered` and leaves the registry, hence the first registration, as it
was; and `Get` of a name that was never registered fails with `NotFound`. -/
theorem Register_then_Get {D : Type} (reg : Registry D) (name : String) (impl : D)
    (h : (volumedrivers_Register reg name impl).2 = none) :
    volumedrivers_Get (volumedrivers_Register reg name impl).1 name = .ok impl ∧
    (∀ impl2 : D,
      volumedrivers_Register (volumedrivers_Register reg name impl).1 name impl2 =
        ((volumedrivers_Register reg name impl).1, some .ErrDriverAlreadyRegistered) ∧
      volumedrivers_Get
        (volumedrivers_Register (volumedrivers_Register reg name impl).1 name impl2).1 name =
          .ok impl) ∧
    (∀ (regs : List (String × D)) (n : String), n ∉ regs.map Prod.fst →
      volumedrivers_Get (registerAll regs) n = .error .ErrDriverNotFound) := by
  have hfree : reg name = none := by
    unfold volumedrivers_Register at h
    cases hr : reg name with
    | none => rfl
    | some d => simp [hr] at h
  have hreg : (volumedrivers_Register reg name impl).1 =
      fun n => if n = name then some impl else reg n := by
    simp [volumedrivers_Register, hfree]
  have hget : volumedrivers_Get (volumedrivers_Register reg name impl).1 name = .ok impl := by
    rw [hreg]
    simp [volumedrivers_Get]
  refine ⟨hget, ?_, ?_⟩
  · intro impl2
    have hsecond :
        volumedrivers_Register (volumedrivers_Register reg name impl).1 name impl2 =
          ((volumedrivers_Register reg name impl).1, some .ErrDriverAlreadyRegistered) := by
      rw [hreg]
      simp [volumedrivers_Register]
    rw [hsecond]
    exact ⟨rfl, hget⟩
  · intro regs n hn
    have := registerAll_foldl_none regs emptyRegistry n hn rfl
    unfold registerAll volumedrivers_Get
    rw [this]

/-- C17 at process start: registering `echoDriver` as `pxd` in the empty
registry succeeds, and `Get` then returns it. -/
theorem Register_then_Get_witness :
    (volumedrivers_Register emptyRegistry "pxd" echoDriver).2 = none ∧
    ∃ d, volumedrivers_Get (volumedrivers_Register emptyRegistry "pxd" echoDriver).1 "pxd" =
      .ok d ∧ d.Stats "v1" true = .ok ("v1", true) :=
  ⟨rfl, echoDriver,
    (Register_then_Get emptyRegistry "pxd" echoDriver rfl).1, rfl⟩

/-! ## The stats handler -/

/-- C20 fails on the code: the handler tests `!ok`, the presence of the option,
where it means to test the error of `strconv.ParseBool`; the test is false
whenever the option is present. With the option `Cumulative=maybe`, which does
not parse as a boolean, the handler sends no bad-request error and calls
`Stats` with `cumulative = false`. (With the option absent it calls `Stats`
with `true`, and with `Cumulative=false` with `false`.) -/
theorem stats_unparsable_option_calls_Stats :
    strconv_ParseBool "maybe" = (false, some .invalid) ∧
    stats echoRegistry "pxd" "Cumulative" (statsRequest [("Cumulative", ["maybe"])]) =
      ⟨[.encode ("v1", false)], [.Stats "v1" false], none⟩ ∧
    (stats echoRegistry "pxd" "Cumulative" (statsRequest [])).calls = [.Stats "v1" true] ∧
    (stats echoRegistry "pxd" "Cumulative" (statsRequest [("Cumulative", ["false"])])).calls =
      [.Stats "v1" false] := by
  decide

end Server


namespace SoftLayer

/-! ## The probes of the two waits -/

theorem waitLoop_refresh_error (pending target : List String) (notFoundChecks : Nat)
    (refresh : Nat → Go Refreshed) (fuel i tick : Nat) (last : String)
    (res : Iface) (state e : String) (h : refresh i = .ok ⟨res, state, some e⟩) :
    waitLoop pending target notFoundChecks refresh (fuel + 1) i tick last =
      .ok ⟨res, some (.refresh e), i + 1⟩ := by
  unfold waitLoop
  rw [h]

theorem findStorageByOrderId_refresh_error (s : Session) (orderId : Int) (i : Nat)
    (res : Iface) (state e : String) (hpolls : 0 < s.lookupPolls)
    (h : findStorageRefresh s orderId i = .ok ⟨res, state, some e⟩) :
    findStorageByOrderId s orderId i = .ok (.error e, i + 1) := by
  obtain ⟨fuel, hfuel⟩ : ∃ fuel, s.lookupPolls = fuel + 1 := ⟨s.lookupPolls - 1, by omega⟩
  unfold findStorageByOrderId WaitForState
  rw [hfuel, waitLoop_refresh_error _ _ _ _ _ _ _ _ res state e h]
  cases res <;> rfl

/-- C13: the probe of `findStorageByOrderId` reports `complete` with the
storage when the account query returns exactly one; reports `pending` with a
nil result when it returns none; and returns an error, with nil result and empty
state, when it returns more than one: wherever that probe is made in the wait,
the wait ends with this error right there, and the lookup fails without a
further query. A failed account query is returned as an error too, with the
same effect. -/
theorem findStorageRefresh_cases (s : Session) (orderId : Int) (i : Nat) :
    (∀ st, s.GetNetworkStorage orderId i = .ok [st] →
      findStorageRefresh s orderId i = .ok ⟨.storage st, "complete", none⟩) ∧
    (s.GetNetworkStorage orderId i = .ok [] →
      findStorageRefresh s orderId i = .ok ⟨.nil, "pending", none⟩) ∧
    (∀ storages, s.GetNetworkStorage orderId i = .ok storages → storages.length > 1 →
      findStorageRefresh s orderId i =
        .ok ⟨.nil, "", some "Expected one Storage: %!s(<nil>)"⟩ ∧
      (∀ fuel tick last,
        waitLoop ["pending"] ["complete"] 300 (findStorageRefresh s orderId)
            (fuel + 1) i tick last =
          .ok ⟨.nil, some (.refresh "Expected one Storage: %!s(<nil>)"), i + 1⟩) ∧
      (0 < s.lookupPolls →
        findStorageByOrderId s orderId i =
          .ok (.error "Expected one Storage: %!s(<nil>)", i + 1))) ∧
    (∀ e, s.GetNetworkStorage orderId i = .error e →
      findStorageRefresh s orderId i = .ok ⟨.storage {}, "", some e⟩ ∧
      (∀ fuel tick last,
        waitLoop ["pending"] ["complete"] 300 (findStorageRefresh s orderId)
            (fuel + 1) i tick last =
          .ok ⟨.storage {}, some (.refresh e), i + 1⟩) ∧
      (0 < s.lookupPolls → findStorageByOrderId s orderId i = .ok (.error e, i + 1))) := by
  refine ⟨?_, ?_, ?_, ?_⟩
  · intro st h
    simp [findStorageRefresh, h]
  · intro h
    simp [findStorageRefresh, h]
  · intro storages h hlen
    have hr : findStorageRefresh s orderId i =
        .ok ⟨.nil, "", some "Expected one Storage: %!s(<nil>)"⟩ := by
      unfold findStorageRefresh
      rw [h]
      match storages, hlen with
      | a :: b :: rest, _ => rfl
    exact ⟨hr, fun fuel tick last => waitLoop_refresh_error _ _ _ _ _ _ _ _ _ _ _ hr,
      fun hp => findStorageByOrderId_refresh_error s orderId i _ _ _ hp hr⟩
  · intro e h
    have hr : findStorageRefresh s orderId i = .ok ⟨.storage {}, "", some e⟩ := by
      simp [findStorageRefresh, h]
    exact ⟨hr, fun fuel tick last => waitLoop_refresh_error _ _ _ _ _ _ _ _ _ _ _ hr,
      fun hp => findStorageByOrderId_refresh_error s orderId i _ _ _ hp hr⟩

/-- C13 on a vendor that finds two storages for order 77: the lookup fails at
its first query. -/
theorem findStorageRefresh_cases_witness :
    findStorageByOrderId twoMatchSession 77 0 =
      .ok (.error "Expected one Storage: %!s(<nil>)", 1) :=
  ((findStorageRefresh_cases twoMatchSession 77 0).2.2.1
    [{ Id := some 9 }, { Id := some 10 }] rfl (by decide)).2.2 (by decide)

end SoftLayer


namespace SoftLayer

/-- C18: the probe of `waitForStorageAvailable` reports `available` if and
only if the storage lookup succeeds with `activeTransactionCount = 0` and the
volume-status request succeeds with a text containing `PROVISION_COMPLETED` or
`Volume Provisioning has completed`. It reports `provisioning` when the
transaction count is `> 0` or the status text contains neither marker, `retry`
on a storage-lookup error other than an API 404 and on a status-request error,
and it returns an error only when the storage lookup fails with an API 404. -/
theorem availableRefresh_cases (s : Session) (id : Int) (i : Nat) :
    ((∃ r, availableRefresh s id i = .ok r ∧ r.state = "available" ∧ r.err = none) ↔
      ∃ result txt, s.GetObject id i = .ok result ∧
        result.ActiveTransactionCount = some 0 ∧ s.GetVolumeStatus id i = .ok txt ∧
        (strings_Contains txt "PROVISION_COMPLETED" = true ∨
          strings_Contains txt "Volume Provisioning has completed" = true)) ∧
    (∀ result n, s.GetObject id i = .ok result →
      result.ActiveTransactionCount = some n → n > 0 →
      availableRefresh s id i = .ok ⟨.storage result, "provisioning", none⟩) ∧
    (∀ result txt, s.GetObject id i = .ok result →
      result.ActiveTransactionCount = some 0 → s.GetVolumeStatus id i = .ok txt →
      strings_Contains txt "PROVISION_COMPLETED" = false →
      strings_Contains txt "Volume Provisioning has completed" = false →
      availableRefresh s id i = .ok ⟨.storage result, "provisioning", none⟩) ∧
    (∀ err, s.GetObject id i = .error err → err.statusCode ≠ some 404 →
      availableRefresh s id i = .ok ⟨.bool false, "retry", none⟩) ∧
    (∀ result e, s.GetObject id i = .ok result →
      result.ActiveTransactionCount = some 0 → s.GetVolumeStatus id i = .error e →
      availableRefresh s id i = .ok ⟨.bool false, "retry", none⟩) ∧
    ((∃ r e, availableRefresh s id i = .ok r ∧ r.err = some e) ↔
      ∃ err, s.GetObject id i = .error err ∧ err.statusCode = some 404) := by
  refine ⟨?_, ?_, ?_, ?_, ?_, ?_⟩
  · unfold availableRefresh
    cases hobj : s.GetObject id i with
    | error err =>
      by_cases h404 : err.statusCode = some 404
      · simp [h404]
      · simp [h404]
    | ok result =>
      cases hcount : result.ActiveTransactionCount with
      | none => simp [deref, hcount]
      | some n =>
        by_cases hn : n > 0
        · have hn0 : n ≠ 0 := by omega
          simp [deref, hcount, hn, hn0]
        · have hn0 : n = 0 := by omega
          subst hn0
          cases hst : s.GetVolumeStatus id i with
          | error e => simp [deref, hcount, hst]
          | ok txt =>
            cases h1 : strings_Contains txt "PROVISION_COMPLETED" <;>
              cases h2 : strings_Contains txt "Volume Provisioning has completed" <;>
              simp [deref, hcount, hst, h1, h2]
  · intro result n hobj hcount hn
    simp [availableRefresh, hobj, hcount, deref, hn]
  · intro result txt hobj hcount hst h1 h2
    simp [availableRefresh, hobj, hcount, deref, hst, h1, h2]
  · intro err hobj h404
    simp [availableRefresh, hobj, h404]
  · intro result e hobj hcount hst
    simp [availableRefresh, hobj, hcount, deref, hst]
  · unfold availableRefresh
    cases hobj : s.GetObject id i with
    | error err =>
      by_cases h404 : err.statusCode = some 404
      · simp [h404]
      · simp [h404]
    | ok result =>
      cases hcount : result.ActiveTransactionCount with
      | none => simp [deref, hcount]
      | some n =>
        by_cases hn : n > 0
        · simp [deref, hcount, hn]
        · cases hst : s.GetVolumeStatus id i with
          | error e => simp [deref, hcount, hst, hn]
          | ok txt =>
            cases h1 : strings_Contains txt "PROVISION_COMPLETED" <;>
              cases h2 : strings_Contains txt "Volume Provisioning has completed" <;>
              simp [deref, hcount, hst, hn, h1, h2]

/-- C18 on the sample session: the first probe of storage 9 reports
`available`. -/
theorem availableRefresh_cases_witness :
    ∃ r, availableRefresh sampleSession 9 0 = .ok r ∧ r.state = "available" ∧ r.err = none :=
  (availableRefresh_cases sampleSession 9 0).1.2
    ⟨{ Id := some 9, ActiveTransactionCount := some 0 }, "PROVISION_COMPLETED", rfl, rfl, rfl,
      Or.inl (by decide)⟩

end SoftLayer


namespace SoftLayer

/-! ## `getPriceByCategory` as a search -/

theorem firstPriceIn_append (xs ys : List Product_Item_Price) (category : String) :
    firstPriceIn (xs ++ ys) category =
      match firstPriceIn xs category with
      | some p => some p
      | none => firstPriceIn ys category := by
  unfold firstPriceIn
  rw [List.find?_append]
  cases List.find? _ xs <;> rfl

theorem firstPriceIn_mem {prices : List Product_Item_Price} {category : String}
    {p : Product_Item_Price} (h : firstPriceIn prices category = some p) : p ∈ prices :=
  List.mem_of_find?_eq_some h

/-- C19, as the code has it: on a catalog in which each price has an id and
each price has a location group or a first category with a code,
`getPriceByCategory` returns the first price in catalog order (items in order,
prices in order within an item) that has no location group and whose first
category code equals the requested category, and it fails with an error if and
only if no such price exists. -/
theorem getPriceByCategory_spec (productItems : List Product_Item) (priceCategory : String)
    (hid : ∀ item ∈ productItems, ∀ p ∈ item.Prices, p.Id.isSome = true)
    (hwf : ∀ item ∈ productItems, item.Prices.all priceWellFormed = true) :
    (getPriceByCategory productItems priceCategory =
      match firstPriceIn (allPrices productItems) priceCategory with
      | some p => .ok (.ok p)
      | none => .ok (.error
          ("No product items matching with category " ++ priceCategory ++
            " could be found"))) ∧
    ((∃ e, getPriceByCategory productItems priceCategory = .ok (.error e)) ↔
      firstPriceIn (allPrices productItems) priceCategory = none) := by
  have heq : getPriceByCategory productItems priceCategory =
      match firstPriceIn (allPrices productItems) priceCategory with
      | some p => .ok (.ok p)
      | none => .ok (.error
          ("No product items matching with category " ++ priceCategory ++
            " could be found")) := by
    induction productItems with
    | nil => simp [getPriceByCategory, allPrices, firstPriceIn]
    | cons item rest ih =>
      have hid2 : ∀ it ∈ rest, ∀ p ∈ it.Prices, p.Id.isSome = true :=
        fun it hm => hid it (List.mem_cons_of_mem _ hm)
      have hwf2 : ∀ it ∈ rest, it.Prices.all priceWellFormed = true :=
        fun it hm => hwf it (List.mem_cons_of_mem _ hm)
      unfold getPriceByCategory
      rw [getPrice_plain _ _ (hwf item (List.mem_cons_self _ _))]
      simp only [allPrices, firstPriceIn_append]
      cases hf : firstPriceIn item.Prices priceCategory with
      | some p =>
        have hp := hid item (List.mem_cons_self _ _) p (firstPriceIn_mem hf)
        simp [hp]
      | none =>
        simp only [Option.getD_none]
        have hnone : (({} : Product_Item_Price).Id.isSome) = false := rfl
        simp only [hnone, Bool.false_eq_true, if_false]
        exact ih hid2 hwf2
  refine ⟨heq, ?_⟩
  rw [heq]
  cases firstPriceIn (allPrices productItems) priceCategory with
  | some p => simp
  | none => simp

/-- C19 on the sample catalog: the `storage_block` price is price 2. -/
theorem getPriceByCategory_spec_witness :
    (∀ item ∈ sampleCatalog, ∀ p ∈ item.Prices, p.Id.isSome = true) ∧
    (∀ item ∈ sampleCatalog, item.Prices.all priceWellFormed = true) ∧
    getPriceByCategory sampleCatalog "storage_block" = .ok (.ok (plainPrice 2 "storage_block")) :=
  ⟨by decide, by decide,
    (getPriceByCategory_spec sampleCatalog "storage_block" (by decide) (by decide)).1.trans
      (by decide)⟩

/-- C19 as stated fails: on a catalog whose only price has an id but no
category, no price is filed under the requested category, yet
`getPriceByCategory` does not fail with an error: indexing the empty
`Categories` panics. -/
theorem getPriceByCategory_panics_without_category :
    (∀ item ∈ [itemPriceNoCategories], ∀ p ∈ item.Prices, p.Id.isSome = true) ∧
    firstPriceIn (allPrices [itemPriceNoCategories]) "storage_as_a_service" = none ∧
    getPriceByCategory [itemPriceNoCategories] "storage_as_a_service" =
      .error .indexOutOfRange := by
  decide

end SoftLayer


namespace SoftLayer


/-! ## `Create` after the order -/

theorem availableRefresh_ok {s : Session} {id : Int} {i : Nat} {res : Iface} {state : String}
    (h : availableRefresh s id i = .ok ⟨res, state, none⟩) :
    res ≠ .nil ∧ (state = "retry" ∨ state = "provisioning" ∨ state = "available") := by
  unfold availableRefresh at h
  split at h
  · split at h
    · cases h
    · cases h; exact ⟨(by intro hc; cases hc), Or.inl rfl⟩
  · split at h
    · cases h
    · split at h
      · cases h; exact ⟨(by intro hc; cases hc), Or.inr (Or.inl rfl)⟩
      · split at h
        · cases h; exact ⟨(by intro hc; cases hc), Or.inl rfl⟩
        · split at h
          · cases h; exact ⟨(by intro hc; cases hc), Or.inr (Or.inl rfl)⟩
          · cases h; exact ⟨(by intro hc; cases hc), Or.inr (Or.inr rfl)⟩

theorem not_reaches_of_probe_none {s : Session} {id : Int} {i : Nat} (fuel : Nat)
    (h : probeState s id i = none) :
    ¬ ∃ k, k < fuel ∧ probeState s id (i + k) = some "available" ∧
      ∀ j, j < k → probeState s id (i + j) = some "retry" ∨
        probeState s id (i + j) = some "provisioning" := by
  rintro ⟨k, _, hk, hj⟩
  cases k with
  | zero => simp [h] at hk
  | succ k =>
    have := hj 0 (Nat.succ_pos _)
    simp [h] at this

theorem waitLoop_available_iff (s : Session) (id : Int) (notFoundChecks fuel : Nat) :
    ∀ (i tick : Nat) (last : String),
    (∃ w, waitLoop ["retry", "provisioning"] ["available"] notFoundChecks
        (availableRefresh s id) fuel i tick last = .ok w ∧ w.err = none) ↔
    ∃ k, k < fuel ∧ probeState s id (i + k) = some "available" ∧
      ∀ j, j < k → probeState s id (i + j) = some "retry" ∨
        probeState s id (i + j) = some "provisioning" := by
  induction fuel with
  | zero =>
    intro i tick last
    simp [waitLoop]
  | succ fuel ih =>
    intro i tick last
    cases hr : availableRefresh s id i with
    | error p =>
      have hp : probeState s id i = none := by simp [probeState, hr]
      have hw : waitLoop ["retry", "provisioning"] ["available"] notFoundChecks
          (availableRefresh s id) (fuel + 1) i tick last = .error p := by
        unfold waitLoop
        rw [hr]
      rw [hw]
      constructor
      · rintro ⟨w, hw2, _⟩
        cases hw2
      · intro h
        exact absurd h (not_reaches_of_probe_none _ hp)
    | ok r =>
      obtain ⟨res, state, err⟩ := r
      cases err with
      | some e =>
        have hp : probeState s id i = none := by simp [probeState, hr]
        rw [waitLoop_refresh_error _ _ _ _ _ _ _ _ res state e hr]
        constructor
        · rintro ⟨w, hw2, hw3⟩
          cases hw2
          cases hw3
        · intro h
          exact absurd h (not_reaches_of_probe_none _ hp)
      | none =>
        have hp : probeState s id i = some state := by simp [probeState, hr]
        obtain ⟨hres, hstate⟩ := availableRefresh_ok hr
        have hpending_or : state = "available" ∨ (state = "retry" ∨ state = "provisioning") := by
          rcases hstate with h | h | h
          · exact Or.inr (Or.inl h)
          · exact Or.inr (Or.inr h)
          · exact Or.inl h
        rcases hpending_or with hav | hpend
        · have hw : waitLoop ["retry", "provisioning"] ["available"] notFoundChecks
              (availableRefresh s id) (fuel + 1) i tick last = .ok ⟨res, none, i + 1⟩ := by
            unfold waitLoop
            rw [hr]
            simp [hres, hav]
          rw [hw]
          constructor
          · intro _
            exact ⟨0, Nat.succ_pos _, by simpa [hav] using hp, by intro j hj; omega⟩
          · intro _
            exact ⟨_, rfl, rfl⟩
        · have hne : state ≠ "available" := by
            rcases hpend with h | h <;> rw [h] <;> decide
          have hmem : state ∈ ["retry", "provisioning"] := by
            rcases hpend with h | h <;> rw [h] <;> decide
          have hw : waitLoop ["retry", "provisioning"] ["available"] notFoundChecks
              (availableRefresh s id) (fuel + 1) i tick last =
              waitLoop ["retry", "provisioning"] ["available"] notFoundChecks
                (availableRefresh s id) fuel (i + 1) 0 state := by
            conv_lhs => unfold waitLoop
            rw [hr]
            simp [hres, hne, hmem]
          rw [hw, ih (i + 1) 0 state]
          constructor
          · rintro ⟨k, hk, hav, hj⟩
            refine ⟨k + 1, by omega, by rw [← hav]; congr 1; omega, ?_⟩
            intro j hjlt
            cases j with
            | zero =>
              rw [Nat.add_zero, hp]
              rcases hpend with h | h
              · exact Or.inl (by rw [h])
              · exact Or.inr (by rw [h])
            | succ j =>
              have := hj j (by omega)
              have e : i + (j + 1) = i + 1 + j := by omega
              rw [e]
              exact this
          · rintro ⟨k, hk, hav, hj⟩
            cases k with
            | zero =>
              rw [Nat.add_zero, hp] at hav
              simp only [Option.some.injEq] at hav
              exact absurd hav hne
            | succ k =>
              refine ⟨k, by omega, by rw [← hav]; congr 1; omega, ?_⟩
              intro j hjlt
              have := hj (j + 1) (by omega)
              have e : i + (j + 1) = i + 1 + j := by omega
              rw [e] at this
              exact this

theorem waitForStorageAvailable_iff (s : Session) (d : SoftLayerBlockDisk) :
    (∃ w, waitForStorageAvailable s d = .ok w ∧ w.err = none) ↔
      reachesAvailable s d.id s.availablePolls := by
  unfold waitForStorageAvailable WaitForState reachesAvailable
  rw [waitLoop_available_iff]
  simp

theorem createFromOrder_orders (s : slOps) (d : SoftLayerBlockDisk)
    (o : Container_Product_Order_Network_Storage_AsAService) :
    (createFromOrder s d o).orders = [o] := by
  unfold createFromOrder
  cases hp : s.session.PlaceOrder o false with
  | error e => simp
  | ok receipt =>
    cases ho : deref receipt.OrderId with
    | error p => simp [ho]
    | ok orderId =>
      cases hf : findStorageByOrderId s.session orderId 0 with
      | error p => simp [ho, hf]
      | ok fr =>
        obtain ⟨found, next⟩ := fr
        cases found with
        | error e => simp [ho, hf]
        | ok found =>
          cases hi : deref found.Id with
          | error p => simp [ho, hf, hi]
          | ok id1 =>
            cases hw : waitForStorageAvailable s.session { d with id := id1 } with
            | error p => simp [ho, hf, hi, hw]
            | ok w =>
              obtain ⟨res, err, nx⟩ := w
              cases err with
              | some e => simp [ho, hf, hi, hw]
              | none =>
                cases hf2 : findStorageByOrderId s.session orderId next with
                | error p => simp [ho, hf, hi, hw, hf2]
                | ok fr2 =>
                  obtain ⟨again, next2⟩ := fr2
                  cases again with
                  | error e => simp [ho, hf, hi, hw, hf2]
                  | ok again =>
                    cases hi2 : deref again.Id with
                    | error p => simp [ho, hf, hi, hw, hf2, hi2]
                    | ok id2 => simp [ho, hf, hi, hw, hf2, hi2]

theorem Create_eq_createFromOrder {s : slOps} {d : SoftLayerBlockDisk}
    {o : Container_Product_Order_Network_Storage_AsAService}
    (h : (Create s (.blockDisk (some d))).orders = [o]) :
    Create s (.blockDisk (some d)) = createFromOrder s d o := by
  unfold Create at h ⊢
  simp only at h ⊢
  split at h
  · cases h
  · cases h
  · by_cases ht : d.StorageType = Endurance
    · rw [if_pos ht] at h ⊢
      rw [createFromOrder_orders] at h
      simp only [List.cons.injEq, and_true] at h
      rw [h]
    · by_cases ht2 : d.StorageType = Performance
      · rw [if_neg ht, if_pos ht2] at h ⊢
        rw [createFromOrder_orders] at h
        simp only [List.cons.injEq, and_true] at h
        rw [h]
      · rw [if_neg ht, if_neg ht2] at h
        cases h

theorem createFromOrder_found {s : slOps} {d : SoftLayerBlockDisk}
    {o : Container_Product_Order_Network_Storage_AsAService}
    {receipt : Container_Product_Order_Receipt} {orderId : Int} {found : Network_Storage}
    {next : Nat} {id1 : Int}
    (hplace : s.session.PlaceOrder o false = .ok receipt)
    (hrec : receipt.OrderId = some orderId)
    (hfound : findStorageByOrderId s.session orderId 0 = .ok (.ok found, next))
    (hid : found.Id = some id1) :
    createFromOrder s d o =
      match waitForStorageAvailable s.session { d with id := id1 } with
      | .error p => ⟨.error p, some { d with id := id1 }, [o]⟩
      | .ok ⟨_, some err, _⟩ =>
        ⟨.ok (.error ("Error waiting for storage (" ++ fmt_d id1 ++
          ") to become ready: " ++ err.text)), some { d with id := id1 }, [o]⟩
      | .ok ⟨_, none, _⟩ =>
        match findStorageByOrderId s.session orderId next with
        | .error p => ⟨.error p, some { d with id := id1 }, [o]⟩
        | .ok (.error e, _) =>
          ⟨.ok (.error ("Error during creation of storage: " ++ e)),
            some { d with id := id1 }, [o]⟩
        | .ok (.ok again, _) =>
          match again.Id with
          | none => ⟨.error .nilDereference, some { d with id := id1 }, [o]⟩
          | some id2 => ⟨.ok (.ok { d with id := id2 }), some { d with id := id2 }, [o]⟩ := by
  unfold createFromOrder
  simp only [hplace, hrec, deref, hfound, hid]
  cases hw : waitForStorageAvailable s.session { d with id := id1 } with
  | error p => rfl
  | ok w =>
    obtain ⟨res, err, nx⟩ := w
    cases err with
    | some e => rfl
    | none =>
      simp only
      cases hf2 : findStorageByOrderId s.session orderId next with
      | error p => rfl
      | ok fr2 =>
        obtain ⟨again, next2⟩ := fr2
        cases again with
        | error e => rfl
        | ok again =>
          simp only
          cases again.Id with
          | none => rfl
          | some id2 => rfl

theorem createFromOrder_ret_iff {s : slOps} {d : SoftLayerBlockDisk}
    {o : Container_Product_Order_Network_Storage_AsAService}
    {receipt : Container_Product_Order_Receipt} {orderId : Int} {found : Network_Storage}
    {next : Nat} {id1 : Int}
    (hplace : s.session.PlaceOrder o false = .ok receipt)
    (hrec : receipt.OrderId = some orderId)
    (hfound : findStorageByOrderId s.session orderId 0 = .ok (.ok found, next))
    (hid : found.Id = some id1) :
    (∃ d2, (createFromOrder s d o).ret = .ok (.ok d2)) ↔
      reachesAvailable s.session id1 s.session.availablePolls ∧
      ∃ again next2 id2,
        findStorageByOrderId s.session orderId next = .ok (.ok again, next2) ∧
        again.Id = some id2 := by
  have hiff := waitForStorageAvailable_iff s.session { d with id := id1 }
  simp only at hiff
  rw [createFromOrder_found hplace hrec hfound hid, ← hiff]
  cases hw : waitForStorageAvailable s.session { d with id := id1 } with
  | error p => simp
  | ok w =>
    obtain ⟨res, err, nx⟩ := w
    cases err with
    | some e => simp
    | none =>
      simp only
      cases hf2 : findStorageByOrderId s.session orderId next with
      | error p => simp
      | ok fr2 =>
        obtain ⟨again, next2⟩ := fr2
        cases again with
        | error e => simp
        | ok again =>
          cases hi2 : again.Id with
          | none => simp [hi2]
          | some id2 => simp [hi2]

/-- C11, as the code has it: once the order has been placed and the storage
found, `Create` returns a disk (no error) if and only if
`waitForStorageAvailable` reaches `available` before its timeout and the second
lookup of the storage by its order id, which refreshes the device id, succeeds
with a storage that has an id. It never returns a disk when the wait failed or
timed out. -/
theorem Create_returns_disk_iff (s : slOps) (diskSpec : SoftLayerBlockDisk)
    (order : Container_Product_Order_Network_Storage_AsAService)
    (receipt : Container_Product_Order_Receipt) (orderId : Int) (found : Network_Storage)
    (next : Nat) (id1 : Int)
    (horder : (Create s (.blockDisk (some diskSpec))).orders = [order])
    (hplace : s.session.PlaceOrder order false = .ok receipt)
    (hrec : receipt.OrderId = some orderId)
    (hfound : findStorageByOrderId s.session orderId 0 = .ok (.ok found, next))
    (hid : found.Id = some id1) :
    ((∃ d, (Create s (.blockDisk (some diskSpec))).ret = .ok (.ok d)) ↔
      reachesAvailable s.session id1 s.session.availablePolls ∧
      ∃ again next2 id2,
        findStorageByOrderId s.session orderId next = .ok (.ok again, next2) ∧
        again.Id = some id2) ∧
    (¬ reachesAvailable s.session id1 s.session.availablePolls →
      ∀ d, (Create s (.blockDisk (some diskSpec))).ret ≠ .ok (.ok d)) := by
  have hiff : (∃ d, (Create s (.blockDisk (some diskSpec))).ret = .ok (.ok d)) ↔
      reachesAvailable s.session id1 s.session.availablePolls ∧
      ∃ again next2 id2,
        findStorageByOrderId s.session orderId next = .ok (.ok again, next2) ∧
        again.Id = some id2 := by
    rw [Create_eq_createFromOrder horder]
    exact createFromOrder_ret_iff hplace hrec hfound hid
  refine ⟨hiff, ?_⟩
  intro hnot d hd
  exact hnot (hiff.1 ⟨d, hd⟩).1

/-- C11 on the sample session: the order of `enduranceDisk 25 0` is placed as
order 77, storage 9 is found, the first probe reports `available`, the second
lookup finds storage 9 again, and `Create` returns the disk with id 9. -/
theorem Create_returns_disk_iff_witness :
    reachesAvailable sampleSession 9 3 ∧
    ∃ d, (Create sampleOps (.blockDisk (some (enduranceDisk 25 0)))).ret = .ok (.ok d) :=
  ⟨⟨0, by decide, by decide, by intro j hj; omega⟩,
    (Create_returns_disk_iff sampleOps (enduranceDisk 25 0) sampleOrder ⟨some 77⟩ 77
      { Id := some 9 } 1 9 (by decide) rfl rfl (by decide) rfl).1.2
      ⟨⟨0, by decide, by decide, by intro j hj; omega⟩,
        { Id := some 9 }, 2, 9, by decide, rfl⟩⟩

/-- C11 as stated fails: on a vendor whose account query finds the storage once
and fails from then on, the order is placed, the storage is found and the wait
reaches `available` at its first probe, yet `Create` returns an error: the
second lookup fails. -/
theorem Create_fails_after_available :
    (Create ⟨"dal10", relookupFailsSession⟩ (.blockDisk (some (enduranceDisk 25 0)))).orders =
      [sampleOrder] ∧
    findStorageByOrderId relookupFailsSession 77 0 = .ok (.ok { Id := some 9 }, 1) ∧
    waitForStorageAvailable relookupFailsSession { enduranceDisk 25 0 with id := 9 } =
      .ok ⟨.storage { Id := some 9, ActiveTransactionCount := some 0 }, none, 1⟩ ∧
    probeState relookupFailsSession 9 0 = some "available" ∧
    (Create ⟨"dal10", relookupFailsSession⟩ (.blockDisk (some (enduranceDisk 25 0)))).ret =
      .ok (.error "Error during creation of storage: API down") := by
  decide

theorem createFromOrder_frame (s : slOps) (d : SoftLayerBlockDisk)
    (o : Container_Product_Order_Network_Storage_AsAService) :
    (∃ n, (createFromOrder s d o).disk = some { d with id := n }) ∧
    (∀ d2, (createFromOrder s d o).ret = .ok (.ok d2) → (createFromOrder s d o).disk = some d2) ∧
    ((createFromOrder s d o).disk = some d ∨
      ∃ receipt orderId found next id1,
        s.session.PlaceOrder o false = .ok receipt ∧ receipt.OrderId = some orderId ∧
        findStorageByOrderId s.session orderId 0 = .ok (.ok found, next) ∧
        found.Id = some id1 ∧
        ((createFromOrder s d o).disk = some { d with id := id1 } ∨
          ∃ d2, (createFromOrder s d o).ret = .ok (.ok d2) ∧
            (createFromOrder s d o).disk = some d2)) := by
  cases hp : s.session.PlaceOrder o false with
  | error e =>
    have h : createFromOrder s d o =
        ⟨.ok (.error ("Error during creation of storage: " ++ e)), some d, [o]⟩ := by
      simp [createFromOrder, hp]
    rw [h]
    exact ⟨⟨d.id, rfl⟩, (by intro d2 h2; cases h2), Or.inl rfl⟩
  | ok receipt =>
    cases ho : receipt.OrderId with
    | none =>
      have h : createFromOrder s d o = ⟨.error .nilDereference, some d, [o]⟩ := by
        simp [createFromOrder, hp, ho, deref]
      rw [h]
      exact ⟨⟨d.id, rfl⟩, (by intro d2 h2; cases h2), Or.inl rfl⟩
    | some orderId =>
      cases hf : findStorageByOrderId s.session orderId 0 with
      | error p =>
        have h : createFromOrder s d o = ⟨.error p, some d, [o]⟩ := by
          simp [createFromOrder, hp, ho, deref, hf]
        rw [h]
        exact ⟨⟨d.id, rfl⟩, (by intro d2 h2; cases h2), Or.inl rfl⟩
      | ok fr =>
        obtain ⟨found, next⟩ := fr
        cases found with
        | error e =>
          have h : createFromOrder s d o =
              ⟨.ok (.error ("Error during creation of storage: " ++ e)), some d, [o]⟩ := by
            simp [createFromOrder, hp, ho, deref, hf]
          rw [h]
          exact ⟨⟨d.id, rfl⟩, (by intro d2 h2; cases h2), Or.inl rfl⟩
        | ok found =>
          cases hi : found.Id with
          | none =>
            have h : createFromOrder s d o = ⟨.error .nilDereference, some d, [o]⟩ := by
              simp [createFromOrder, hp, ho, deref, hf, hi]
            rw [h]
            exact ⟨⟨d.id, rfl⟩, (by intro d2 h2; cases h2), Or.inl rfl⟩
          | some id1 =>
            rw [createFromOrder_found hp ho hf hi]
            cases hw : waitForStorageAvailable s.session { d with id := id1 } with
            | error p =>
              exact ⟨⟨id1, rfl⟩, (by intro d2 h2; cases h2),
                Or.inr ⟨receipt, orderId, found, next, id1, rfl, ho, hf, hi, Or.inl rfl⟩⟩
            | ok w =>
              obtain ⟨res, err, nx⟩ := w
              cases err with
              | some e =>
                exact ⟨⟨id1, rfl⟩, (by intro d2 h2; cases h2),
                  Or.inr ⟨receipt, orderId, found, next, id1, rfl, ho, hf, hi, Or.inl rfl⟩⟩
              | none =>
                simp only
                cases hf2 : findStorageByOrderId s.session orderId next with
                | error p =>
                  exact ⟨⟨id1, rfl⟩, (by intro d2 h2; cases h2),
                    Or.inr ⟨receipt, orderId, found, next, id1, rfl, ho, hf, hi, Or.inl rfl⟩⟩
                | ok fr2 =>
                  obtain ⟨again, next2⟩ := fr2
                  cases again with
                  | error e =>
                    exact ⟨⟨id1, rfl⟩, (by intro d2 h2; cases h2),
                      Or.inr ⟨receipt, orderId, found, next, id1, rfl, ho, hf, hi, Or.inl rfl⟩⟩
                  | ok again =>
                    cases hi2 : again.Id with
                    | none =>
                      simp only [hi2]
                      exact ⟨⟨id1, rfl⟩, (by intro d2 h2; cases h2),
                        Or.inr ⟨receipt, orderId, found, next, id1, rfl, ho, hf, hi, Or.inl rfl⟩⟩
                    | some id2 =>
                      simp only [hi2]
                      refine ⟨⟨id2, rfl⟩, ?_,
                        Or.inr ⟨receipt, orderId, found, next, id1, rfl, ho, hf, hi,
                          Or.inr ⟨{ d with id := id2 }, rfl, rfl⟩⟩⟩
                      intro d2 h2
                      simp only [Except.ok.injEq] at h2
                      rw [h2]

theorem createFromOrder_error_id {s : slOps} {d : SoftLayerBlockDisk}
    {o : Container_Product_Order_Network_Storage_AsAService}
    {receipt : Container_Product_Order_Receipt} {orderId : Int} {found : Network_Storage}
    {next : Nat} {id1 : Int}
    (hplace : s.session.PlaceOrder o false = .ok receipt)
    (hrec : receipt.OrderId = some orderId)
    (hfound : findStorageByOrderId s.session orderId 0 = .ok (.ok found, next))
    (hid : found.Id = some id1)
    (herr : ∀ d2, (createFromOrder s d o).ret ≠ .ok (.ok d2)) :
    (createFromOrder s d o).disk = some { d with id := id1 } := by
  rw [createFromOrder_found hplace hrec hfound hid] at herr ⊢
  cases hw : waitForStorageAvailable s.session { d with id := id1 } with
  | error p => rfl
  | ok w =>
    obtain ⟨res, err, nx⟩ := w
    cases err with
    | some e => rfl
    | none =>
      simp only [hw] at herr ⊢
      cases hf2 : findStorageByOrderId s.session orderId next with
      | error p => rfl
      | ok fr2 =>
        obtain ⟨again, next2⟩ := fr2
        cases again with
        | error e => rfl
        | ok again =>
          cases hi2 : again.Id with
          | none => simp only [hi2]
          | some id2 =>
            simp only [hf2, hi2] at herr
            exact absurd rfl (herr { d with id := id2 })

theorem Create_cases (s : slOps) (d : SoftLayerBlockDisk) :
    (∃ o, Create s (.blockDisk (some d)) = createFromOrder s d o) ∨
    ((Create s (.blockDisk (some d))).disk = some d ∧
      (Create s (.blockDisk (some d))).orders = [] ∧
      ∀ d2, (Create s (.blockDisk (some d))).ret ≠ .ok (.ok d2)) := by
  unfold Create
  simp only
  split
  · exact Or.inr ⟨rfl, rfl, by intro d2 h2; cases h2⟩
  · exact Or.inr ⟨rfl, rfl, by intro d2 h2; cases h2⟩
  · by_cases ht : d.StorageType = Endurance
    · rw [if_pos ht]
      exact Or.inl ⟨_, rfl⟩
    · by_cases ht2 : d.StorageType = Performance
      · rw [if_neg ht, if_pos ht2]
        exact Or.inl ⟨_, rfl⟩
      · rw [if_neg ht, if_neg ht2]
        exact Or.inr ⟨rfl, rfl, by intro d2 h2; cases h2⟩

/-- C12, as the code has it: `Create` never changes the public fields of the
spec it is given, and it changes the private id only after the order has been
placed and the storage found by its order id. On success the spec is the disk
returned. When the order was placed and the storage found by the first lookup,
and `Create` does not return a disk (the wait or the second lookup failed, or
the call panicked), the spec has the id of the storage found and is otherwise
unchanged. When `Create` ends before that point, the spec is what it was before
the call. -/
theorem Create_frame (s : slOps) (diskSpec : SoftLayerBlockDisk) :
    (∃ n, (Create s (.blockDisk (some diskSpec))).disk = some { diskSpec with id := n }) ∧
    (∀ d, (Create s (.blockDisk (some diskSpec))).ret = .ok (.ok d) →
      (Create s (.blockDisk (some diskSpec))).disk = some d) ∧
    (∀ order receipt orderId found next id1,
      (Create s (.blockDisk (some diskSpec))).orders = [order] →
      s.session.PlaceOrder order false = .ok receipt → receipt.OrderId = some orderId →
      findStorageByOrderId s.session orderId 0 = .ok (.ok found, next) →
      found.Id = some id1 →
      (∀ d, (Create s (.blockDisk (some diskSpec))).ret ≠ .ok (.ok d)) →
      (Create s (.blockDisk (some diskSpec))).disk = some { diskSpec with id := id1 }) ∧
    ((¬ ∃ order receipt orderId found next id1,
        (Create s (.blockDisk (some diskSpec))).orders = [order] ∧
        s.session.PlaceOrder order false = .ok receipt ∧ receipt.OrderId = some orderId ∧
        findStorageByOrderId s.session orderId 0 = .ok (.ok found, next) ∧
        found.Id = some id1) →
      (Create s (.blockDisk (some diskSpec))).disk = some diskSpec) := by
  rcases Create_cases s diskSpec with ⟨o, ho⟩ | ⟨hdisk, horders, hret⟩
  · rw [ho]
    obtain ⟨h1, h2, h3⟩ := createFromOrder_frame s diskSpec o
    refine ⟨h1, h2, ?_, ?_⟩
    · intro order receipt orderId found next id1 hord hp hr hf hi herr
      rw [createFromOrder_orders] at hord
      simp only [List.cons.injEq, and_true] at hord
      subst hord
      exact createFromOrder_error_id hp hr hf hi herr
    · intro hnot
      rcases h3 with h3 | ⟨receipt, orderId, found, next, id1, hp, hr, hf, hi, _⟩
      · exact h3
      · exact absurd ⟨o, receipt, orderId, found, next, id1,
          createFromOrder_orders s diskSpec o, hp, hr, hf, hi⟩ hnot
  · refine ⟨⟨diskSpec.id, by rw [hdisk]⟩, fun d hd => absurd hd (hret d), ?_, fun _ => hdisk⟩
    intro order receipt orderId found next id1 hord
    rw [horders] at hord
    cases hord

/-- C12 on a vendor whose account query finds the storage once and fails from
then on: the order is placed, storage 9 is found, the wait succeeds and the
second lookup fails, so `Create` returns an error and leaves the spec, whose id
was 0, with id 9. -/
theorem Create_frame_witness :
    (Create ⟨"dal10", relookupFailsSession⟩ (.blockDisk (some (enduranceDisk 25 0)))).ret =
      .ok (.error "Error during creation of storage: API down") ∧
    (Create ⟨"dal10", relookupFailsSession⟩ (.blockDisk (some (enduranceDisk 25 0)))).disk =
      some { enduranceDisk 25 0 with id := 9 } :=
  ⟨by decide,
    (Create_frame ⟨"dal10", relookupFailsSession⟩ (enduranceDisk 25 0)).2.2.1
      sampleOrder ⟨some 77⟩ 77 { Id := some 9 } 1 9 (by decide) rfl rfl (by decide) rfl
      (by
        intro d hd
        have hret : (Create ⟨"dal10", relookupFailsSession⟩
            (.blockDisk (some (enduranceDisk 25 0)))).ret =
            .ok (.error "Error during creation of storage: API down") := by decide
        rw [hret] at hd
        cases hd)⟩

/-- C12 as stated fails: on a vendor where the storage has vanished when its
availability is probed, `Create` returns an error, and the spec it was given,
whose id was 0, now has id 9. -/
theorem Create_error_changes_id :
    (Create ⟨"dal10", vanishedSession⟩ (.blockDisk (some (enduranceDisk 25 0)))).ret =
      .ok (.error
        "Error waiting for storage (9) to become ready: Error retrieving storage: Not Found") ∧
    (Create ⟨"dal10", vanishedSession⟩ (.blockDisk (some (enduranceDisk 25 0)))).disk =
      some { enduranceDisk 25 0 with id := 9 } ∧
    (Create ⟨"dal10", vanishedSession⟩ (.blockDisk (some (enduranceDisk 25 0)))).disk ≠
      some (enduranceDisk 25 0) := by
  decide

end SoftLayer


namespace Server

/-! ## Dispatch and the User-Agent -/

theorem getVolDriverTraced_eq {D : Type} (reg : Registry D) (name userAgent : String) :
    getVolDriverTraced reg name ⟨userAgent⟩ =
      match (if userAgent ≠ "" then reg (firstToken userAgent) else none) with
      | some d => (.ok d, if userAgent ≠ "" then [firstToken userAgent] else [])
      | none =>
        match reg (name ++ "-sched") with
        | some d =>
          (.ok d, (if userAgent ≠ "" then [firstToken userAgent] else []) ++ [name ++ "-sched"])
        | none =>
          (volumedrivers_Get reg name,
            (if userAgent ≠ "" then [firstToken userAgent] else []) ++
              [name ++ "-sched", name]) := by
  obtain ⟨rest, hsplit⟩ := strings_Split_eq_cons userAgent
  unfold getVolDriverTraced
  simp only [hsplit, SchedDriverPostFix, volumedrivers_Get]
  by_cases hua : userAgent = ""
  · have hlen : ¬ userAgent.length > 0 := by
      rw [length_pos_iff_ne_empty]; simpa using hua
    simp only [hlen, if_false, hua, ne_eq, not_true_eq_false]
    cases reg (name ++ "-sched") <;> rfl
  · have hlen : userAgent.length > 0 := (length_pos_iff_ne_empty _).2 hua
    simp only [hlen, if_true, ne_eq, hua, not_false_eq_true]
    cases reg (firstToken userAgent) with
    | some d => rfl
    | none => cases reg (name ++ "-sched") <;> rfl

theorem getVolDriverTraced_fst {D : Type} (reg : Registry D) (name userAgent : String) :
    (getVolDriverTraced reg name ⟨userAgent⟩).1 = getVolDriver reg name ⟨userAgent⟩ := by
  rw [getVolDriverTraced_eq, getVolDriver_eq]
  cases (if userAgent ≠ "" then reg (firstToken userAgent) else none) with
  | some d => rfl
  | none => cases reg (name ++ "-sched") <;> rfl

theorem sched_name_ne_empty (name : String) : name ++ "-sched" ≠ "" := by
  intro h
  have h2 := congrArg String.length h
  simp only [String.length_append] at h2
  have h3 : ("-sched" : String).length = 6 := by decide
  have h4 : ("" : String).length = 0 := by decide
  omega

/-- C21: the result of `getVolDriver` depends on the User-Agent only through
the text before its first `/`: two non-empty User-Agent strings with the same
first `/`-separated token resolve to the same driver or both fail. With an
empty User-Agent the registry is asked for `name ++ "-sched"` and, when that is
not registered, for `name`, and for nothing else: the empty name is looked up
only when it is the base name itself. -/
theorem getVolDriver_depends_on_first_token {D : Type} (reg : Registry D)
    (name userAgent1 userAgent2 : String)
    (h1 : userAgent1 ≠ "") (h2 : userAgent2 ≠ "")
    (htoken : firstToken userAgent1 = firstToken userAgent2) :
    getVolDriver reg name ⟨userAgent1⟩ = getVolDriver reg name ⟨userAgent2⟩ ∧
    (getVolDriverTraced reg name ⟨""⟩).1 = getVolDriver reg name ⟨""⟩ ∧
    (getVolDriverTraced reg name ⟨""⟩).2 =
      (if (reg (name ++ "-sched")).isSome then [name ++ "-sched"]
       else [name ++ "-sched", name]) ∧
    (name ≠ "" → "" ∉ (getVolDriverTraced reg name ⟨""⟩).2) := by
  have htrace : (getVolDriverTraced reg name ⟨""⟩).2 =
      (if (reg (name ++ "-sched")).isSome then [name ++ "-sched"]
       else [name ++ "-sched", name]) := by
    rw [getVolDriverTraced_eq]
    simp only [ne_eq, not_true_eq_false, if_false, List.nil_append]
    cases reg (name ++ "-sched") <;> rfl
  refine ⟨?_, getVolDriverTraced_fst reg name "", htrace, ?_⟩
  · rw [getVolDriver_eq, getVolDriver_eq]
    simp only [ne_eq, h1, h2, not_false_eq_true, if_true, htoken]
  · intro hname
    rw [htrace]
    have hs := sched_name_ne_empty name
    split
    · simp only [List.mem_singleton]
      exact fun h => hs h.symm
    · simp only [List.mem_cons, List.mem_singleton, List.not_mem_nil, or_false, not_or]
      exact ⟨fun h => hs h.symm, fun h => hname h.symm⟩

/-- C21 on two versions of one client: `pxd/1.0` and `pxd/2.3` resolve alike
in the registry that has `pxd`. -/
theorem getVolDriver_depends_on_first_token_witness :
    ("pxd/1.0" : String) ≠ "" ∧ ("pxd/2.3" : String) ≠ "" ∧
    firstToken "pxd/1.0" = firstToken "pxd/2.3" ∧
    getVolDriver echoRegistry "base" ⟨"pxd/1.0"⟩ = getVolDriver echoRegistry "base" ⟨"pxd/2.3"⟩ :=
  ⟨by decide, by decide, by decide,
    (getVolDriver_depends_on_first_token echoRegistry "base" "pxd/1.0" "pxd/2.3"
      (by decide) (by decide) (by decide)).1⟩

end Server


namespace Server

/-! ## The `snapEnumerate` and `delete` handlers -/

/-- C24 fails on the code: `snapEnumerate` sizes the id slice by the number of
query keys, `len(params)`, not by the number of volume ids, `len(v)` (as
`enumerate` does). With two volume ids under the one key `VolumeID` the copy
loop indexes out of range and the handler panics before calling the driver;
with one volume id and one other query key the driver gets the id followed by
an extra empty id. Only when the two numbers agree does the driver get exactly
the ids supplied. -/
theorem snapEnumerate_sizes_ids_by_query_keys :
    snapEnumerate echoSnapRegistry "pxd" "Label" "VolumeID" (fun _ => .ok [])
        (queryRequest [("VolumeID", ["a", "b"])]) =
      ⟨[], [], some .indexOutOfRange⟩ ∧
    snapEnumerate echoSnapRegistry "pxd" "Label" "VolumeID" (fun _ => .ok [])
        (queryRequest [("VolumeID", ["a"]), ("Other", ["x"])]) =
      ⟨[.encode ["a", ""]], [.SnapEnumerate ["a", ""] none], none⟩ ∧
    snapEnumerate echoSnapRegistry "pxd" "Label" "VolumeID" (fun _ => .ok [])
        (queryRequest [("VolumeID", ["a"])]) =
      ⟨[.encode ["a"]], [.SnapEnumerate ["a"] none], none⟩ ∧
    snapEnumerate echoSnapRegistry "pxd" "Label" "VolumeID" (fun _ => .ok [])
        (queryRequest []) =
      ⟨[.encode []], [.SnapEnumerate [] none], none⟩ := by
  decide

/-- C25: the `delete` handler calls the driver's `Delete` at most once, and
only when the id parses, a driver resolves, `Inspect` returns at least one
volume and the first returned volume is not sticky; for a sticky volume it
answers `Cannot delete a sticky volume`, and when `Inspect` returns no volume
it answers a bad-request error, in both cases without calling `Delete`. -/
theorem delete_calls_Delete (reg : Registry DeleteDriver) (name : String) (r : HttpRequest) :
    ((delete reg name r).calls.filter isDeleteCall).length ≤ 1 ∧
    (∀ c ∈ (delete reg name r).calls, isDeleteCall c = true →
      ∃ volumeID d vol rest err spec,
        c = .Delete volumeID ∧ parseID r = .ok volumeID ∧
        getVolDriver reg name r.header = .ok d ∧
        d.Inspect [volumeID] = (some vol :: rest, err) ∧
        vol.Spec = some spec ∧ spec.Sticky = false) ∧
    (∀ volumeID d vol rest err spec,
      parseID r = .ok volumeID → getVolDriver reg name r.header = .ok d →
      d.Inspect [volumeID] = (some vol :: rest, err) → vol.Spec = some spec →
      spec.Sticky = true →
      (delete reg name r).writes = [.encode ⟨"Cannot delete a sticky volume"⟩] ∧
      (delete reg name r).calls.filter isDeleteCall = []) ∧
    (∀ volumeID d err,
      parseID r = .ok volumeID → getVolDriver reg name r.header = .ok d →
      d.Inspect [volumeID] = ([], err) →
      (delete reg name r).writes =
        [.sendError name "delete" ("Volume " ++ volumeID ++ " does not exist")
          StatusBadRequest] ∧
      (delete reg name r).calls.filter isDeleteCall = []) := by
  refine ⟨?_, ?_, ?_, ?_⟩
  · unfold delete
    simp only
    repeat' split
    all_goals simp [isDeleteCall]
  · unfold delete
    simp only
    cases hp : parseID r with
    | error e => simp
    | ok volumeID =>
      cases hd : getVolDriver reg name r.header with
      | error e => simp
      | ok d =>
        cases hi : d.Inspect [volumeID] with
        | mk volumes err =>
          cases volumes with
          | nil => simp [hi, isDeleteCall]
          | cons v rest =>
            cases v with
            | none => simp [hi, SoftLayer.index0, isDeleteCall]
            | some vol =>
              cases hs : vol.Spec with
              | none => simp [hi, SoftLayer.index0, hs, isDeleteCall]
              | some spec =>
                by_cases hst : spec.Sticky = true
                · simp [hi, SoftLayer.index0, hs, hst, isDeleteCall]
                · have hf : spec.Sticky = false := by simpa using hst
                  cases hdel : d.Delete volumeID <;>
                    simp [SoftLayer.index0, hs, hf, hdel, isDeleteCall, hi]
  · intro volumeID d vol rest err spec hp hd hi hs hst
    unfold delete
    simp [hp, hd, hi, SoftLayer.index0, hs, hst, isDeleteCall]
  · intro volumeID d err hp hd hi
    unfold delete
    simp [hp, hd, hi, isDeleteCall]

/-- C25 on a driver whose volume `v1` is sticky: the handler answers
`Cannot delete a sticky volume` and does not call `Delete`. -/
theorem delete_calls_Delete_witness :
    (delete (oneVolumeRegistry true) "pxd" (deleteRequest "v1")).writes =
      [.encode ⟨"Cannot delete a sticky volume"⟩] ∧
    (delete (oneVolumeRegistry true) "pxd" (deleteRequest "v1")).calls.filter isDeleteCall = [] :=
  (delete_calls_Delete (oneVolumeRegistry true) "pxd" (deleteRequest "v1")).2.2.1
    "v1" (oneVolumeDriver true) ⟨some ⟨true⟩⟩ [] none ⟨true⟩ (by decide) (by rfl) (by decide)
    rfl rfl

end Server


namespace SoftLayer

/-! ## The states of the two probes -/

theorem waitLoop_no_unexpected (pending target : List String) (notFoundChecks : Nat)
    (refresh : Nat → Go Refreshed)
    (hprobe : ∀ i r, refresh i = .ok r → r.err = none → r.result ≠ .nil →
      r.state ∈ target ∨ r.state ∈ pending)
    (fuel : Nat) :
    ∀ (i tick : Nat) (last : String) (w : Waited) (st : String),
      waitLoop pending target notFoundChecks refresh fuel i tick last = .ok w →
      w.err ≠ some (.unexpectedState st) := by
  induction fuel with
  | zero =>
    intro i tick last w st hw
    simp only [waitLoop, Except.ok.injEq] at hw
    rw [← hw]
    simp
  | succ fuel ih =>
    intro i tick last w st hw
    unfold waitLoop at hw
    cases hr : refresh i with
    | error p => simp [hr] at hw
    | ok r =>
      obtain ⟨res, state, err⟩ := r
      cases err with
      | some e =>
        simp only [hr, Except.ok.injEq] at hw
        rw [← hw]
        simp
      | none =>
        simp only [hr] at hw
        split at hw
        · simp only [Except.ok.injEq] at hw
          rw [← hw]
          simp
        · split at hw
          · split at hw
            · simp only [Except.ok.injEq] at hw
              rw [← hw]
              simp
            · exact ih _ _ _ w st hw
          · rename_i hnil
            split at hw
            · simp only [Except.ok.injEq] at hw
              rw [← hw]
              simp
            · rename_i htarget
              split at hw
              · exact ih _ _ _ w st hw
              · rename_i hpend
                have := hprobe i ⟨res, state, none⟩ hr rfl hnil
                rcases this with h | h
                · exact absurd h htarget
                · exact absurd (Or.inl h) hpend

theorem findStorageRefresh_ok (s : Session) (orderId : Int) (i : Nat) :
    ∃ r, findStorageRefresh s orderId i = .ok r ∧
      (r.err = none →
        (r.state = "pending" ∧ r.result = .nil) ∨
        (r.state = "complete" ∧ ∃ st, r.result = .storage st)) := by
  unfold findStorageRefresh
  cases s.GetNetworkStorage orderId i with
  | error e => exact ⟨_, rfl, by intro h; cases h⟩
  | ok storage =>
    match storage with
    | [] => exact ⟨_, rfl, fun _ => Or.inl ⟨rfl, rfl⟩⟩
    | [only] => exact ⟨_, rfl, fun _ => Or.inr ⟨rfl, only, rfl⟩⟩
    | a :: b :: rest => exact ⟨_, rfl, by intro h; cases h⟩

/-- C23, as the code has it: every state label that either probe reports
without an error belongs to the Pending or Target set of its own wait: the
availability probe only reports `retry`, `provisioning` or `available`, the
order-lookup probe only `pending` or `complete`, so neither wait can end in an
unexpected-state failure. Every other outcome of the order-lookup probe is an
error; every other outcome of the availability probe is an error or, when the
storage object comes without `activeTransactionCount`, a panic. -/
theorem probes_report_expected_states (s : Session) (d : SoftLayerBlockDisk)
    (id orderId : Int) (i : Nat) :
    (∀ r, availableRefresh s id i = .ok r → r.err = none →
      r.state ∈ ["retry", "provisioning"] ++ ["available"]) ∧
    (∃ r, findStorageRefresh s orderId i = .ok r ∧
      (r.err = none → r.state ∈ ["pending"] ++ ["complete"])) ∧
    (∀ w st, waitForStorageAvailable s d = .ok w → w.err ≠ some (.unexpectedState st)) ∧
    (∀ start w st,
      WaitForState ["pending"] ["complete"] 300 (findStorageRefresh s orderId)
        s.lookupPolls start = .ok w → w.err ≠ some (.unexpectedState st)) ∧
    ((∃ r, availableRefresh s id i = .ok r) ∨
      (availableRefresh s id i = .error .nilDereference ∧
        ∃ result, s.GetObject id i = .ok result ∧ result.ActiveTransactionCount = none)) := by
  refine ⟨?_, ?_, ?_, ?_, ?_⟩
  · intro r hr herr
    obtain ⟨res, state, err⟩ := r
    simp only at herr
    subst herr
    rcases (availableRefresh_ok hr).2 with h | h | h <;> simp [h]
  · obtain ⟨r, hr, hst⟩ := findStorageRefresh_ok s orderId i
    refine ⟨r, hr, fun herr => ?_⟩
    rcases hst herr with ⟨h, _⟩ | ⟨h, _⟩ <;> simp [h]
  · intro w st hw
    unfold waitForStorageAvailable WaitForState at hw
    refine waitLoop_no_unexpected _ _ _ _ ?_ _ _ _ _ w st hw
    intro j r hr herr _
    obtain ⟨res, state, err⟩ := r
    simp only at herr
    subst herr
    rcases (availableRefresh_ok hr).2 with h | h | h <;> simp [h]
  · intro start w st hw
    unfold WaitForState at hw
    refine waitLoop_no_unexpected _ _ _ _ ?_ _ _ _ _ w st hw
    intro j r hr herr hnil
    obtain ⟨r2, hr2, hst⟩ := findStorageRefresh_ok s orderId j
    rw [hr] at hr2
    simp only [Except.ok.injEq] at hr2
    subst hr2
    rcases hst herr with ⟨_, h⟩ | ⟨h, _⟩
    · exact absurd h hnil
    · exact Or.inl (by simp [h])
  · unfold availableRefresh
    cases hobj : s.GetObject id i with
    | error err =>
      by_cases h404 : err.statusCode = some 404
      · simp [h404]
      · simp [h404]
    | ok result =>
      cases hcount : result.ActiveTransactionCount with
      | none => simp [deref, hcount]
      | some n =>
        by_cases hn : n > 0
        · simp [deref, hcount, hn]
        · cases hst : s.GetVolumeStatus id i with
          | error e => simp [deref, hcount, hst, hn]
          | ok txt =>
            cases h1 : strings_Contains txt "PROVISION_COMPLETED" <;>
              cases h2 : strings_Contains txt "Volume Provisioning has completed" <;>
              simp [deref, hcount, hst, hn, h1, h2]

/-- C23 as stated fails: when the storage object comes without
`activeTransactionCount`, the availability probe neither reports a state nor
returns an error: dereferencing the count panics. -/
theorem availableRefresh_panics_without_count :
    availableRefresh noCountSession 9 0 = .error .nilDereference ∧
    noCountSession.GetObject 9 0 = .ok { Id := some 9 } := by
  decide

end SoftLayer


namespace SoftLayer

/-! ## `getPrice` without its restriction filter -/

theorem priceAccepted_unfiltered {p : Product_Item_Price} (category restrictionType : String)
    (restrictionValue : Int) (hguard : ¬ (restrictionType ≠ "" ∧ restrictionValue > 0))
    (hwf : priceWellFormed p = true) :
    priceAccepted p category restrictionType restrictionValue =
      .ok (p.LocationGroupId.isNone && firstCategoryCode p == some category) := by
  unfold priceWellFormed at hwf
  unfold priceAccepted
  cases hL : p.LocationGroupId with
  | some g => simp [bind, Except.bind, pure, Except.pure]
  | none =>
    simp only [hL, Option.isSome_none, Bool.false_or] at hwf
    unfold firstCategoryCode at hwf ⊢
    cases hC : p.Categories with
    | nil => simp [hC] at hwf
    | cons c0 rest =>
      simp only [hC] at hwf
      cases hcode : c0.CategoryCode with
      | none => simp [hcode] at hwf
      | some code =>
        by_cases hcat : code = category
        · simp [hC, hcode, hcat, index0, deref, bind, Except.bind, pure, Except.pure, hguard]
        · simp [hC, hcode, hcat, index0, deref, bind, Except.bind, pure, Except.pure]

theorem getPrice_unfiltered (prices : List Product_Item_Price)
    (category restrictionType : String) (restrictionValue : Int)
    (hguard : ¬ (restrictionType ≠ "" ∧ restrictionValue > 0))
    (hwf : prices.all priceWellFormed = true) :
    getPrice prices category restrictionType restrictionValue =
      .ok ((firstPriceIn prices category).getD {}) := by
  induction prices with
  | nil => simp [getPrice, firstPriceIn]
  | cons p rest ih =>
    simp only [List.all_cons, Bool.and_eq_true] at hwf
    unfold getPrice
    rw [priceAccepted_unfiltered category restrictionType restrictionValue hguard hwf.1]
    unfold firstPriceIn
    cases hb : (p.LocationGroupId.isNone && firstCategoryCode p == some category) with
    | true => simp [List.find?, hb]
    | false =>
      simp only [List.find?, hb]
      exact ih hwf.2

theorem snapshotSpaceItem_wf {item : Product_Item} (size : Int) (restrictionType : String)
    (restrictionValue : Int) (hguard : ¬ (restrictionType ≠ "" ∧ restrictionValue > 0))
    (hwf : itemWellFormed item = true) :
    snapshotSpaceItem item size restrictionType restrictionValue =
      .ok (if snapshotCandidate size item then
             firstPriceIn item.Prices "storage_snapshot_space"
           else none) := by
  unfold itemWellFormed at hwf
  simp only [Bool.and_eq_true] at hwf
  obtain ⟨hcap, hprices⟩ := hwf
  cases hc : item.Capacity with
  | none => simp [hc] at hcap
  | some c =>
    unfold snapshotSpaceItem snapshotCandidate
    rw [getPrice_unfiltered _ _ _ _ hguard hprices]
    by_cases hcap2 : intOfFloat64 c = size
    · cases hf : firstPriceIn item.Prices "storage_snapshot_space" with
      | none => simp [hc, hcap2, deref, bind, Except.bind, pure, Except.pure]
      | some pr =>
        cases hid : pr.Id with
        | none => simp [hc, hcap2, hid, deref, bind, Except.bind, pure, Except.pure]
        | some i => simp [hc, hcap2, hid, deref, bind, Except.bind, pure, Except.pure]
    · simp [hc, hcap2, deref, bind, Except.bind, pure, Except.pure]

theorem snapshotCandidate_price {item : Product_Item} {size : Int}
    (h : snapshotCandidate size item = true) :
    ∃ pr, firstPriceIn item.Prices "storage_snapshot_space" = some pr := by
  unfold snapshotCandidate at h
  cases hf : firstPriceIn item.Prices "storage_snapshot_space" with
  | none => simp [hf] at h
  | some pr => exact ⟨pr, rfl⟩

theorem snapshotSpaceLoop_wf (productItems : List Product_Item) (size : Int)
    (restrictionType : String) (restrictionValue : Int)
    (hguard : ¬ (restrictionType ≠ "" ∧ restrictionValue > 0))
    (hwf : ∀ item ∈ productItems, itemWellFormed item = true) :
    snapshotSpaceLoop productItems size restrictionType restrictionValue =
      match productItems.find? (snapshotCandidate size) with
      | some item => .ok (.ok ((firstPriceIn item.Prices "storage_snapshot_space").getD {}))
      | none => .ok (.error "Could not find price for snapshot space") := by
  induction productItems with
  | nil => simp [snapshotSpaceLoop]
  | cons item rest ih =>
    unfold snapshotSpaceLoop
    rw [snapshotSpaceItem_wf size restrictionType restrictionValue hguard
      (hwf item (List.mem_cons_self _ _))]
    cases hcand : snapshotCandidate size item with
    | true =>
      obtain ⟨pr, hpr⟩ := snapshotCandidate_price hcand
      simp [List.find?, hcand, hpr]
    | false =>
      simp only [List.find?, hcand, Bool.false_eq_true, if_false]
      exact ih (fun it hm => hwf it (List.mem_cons_of_mem _ hm))

/-- C22, as the code has it. `getPrice` applies its capacity-restriction filter
only when `restrictionType` is non-empty and `restrictionValue > 0`: otherwise,
on prices that each have a location group or a first category code, it returns
the first price with no location group and matching category whatever its
restriction (the zero price when there is none); under the guard a price it
returns with an id does satisfy the restriction. Consequently, for a volume
type other than `Performance` and an iops absent from the tier table, on a
catalog of well-formed items `getSaaSSnapshotSpacePrice` returns the first
`storage_snapshot_space` price of the first item whose capacity has integer
part `size` and whose first such price has an id, regardless of that price's
restriction, and fails when there is no such item. -/
theorem getSaaSSnapshotSpacePrice_unlisted (productItems : List Product_Item) (size : Int)
    (iops : Float64) (volumeType : String)
    (hvt : volumeType ≠ "Performance")
    (h1 : iops ≠ 0.25) (h2 : iops ≠ 2) (h3 : iops ≠ 4) (h4 : iops ≠ 10)
    (hwf : ∀ item ∈ productItems, itemWellFormed item = true) :
    (∀ (prices : List Product_Item_Price) (category restrictionType : String)
        (restrictionValue : Int),
      ¬ (restrictionType ≠ "" ∧ restrictionValue > 0) →
      prices.all priceWellFormed = true →
      getPrice prices category restrictionType restrictionValue =
        .ok ((firstPriceIn prices category).getD {})) ∧
    (∀ (prices : List Product_Item_Price) (category restrictionType : String)
        (restrictionValue : Int) (price : Product_Item_Price),
      restrictionType ≠ "" → restrictionValue > 0 →
      getPrice prices category restrictionType restrictionValue = .ok price →
      price.Id.isSome = true →
      price.CapacityRestrictionType = some restrictionType ∧
      ∃ lo hi, price.CapacityRestrictionMinimum = some lo ∧
        price.CapacityRestrictionMaximum = some hi ∧
        (strconv_Atoi lo).1 ≤ restrictionValue ∧ restrictionValue ≤ (strconv_Atoi hi).1) ∧
    snapshotTarget iops volumeType = ("STORAGE_TIER_LEVEL", 0) ∧
    getSaaSSnapshotSpacePrice productItems size iops volumeType =
      (match productItems.find? (snapshotCandidate size) with
      | some item => .ok (.ok ((firstPriceIn item.Prices "storage_snapshot_space").getD {}))
      | none => .ok (.error "Could not find price for snapshot space")) := by
  have hq : iops ≠ quarter := by rw [quarter_eq]; exact h1
  have ht : snapshotTarget iops volumeType = ("STORAGE_TIER_LEVEL", 0) := by
    simp [snapshotTarget, hvt, mapIndex_of_not_key hq h2 h3 h4]
  refine ⟨?_, ?_, ht, ?_⟩
  · intro prices category restrictionType restrictionValue hguard hp
    exact getPrice_unfiltered prices category restrictionType restrictionValue hguard hp
  · intro prices category restrictionType restrictionValue price hty hval hget hid
    exact priceAccepted_restriction (getPrice_found hget hid).2 hty hval
  · unfold getSaaSSnapshotSpacePrice
    rw [ht]
    exact snapshotSpaceLoop_wf productItems size "STORAGE_TIER_LEVEL" 0 (by simp) hwf

/-- C22 on the sample catalog: an endurance volume at 3 IOPS per GB, which is
not in the tier table, gets for a reserve of 50 the first snapshot price of the
50 GB item, price 7, although that price is restricted to 100 to 6000 IOPS. -/
theorem getSaaSSnapshotSpacePrice_unlisted_witness :
    getSaaSSnapshotSpacePrice sampleCatalog 50 3 "endurance" =
      .ok (.ok (restrictedPrice 7 "storage_snapshot_space" "IOPS" "100" "6000")) :=
  (getSaaSSnapshotSpacePrice_unlisted sampleCatalog 50 3 "endurance" (by decide)
    (by rw [← quarter_eq]; decide) (by decide) (by decide) (by decide)
    (by decide)).2.2.2.trans (by decide)

/-- C22 as stated fails: when the first item whose capacity equals the reserve
size has no snapshot space price, the lookup moves on and returns the price of
a later item: here the price of the second item of capacity 50, which is no
price of the first. -/
theorem getSaaSSnapshotSpacePrice_skips_first_item :
    getSaaSSnapshotSpacePrice [itemCapacity50NoSnapshot, itemSnapshot50] 50 3 "endurance" =
      .ok (.ok (restrictedPrice 7 "storage_snapshot_space" "IOPS" "100" "6000")) ∧
    [itemCapacity50NoSnapshot, itemSnapshot50].find? (fun item => item.Capacity == some 50) =
      some itemCapacity50NoSnapshot ∧
    restrictedPrice 7 "storage_snapshot_space" "IOPS" "100" "6000" ∉
      itemCapacity50NoSnapshot.Prices := by
  decide

end SoftLayer


end Openstorage
